import Mathlib

/-!
Verification development for the roguelite dungeon-crawler simulation.

The Rust source is shallowly embedded: machine integers (`u16`, `u32`,
`usize`, `i32`) become `Nat`/`Int` (with explicit wrap-around only where the
release build would wrap), `f32` coordinates become exact rationals `ℚ`, and
the transcendental float functions (`cos`, `sin`, `atan2`) — whose values no
claim depends on — are threaded through as an explicit `Trig` oracle.
The ambient global PRNG of the engine (`macroquad::rand`) is modelled as an
explicit stream of draws (`Rng`) threaded through every function that calls
it in the source, which makes the simulation's dependence on entropy outside
the `GameState` snapshot directly visible.
-/

set_option maxHeartbeats 2000000

/-- Discrete tile coordinate, `glam::IVec2` with `i32` fields. -/
structure IVec2 where
  x : Int
  y : Int
deriving DecidableEq, Repr

/-- Continuous world coordinate in pixels, `glam::Vec2` with `f32` fields,
embedded as exact rationals. -/
structure Vec2 where
  x : ℚ
  y : ℚ
deriving DecidableEq, Repr

/-- `glam::BVec2`, a pair of booleans for per-axis collision results. -/
structure BVec2 where
  x : Bool
  y : Bool
deriving DecidableEq, Repr

instance : Add IVec2 := ⟨fun a b => ⟨a.x + b.x, a.y + b.y⟩⟩
instance : Sub IVec2 := ⟨fun a b => ⟨a.x - b.x, a.y - b.y⟩⟩
instance : Add Vec2 := ⟨fun a b => ⟨a.x + b.x, a.y + b.y⟩⟩
instance : Sub Vec2 := ⟨fun a b => ⟨a.x - b.x, a.y - b.y⟩⟩
instance : Neg Vec2 := ⟨fun a => ⟨-a.x, -a.y⟩⟩

/-- Componentwise product, `Vec2 * Vec2` in glam. -/
def Vec2.mul (a b : Vec2) : Vec2 := ⟨a.x * b.x, a.y * b.y⟩

/-- `Vec2::splat`. -/
def Vec2.splat (q : ℚ) : Vec2 := ⟨q, q⟩

/-- Scale a vector by a rational. -/
def Vec2.scale (a : Vec2) (q : ℚ) : Vec2 := ⟨a.x * q, a.y * q⟩

/-- `IVec2::splat`. -/
def IVec2.splat (i : Int) : IVec2 := ⟨i, i⟩

/-- Componentwise product on tile coordinates. -/
def IVec2.mul (a b : IVec2) : IVec2 := ⟨a.x * b.x, a.y * b.y⟩

/-- `IVec2::as_vec2`. -/
def IVec2.as_vec2 (a : IVec2) : Vec2 := ⟨(a.x : ℚ), (a.y : ℚ)⟩

/-- `IVec2::abs`. -/
def IVec2.abs (a : IVec2) : IVec2 := ⟨|a.x|, |a.y|⟩

/-- `IVec2::signum` (componentwise sign). -/
def IVec2.signum (a : IVec2) : IVec2 := ⟨Int.sign a.x, Int.sign a.y⟩

/-- `v.yx()`, swapping components. -/
def IVec2.yx (a : IVec2) : IVec2 := ⟨a.y, a.x⟩

/-- Squared Euclidean distance between two world points.  The source
compares `f32` distances obtained from `Vec2::distance`; every such
comparison in the simulation is against a nonnegative bound, so it is
embedded as the equivalent exact comparison of squares. -/
def Vec2.distSq (a b : Vec2) : ℚ :=
  (a.x - b.x) * (a.x - b.x) + (a.y - b.y) * (a.y - b.y)

/-- `a.distance(b) < c` for a nonnegative bound `c`, via squares. -/
def Vec2.distLt (a b : Vec2) (c : ℚ) : Bool := Vec2.distSq a b < c * c

/-- `a.distance(b) <= c` for a nonnegative bound `c`, via squares. -/
def Vec2.distLe (a b : Vec2) (c : ℚ) : Bool := Vec2.distSq a b ≤ c * c

/-- Oracle for the transcendental `f32` operations of the simulation;
no claim in this development depends on their numeric values. -/
structure Trig where
  cos : ℚ → ℚ
  sin : ℚ → ℚ
  atan2 : ℚ → ℚ → ℚ

/-- A trivial concrete oracle used to instantiate witnesses. -/
def trigZero : Trig := ⟨fun _ => 1, fun _ => 0, fun _ _ => 0⟩

/-- The ambient global PRNG (`macroquad::rand`), embedded as an explicit
stream of raw draws.  An exhausted stream keeps yielding `0`. -/
structure Rng where
  stream : List Int
deriving DecidableEq, Repr

/-- Take the next raw draw. -/
def Rng.next (r : Rng) : Int × Rng :=
  match r.stream with
  | [] => (0, ⟨[]⟩)
  | v :: rest => (v, ⟨rest⟩)

/-- `rand::gen_range(lo, hi)` on integers: a deterministic value in
`[lo, hi)` derived from the next raw draw (for `hi > lo`). -/
def gen_range (lo hi : Int) (r : Rng) : Int × Rng :=
  let (v, r) := r.next
  (lo + v.emod (hi - lo), r)

/-- `rand::gen_range` on floats, derived from the next raw draw. -/
def gen_rangeQ (lo hi : ℚ) (r : Rng) : ℚ × Rng :=
  let (v, r) := r.next
  (lo + (hi - lo) * ((v.emod 1000 : Int) : ℚ) / 1000, r)

/-- `rand::rand()`, the raw `u32` draw. -/
def rand_u32 (r : Rng) : Int × Rng :=
  let (v, r) := r.next
  (v.emod 4294967296, r)

/-- `slice.choose()`: a deterministic element pick from the next draw;
`none` on an empty slice (where the source would panic on `unwrap`). -/
def Rng.choose {α : Type} (l : List α) (r : Rng) : Option α × Rng :=
  let (v, r) := r.next
  (l.get? (v.emod l.length).toNat, r)

/-! ## Geometry (`src/math.rs`) -/

/-- A line segment. -/
structure Line where
  point1 : Vec2
  point2 : Vec2
deriving DecidableEq, Repr

/-- Orientation test: `ccw` from `src/math.rs`. -/
def ccw (point1 point2 point3 : Vec2) : Bool :=
  let diff2 := point2 - point1
  let diff3 := point3 - point1
  diff3.y * diff2.x > diff2.y * diff3.x

/-- `Line::intersect`: the four-orientation segment intersection test
(colinear configurations count as non-intersecting). -/
def Line.intersect (l1 l2 : Line) : Bool :=
  (ccw l1.point1 l2.point1 l2.point2 != ccw l1.point2 l2.point1 l2.point2) &&
    (ccw l1.point1 l1.point2 l2.point1 != ccw l1.point1 l1.point2 l2.point2)

/-- The oriented rectangle of `src/math.rs`: a center plus four edges. -/
structure Polygon where
  center : Vec2
  lines : List Line
deriving DecidableEq, Repr

/-- `Polygon::shift`. -/
def Polygon.shift (p : Polygon) (dir : Vec2) : Polygon :=
  { center := p.center + dir
    lines := p.lines.map fun l => ⟨l.point1 + dir, l.point2 + dir⟩ }

/-- `easy_polygon(center, half_size, rotation)` from `src/math.rs`. -/
def easy_polygon (T : Trig) (center half_size : Vec2) (rotation : ℚ) : Polygon :=
  let rhxc := half_size.x * T.cos rotation
  let rhxs := half_size.x * T.sin rotation
  let rhyc := half_size.y * T.cos rotation
  let rhys := half_size.y * T.sin rotation
  let corner1 : Vec2 := ⟨center.x - rhxc - rhys, center.y - rhxs + rhyc⟩
  let corner2 : Vec2 := ⟨center.x + rhxc - rhys, center.y + rhxs + rhyc⟩
  let corner3 : Vec2 := ⟨center.x - rhxc + rhys, center.y - rhxs - rhyc⟩
  let corner4 : Vec2 := ⟨center.x + rhxc + rhys, center.y + rhxs - rhyc⟩
  { center := center
    lines := [⟨corner1, corner2⟩, ⟨corner3, corner4⟩, ⟨corner2, corner4⟩,
      ⟨corner1, corner3⟩] }

/-- `aabb_collision(poly1, poly2, distance)`: any edge of `poly1` shifted by
`distance` intersects any edge of `poly2`. -/
def aabb_collision (poly1 poly2 : Polygon) (distance : Vec2) : Bool :=
  let poly1 := poly1.shift distance
  poly1.lines.any fun line1 => poly2.lines.any fun line2 => line1.intersect line2

/-- `aabb_collision_dir(aabb1, aabb2, distance)`: per-axis collision used
for axis-separated sliding movement. -/
def aabb_collision_dir (obj1 obj2 : Polygon) (distance : Vec2) : BVec2 :=
  let obj1_pos_x := obj1.shift ⟨distance.x, 0⟩
  let obj1_pos_y := obj1.shift ⟨0, distance.y⟩
  ⟨aabb_collision obj1_pos_x obj2 distance, aabb_collision obj1_pos_y obj2 distance⟩

/-- `get_angle(c, e)` from `src/math.rs`, via the `atan2` oracle. -/
def get_angle (T : Trig) (c e : Vec2) : ℚ :=
  let d := c - e
  T.atan2 d.y d.x

/-- One step of the midpoint-circle loop of `points_on_circumference`:
eight symmetric points pushed per iteration. -/
def circle_octet (center d : IVec2) : List IVec2 :=
  [center + d, center + d.yx,
    center + d.mul ⟨-1, 1⟩, center + (d.yx.mul ⟨-1, 1⟩),
    center + d.mul ⟨-1, -1⟩, center + (d.yx.mul ⟨-1, -1⟩),
    center + d.mul ⟨1, -1⟩, center + (d.yx.mul ⟨1, -1⟩)]

/-- The loop of `points_on_circumference`, recursing on the decreasing
measure `d.x + 1 - d.y` exactly while the source's `while d.y <= d.x` runs. -/
def circle_go_loop (center : IVec2) : Nat → IVec2 → Int → List IVec2
  | 0, _, _ => []
  | n + 1, d, o2 =>
    if d.y ≤ d.x then
      circle_octet center d ++
        (if o2 ≤ 0 then
          circle_go_loop center n ⟨d.x, d.y + 1⟩ (o2 + 2 * (d.y + 1) + 1)
        else
          circle_go_loop center n ⟨d.x - 1, d.y + 1⟩
            (o2 + 2 * ((d.y + 1) - (d.x - 1)) + 1))
    else []

def circle_go (center : IVec2) (d : IVec2) (o2 : Int) : List IVec2 :=
  circle_go_loop center (d.x + 1 - d.y).toNat d o2

/-- `points_on_circumference(center, radius)`: Bresenham circle. -/
def points_on_circumference (center : IVec2) (radius : Int) : List IVec2 :=
  circle_go center ⟨radius, 0⟩ (1 - radius)

/-- The loop of `points_on_line`, with the source's own counter `n` as the
recursion fuel (the source decrements `n` to zero). -/
def line_go (d inc : IVec2) (pos : IVec2) (err : Int) : Nat → List IVec2
  | 0 => []
  | n + 1 =>
    pos ::
      (if err > 0 then
        line_go d inc ⟨pos.x + inc.x, pos.y⟩ (err - d.y) n
      else
        line_go d inc ⟨pos.x, pos.y + inc.y⟩ (err + d.x) n)

/-- `points_on_line(pos1, pos2)`: Bresenham line rasterization. -/
def points_on_line (pos1 pos2 : IVec2) : List IVec2 :=
  let d := (pos2 - pos1).abs
  let n := 1 + d.x + d.y
  let inc := IVec2.signum (pos2 - pos1)
  let err := d.x - d.y
  let d2 := ⟨d.x * 2, d.y * 2⟩
  line_go d2 inc pos1 err n.toNat

/-! ## Enchantments (`src/enchantments.rs`) -/

/-- `EnchantmentKind`. -/
inductive EnchantmentKind where
  | Blinded
  | Sticky
  | Regenerating
deriving DecidableEq, Repr

/-- `Enchantment`: a kind plus a strength (`u8`). -/
structure Enchantment where
  kind : EnchantmentKind
  strength : Nat
deriving DecidableEq, Repr

/-- A keyed enchantment registry (`HashMap<EnchantmentKind, (strength, frames)>`
in the source; one slot per kind since the map holds at most one entry per
key).  Each entry stores the strength and the remaining-frames counter. -/
structure EnchantMap where
  blinded : Option (Nat × Nat)
  sticky : Option (Nat × Nat)
  regenerating : Option (Nat × Nat)
deriving DecidableEq, Repr

/-- The empty registry. -/
def EnchantMap.empty : EnchantMap := ⟨none, none, none⟩

/-- Look up one kind. -/
def EnchantMap.get (m : EnchantMap) : EnchantmentKind → Option (Nat × Nat)
  | .Blinded => m.blinded
  | .Sticky => m.sticky
  | .Regenerating => m.regenerating

/-- Insert an entry for one kind. -/
def EnchantMap.insert (m : EnchantMap) (k : EnchantmentKind) (v : Nat × Nat) :
    EnchantMap :=
  match k with
  | .Blinded => { m with blinded := some v }
  | .Sticky => { m with sticky := some v }
  | .Regenerating => { m with regenerating := some v }

/-! ## Items (`src/items.rs`) -/

/-- `PotionType`. -/
inductive PotionType where
  | Regeneration
deriving DecidableEq, Repr

/-- `ItemType`. -/
inductive ItemType where
  | ShortSword
  | WizardsDagger
  | WizardGlove
  | ThrowingKnife
  | Gold (amount : Nat)
  | Potion (p : PotionType)
deriving DecidableEq, Repr

/-- `ItemInfo`. -/
structure ItemInfo where
  cursed : Bool
  item_type : ItemType
  tile_pos : Option IVec2
  stack_count : Option Nat
deriving DecidableEq, Repr

/-- `ItemInfo::new`. -/
def ItemInfo.new (item_type : ItemType) (tile_pos : Option IVec2) : ItemInfo :=
  { cursed := false
    item_type := item_type
    tile_pos := tile_pos
    stack_count :=
      match item_type with
      | .ThrowingKnife => some 1
      | .Potion _ => some 1
      | _ => none }

/-! ## Tile grid (`src/map.rs`): objects, doors, rooms, the floor -/

/-- `TILE_SIZE`. -/
def TILE_SIZE : Nat := 30

/-- `MAP_WIDTH_TILES`. -/
def MAP_WIDTH_TILES : Nat := 50

/-- `MAP_HEIGHT_TILES`. -/
def MAP_HEIGHT_TILES : Nat := 50

/-- `TrapType`. -/
inductive TrapType where
  | Teleport
  | SpawnMonster
deriving DecidableEq, Repr

/-- `Trap`. -/
structure Trap where
  triggered : Bool
  trap_type : TrapType
deriving DecidableEq, Repr

/-- `EffectType` (its single variant is slime residue). -/
inductive EffectType where
  | Slimed
deriving DecidableEq, Repr

/-- A tile-resident timed `Effect`. -/
structure Effect where
  time_til_dissipate : Option Nat
  effect_type : EffectType
deriving DecidableEq, Repr

/-- `EffectType → Enchantment` (the `Into<Enchantment>` impl). -/
def EffectType.toEnchantment : EffectType → Enchantment
  | .Slimed => ⟨.Sticky, 1⟩

/-- `Door`. -/
structure Door where
  pos : IVec2
  is_open : Bool
deriving DecidableEq, Repr

/-- One tile's static state (`Object`).  The source keys tile effects by
`EffectType`, which has a single variant, so the effect map is one slot. -/
structure Object where
  pos : IVec2
  is_floor : Bool
  has_been_seen : Bool
  is_currently_visible : Bool
  items : List ItemInfo
  door : Option Door
  trap : Option Trap
  effects : Option Effect
deriving DecidableEq, Repr

/-- `Object::default()`. -/
def Object.default : Object :=
  { pos := ⟨0, 0⟩
    is_floor := false
    has_been_seen := false
    is_currently_visible := false
    items := []
    door := none
    trap := none
    effects := none }

/-- `Object::is_collidable`. -/
def Object.is_collidable (o : Object) : Bool :=
  if o.is_floor then false
  else
    match o.door with
    | some door => !door.is_open
    | none => true

/-- The world-space center of a tile (`Object::as_polygon`'s center). -/
def Object.centerVec (o : Object) : Vec2 :=
  ⟨(o.pos.x : ℚ) * 30 + 15, (o.pos.y : ℚ) * 30 + 15⟩

/-- `Object::as_polygon`: the tile's unrotated 30×30 square. -/
def Object.as_polygon (T : Trig) (o : Object) : Polygon :=
  easy_polygon T o.centerVec ⟨15, 15⟩ 0

/-- `Room`. -/
structure Room where
  top_left : IVec2
  bottom_right : IVec2
  doors : List Door
deriving DecidableEq, Repr

/-- An integer range `[lo, hi)` as a list (Rust `lo..hi`). -/
def intRange (lo hi : Int) : List Int :=
  (List.range (hi - lo).toNat).map fun (i : Nat) => lo + (i : Int)

/-- An inclusive integer range `[lo, hi]` (Rust `lo..=hi`). -/
def intRangeIncl (lo hi : Int) : List Int :=
  (List.range (hi + 1 - lo).toNat).map fun (i : Nat) => lo + (i : Int)

/-- `Room::generate_walls`: the wall tile positions of a room. -/
def Room.generate_walls (r : Room) : List IVec2 :=
  ((intRange r.top_left.x r.bottom_right.x).flatMap fun x =>
    [⟨x, r.top_left.y⟩, ⟨x, r.bottom_right.y⟩]) ++
    ((intRangeIncl r.top_left.y r.bottom_right.y).flatMap fun y =>
      [⟨r.top_left.x, y⟩, ⟨r.bottom_right.x, y⟩])

/-- `Room::generate_wall_objects`. -/
def Room.generate_wall_objects (r : Room) : List Object :=
  r.generate_walls.map fun w_pos =>
    { Object.default with
      pos := w_pos
      is_floor := false
      door := (r.doors.find? fun d => d.pos = w_pos) }

/-- The per-tile body of `Room::generate_floor`: a floor tile with a
1-in-249 trap chance and a 1-in-50 item chance, drawn from the PRNG. -/
def floor_tile_object (x y : Int) (r : Rng) : Object × Rng :=
  let (trapRoll, r) := gen_range 1 250 r
  let is_trap := trapRoll = 100
  let (trap, r) :=
    if is_trap then
      let (raw, r) := rand_u32 r
      (some { triggered := false
              trap_type :=
                if raw > 2147483647 then TrapType.Teleport
                else TrapType.SpawnMonster },
        r)
    else (none, r)
  let (itemRoll, r) := gen_range 0 50 r
  let pos : IVec2 := ⟨x, y⟩
  let items :=
    if itemRoll = 25 then [ItemInfo.new (.Potion .Regeneration) (some pos)] else []
  ({ Object.default with
      pos := pos
      is_floor := true
      items := items
      trap := trap },
    r)

/-- Thread the PRNG through a list of generators, keeping the order of the
source's nested iteration. -/
def mapRng {α β : Type} (f : α → Rng → β × Rng) : List α → Rng → List β × Rng
  | [], r => ([], r)
  | a :: rest, r =>
    let (b, r) := f a r
    let (bs, r) := mapRng f rest r
    (b :: bs, r)

/-- `Room::generate_floor`: interior floor tiles in column-major source
order (`x` outer, `y` inner). -/
def Room.generate_floor (r : Room) (rng : Rng) : List Object × Rng :=
  mapRng
    (fun (xy : Int × Int) rng => floor_tile_object xy.1 xy.2 rng)
    ((intRange r.top_left.x r.bottom_right.x).flatMap fun x =>
      (intRange r.top_left.y r.bottom_right.y).map fun y => (x, y))
    rng

/-- `Room::inside_room`: strict interior test. -/
def Room.inside_room (r : Room) (pos : IVec2) : Bool :=
  pos.x > r.top_left.x && pos.y > r.top_left.y &&
    pos.x < r.bottom_right.x && pos.y < r.bottom_right.y

/-- `Room::center`. -/
def Room.center (r : Room) : IVec2 :=
  ⟨(r.top_left.x + r.bottom_right.x) / 2, (r.top_left.y + r.bottom_right.y) / 2⟩

/-- `Floor`: the dense tile array. -/
structure Floor where
  objects : List Object
deriving DecidableEq, Repr

/-- The row-major flat index of a tile position, as computed everywhere in
`src/map.rs` (`pos.x + pos.y * MAP_WIDTH_TILES`). -/
def tileIndex (pos : IVec2) : Int :=
  pos.x + pos.y * 50

/-- `Floor::get_object_from_pos`: a negative flat index becomes a huge
`usize` in the source's cast and therefore misses. -/
def Floor.get_object_from_pos (f : Floor) (pos : IVec2) : Option Object :=
  if tileIndex pos < 0 then none else f.objects.get? (tileIndex pos).toNat

/-- `get_object_from_pos_list` (the slice-based helper). -/
def get_object_from_pos_list (pos : IVec2) (obj_list : List Object) :
    Option Object :=
  if tileIndex pos < 0 then none else obj_list.get? (tileIndex pos).toNat

/-- `get_object_from_pos_mut` (the index-returning helper used by
`set_visible_objects`): returns the flat index when it is in bounds. -/
def object_index_from_pos (pos : IVec2) (obj_list : List Object) : Option Nat :=
  if tileIndex pos < 0 then none
  else if (tileIndex pos).toNat < obj_list.length then some (tileIndex pos).toNat
  else none

/-- `Floor::collision_obj`: the first collidable object the shifted shape
intersects. -/
def Floor.collision_obj (T : Trig) (f : Floor) (poly : Polygon) (distance : Vec2) :
    Option Object :=
  f.objects.find? fun o =>
    o.is_collidable && aabb_collision poly (o.as_polygon T) distance

/-- `Floor::collision`. -/
def Floor.collision (T : Trig) (f : Floor) (poly : Polygon) (distance : Vec2) :
    Bool :=
  (f.collision_obj T poly distance).isSome

/-- `Floor::collision_dir`: the OR-fold of per-axis collision over all
collidable objects. -/
def Floor.collision_dir (T : Trig) (f : Floor) (poly : Polygon) (distance : Vec2) :
    BVec2 :=
  f.objects.foldl
    (fun acc o =>
      if o.is_collidable then
        let ci := aabb_collision_dir poly (o.as_polygon T) distance
        if ci.x || ci.y then ⟨acc.x || ci.x, acc.y || ci.y⟩ else acc
      else acc)
    ⟨false, false⟩

/-- `pos_to_tile`: world center to tile coordinate by flooring. -/
def pos_to_tile (center : Vec2) : IVec2 :=
  ⟨⌊center.x / 30⌋, ⌊center.y / 30⌋⟩

/-- `distance_squared` on tiles (the A* heuristic). -/
def distance_squared (pos1 pos2 : IVec2) : Int :=
  (pos2.x - pos1.x) * (pos2.x - pos1.x) + (pos2.y - pos1.y) * (pos2.y - pos1.y)

/-! ## Visibility rays (`Floor::set_visible_objects` / `Floor::visible_objects`) -/

/-- The walk of one ray in `set_visible_objects`: collect the flat index of
every position the ray visits, stopping after the first collidable object;
positions whose flat index is out of bounds are skipped (the ray keeps
going), exactly as in the source. -/
def collect_ray (objects : List Object) : List IVec2 → List Nat
  | [] => []
  | p :: rest =>
    match object_index_from_pos p objects with
    | some i =>
      i ::
        (if (objects.getD i Object.default).is_collidable then []
        else collect_ray objects rest)
    | none => collect_ray objects rest

/-- Set `has_been_seen` and `is_currently_visible` at one index. -/
def markSeen : List Object → Nat → List Object
  | [], _ => []
  | o :: rest, 0 =>
    { o with has_been_seen := true, is_currently_visible := true } :: rest
  | o :: rest, n + 1 => o :: markSeen rest n

/-- The rays cast by a field-of-view query from a tile. -/
def fov_rays (center_tile : IVec2) (radius : Int) : List (List IVec2) :=
  (points_on_circumference center_tile radius).map fun edge =>
    points_on_line center_tile edge

/-- `Floor::set_visible_objects(aabb, size, objects)`; the shape enters only
through its center (`pos_to_tile`). -/
def set_visible_objects (center : Vec2) (size : Option Int)
    (objects : List Object) : List Object :=
  let center_tile := pos_to_tile center
  let rays := fov_rays center_tile (size.getD 12)
  let visible_object_indices := rays.flatMap fun ray => collect_ray objects ray
  visible_object_indices.foldl markSeen objects

/-- The walk of one ray in the read-only `Floor::visible_objects`. -/
def visible_ray (f : Floor) : List IVec2 → List Object
  | [] => []
  | p :: rest =>
    match f.get_object_from_pos p with
    | some obj =>
      obj :: (if obj.is_collidable then [] else visible_ray f rest)
    | none => visible_ray f rest

/-- `Floor::visible_objects(aabb, size)`: the objects every ray visits, each
ray stopped at its first collidable object. -/
def Floor.visible_objects (f : Floor) (center : Vec2) (size : Option Int) :
    List Object :=
  (fov_rays (pos_to_tile center) (size.getD 12)).flatMap fun ray =>
    visible_ray f ray

/-! ## Pathfinder (`find_viable_neighbors`, `inner_find_path`)

The grid search itself is `pathfinding::prelude::astar`, an external crate
dependency whose code is not part of this repository.  It is modelled from
its documented contract: best-first A* over the supplied successor function,
returning the reconstructed route from the start node to the first node
satisfying the success predicate, start node included.  The frontier is kept
as an explicit list; the entry with the smallest `g + h` value (leftmost on
ties) is expanded first, expanded nodes are closed, and each frontier entry
carries its own reversed path, which realizes the crate's parent-map
reconstruction. -/

/-- A frontier entry: current node, reversed tail of its path, path cost. -/
structure ANode where
  cur : IVec2
  rest : List IVec2
  g : Int
deriving DecidableEq, Repr

/-- Pick the frontier entry with the smallest value of `f` (leftmost on
ties), returning it and the remaining frontier. -/
def pickMin (f : ANode → Int) : List ANode → Option (ANode × List ANode)
  | [] => none
  | a :: rest =>
    match pickMin f rest with
    | none => some (a, [])
    | some (b, rem) =>
      if f a ≤ f b then some (a, rest) else some (b, a :: rem)

/-- The A* loop: expand the cheapest frontier entry, succeed when the goal
is popped, skip entries whose node is already closed. -/
def astar_go (nbrs : IVec2 → List IVec2) (h : IVec2 → Int) (goal : IVec2) :
    Nat → List ANode → List IVec2 → Option (List IVec2)
  | 0, _, _ => none
  | fuel + 1, opn, closed =>
    match pickMin (fun n => n.g + h n.cur) opn with
    | none => none
    | some (best, rem) =>
      if best.cur = goal then some (best.cur :: best.rest).reverse
      else if closed.contains best.cur then astar_go nbrs h goal fuel rem closed
      else
        let closed := best.cur :: closed
        let succs := (nbrs best.cur).filter fun p => !closed.contains p
        let newNodes : List ANode :=
          succs.map fun p => ⟨p, best.cur :: best.rest, best.g + 1⟩
        astar_go nbrs h goal fuel (rem ++ newNodes) closed

/-- Fuel for the A* loop.  The search space is the `51 × 51` tile grid
enforced by `find_viable_neighbors`, so this bound is never reached. -/
def ASTAR_FUEL : Nat := 20000

/-- `pathfinding::prelude::astar` (edge costs are uniformly 1 here, as in
`find_viable_neighbors`). -/
def astar (start : IVec2) (nbrs : IVec2 → List IVec2) (h : IVec2 → Int)
    (goal : IVec2) : Option (List IVec2) :=
  astar_go nbrs h goal ASTAR_FUEL [⟨start, [], 0⟩] []

/-- `find_viable_neighbors`: 4-adjacent tiles, bounded to the map grid,
optionally restricted to the visible set, excluding collidable objects
unless they are doors and door collision is ignored. -/
def find_viable_neighbors (collidable_objects : List Object) (pos : IVec2)
    (visible_objects : Option (List Object)) (ignore_door_collision : Bool) :
    List IVec2 :=
  let potential_neighbors : List IVec2 :=
    [⟨pos.x - 1, pos.y⟩, ⟨pos.x + 1, pos.y⟩, ⟨pos.x, pos.y - 1⟩,
      ⟨pos.x, pos.y + 1⟩]
  (potential_neighbors.filter fun p =>
    if p.x < 0 || p.y < 0 || p.x > 50 || p.y > 50 then false
    else
      match visible_objects with
      | some vs => vs.any fun o => o.pos = p
      | none => true).filter
    fun p =>
      match get_object_from_pos_list p collidable_objects with
      | some obj =>
        if obj.is_collidable then ignore_door_collision && obj.door.isSome
        else true
      | none => true

/-- `inner_find_path`: shapes enter only through their centers; the result
maps every path tile to `tile * TILE_SIZE` world coordinates. -/
def inner_find_path (f : Floor) (startC goalC : Vec2)
    (only_visible ignore_door_collision : Bool) (_randomness : Option Int) :
    Option (List Vec2) :=
  let start_tile_pos := pos_to_tile startC
  let goal_tile_pos := pos_to_tile goalC
  let vis :=
    if only_visible then some (f.visible_objects startC none) else none
  let path :=
    astar start_tile_pos
      (fun pos => find_viable_neighbors f.objects pos vis ignore_door_collision)
      (fun pos => distance_squared pos goal_tile_pos) goal_tile_pos
  path.map fun positions =>
    positions.map fun pos => ⟨(pos.x : ℚ) * 30, (pos.y : ℚ) * 30⟩

/-- `Floor::find_path`. -/
def Floor.find_path (f : Floor) (startC goalC : Vec2)
    (only_visible ignore_door_collision : Bool) (randomness : Option Int) :
    Option (List Vec2) :=
  inner_find_path f startC goalC only_visible ignore_door_collision randomness

/-! ## Players (`src/player.rs`) -/

/-- `PLAYER_SIZE`. -/
def PLAYER_SIZE : ℚ := 12

/-- `PlayerClass`. -/
inductive PlayerClass where
  | Warrior
  | Wizard
  | Rogue
deriving DecidableEq, Repr

/-- HP/MP bookkeeping (`PointInfo`). -/
structure PointInfo where
  points : Nat
  regen_rate : Nat
  max_points : Nat
  time_til_regen : Nat
deriving DecidableEq, Repr

/-- `Spell`. -/
inductive Spell where
  | BlindingLight
  | MagicMissile
deriving DecidableEq, Repr

/-- `SelectionType`. -/
inductive SelectionType where
  | Hovered
  | Selected
deriving DecidableEq, Repr

/-- `ItemSelectedInfo`. -/
structure ItemSelectedInfo where
  index : Nat
  selection_type : SelectionType
deriving DecidableEq, Repr

/-- `PlayerInventory`. -/
structure PlayerInventory where
  primary_item : Option ItemInfo
  secondary_item : Option ItemInfo
  selected_item : Option ItemSelectedInfo
  items : List ItemInfo
deriving DecidableEq, Repr

/-- `Player`. -/
structure Player where
  angle : ℚ
  pos : Vec2
  speed : ℚ
  hp : PointInfo
  mp : PointInfo
  willpower : Nat
  invincibility_frames : Nat
  primary_cooldown : Nat
  secondary_cooldown : Nat
  spells : List Spell
  changing_spell : Bool
  time_til_change_spell : Nat
  xp : Nat
  level : Nat
  gold : Nat
  in_inventory : Bool
  inventory : PlayerInventory
  enchantments : EnchantMap
deriving DecidableEq, Repr

/-- `Player::new(class, pos)`. -/
def Player.new (cls : PlayerClass) (pos : Vec2) : Player :=
  let primary_item :=
    match cls with
    | .Warrior => some (ItemInfo.new .ShortSword none)
    | .Wizard => some (ItemInfo.new .WizardGlove none)
    | .Rogue => some { ItemInfo.new .ThrowingKnife none with stack_count := some 5 }
  let secondary_item :=
    match cls with
    | .Wizard => some (ItemInfo.new .WizardsDagger none)
    | _ => none
  let hp : PointInfo :=
    match cls with
    | .Wizard => ⟨20, 15 * 60, 20, 0⟩
    | .Warrior => ⟨30, 15 * 60, 30, 0⟩
    | .Rogue => ⟨20, 15 * 60, 20, 0⟩
  let mp : PointInfo :=
    match cls with
    | .Wizard => ⟨6, 7 * 60, 6, 0⟩
    | .Warrior => ⟨3, 10 * 60, 3, 0⟩
    | .Rogue => ⟨4, 9 * 60, 4, 0⟩
  let willpower :=
    match cls with
    | .Wizard => 20
    | .Warrior => 10
    | .Rogue => 15
  let spells : List Spell :=
    match cls with
    | .Warrior => []
    | .Rogue => []
    | .Wizard => [.MagicMissile, .BlindingLight]
  { angle := 0
    pos := pos
    speed := 11 / 5
    hp := hp
    mp := mp
    willpower := willpower
    invincibility_frames := 0
    primary_cooldown := 0
    secondary_cooldown := 0
    spells := spells
    changing_spell := false
    time_til_change_spell := 0
    xp := 0
    level := 0
    gold := 0
    in_inventory := false
    inventory := ⟨primary_item, secondary_item, none, []⟩
    enchantments := EnchantMap.empty }

/-- `Player::as_polygon`: the unrotated 12×12 square at `pos`. -/
def Player.as_polygon (T : Trig) (p : Player) : Polygon :=
  easy_polygon T (p.pos + Vec2.splat 6) (Vec2.splat 6) 0

/-- The player's shape center (`as_polygon().center`). -/
def Player.centerVec (p : Player) : Vec2 := p.pos + Vec2.splat 6

/-- `Player::cycle_spells`: swap the first and last spells. -/
def cycle_spells (l : List Spell) : List Spell :=
  match l with
  | [] => []
  | a :: rest =>
    match rest.getLast? with
    | none => [a]
    | some b => b :: (rest.dropLast ++ [a])

/-- `Player::add_xp`.  The level-up threshold is 14 at level 0 and 16 at
level 1; at any higher level the source hits `todo!()` and the process
aborts, embedded as `none`. -/
def Player.add_xp (p : Player) (xp : Nat) : Option Player :=
  let p := { p with xp := p.xp + xp }
  let xp_to_level_up : Option Nat :=
    match p.level with
    | 0 => some 14
    | 1 => some 16
    | _ => none
  match xp_to_level_up with
  | none => none
  | some xp_to_level_up =>
    some
      (if p.xp ≥ xp_to_level_up then
        { p with
          xp := 0
          level := p.level + 1
          mp := { p.mp with
            max_points := p.mp.max_points + 2
            points := p.mp.points + 2 }
          hp := { p.hp with
            max_points := p.hp.max_points + 1
            points := p.hp.points + 1 } }
      else p)

/-- `move_player(player, angle, speed, floor_info)`: axis-separated
movement, the `Sticky` enchantment dividing the default speed. -/
def move_player (T : Trig) (p : Player) (angle : ℚ) (speed : Option Vec2)
    (floor_info : Floor) : Player :=
  let direction : Vec2 := ⟨T.cos angle, T.sin angle⟩
  let distance :=
    direction.mul
      (match speed with
      | some s => s
      | none =>
        let speed_mul : ℚ :=
          match p.enchantments.get .Sticky with
          | some (s, _) => 1 / (s : ℚ)
          | none => 1
        Vec2.splat (p.speed * speed_mul))
  let collision_info := floor_info.collision_dir T (p.as_polygon T) distance
  { p with
    pos :=
      ⟨if collision_info.x then p.pos.x else p.pos.x + distance.x,
        if collision_info.y then p.pos.y else p.pos.y + distance.y⟩ }

/-- `damage_player(player, damage, damage_direction, floor)`.  The
invincibility assignment `(damage as u16) * 2` wraps as `u16` in a release
build. -/
def damage_player (T : Trig) (p : Player) (damage : Nat)
    (damage_direction : ℚ) (floor : Floor) : Player :=
  if p.invincibility_frames > 0 then p
  else
    let p := { p with hp := { p.hp with points := p.hp.points - damage } }
    let p := move_player T p damage_direction (some (Vec2.splat PLAYER_SIZE)) floor
    { p with invincibility_frames := 2 * damage % 65536 }

/-- The `regen` closure of `update_cooldowns`. -/
def regenStep (point_info : PointInfo) : PointInfo :=
  if point_info.points < point_info.max_points then
    let point_info := { point_info with time_til_regen := point_info.time_til_regen - 1 }
    if point_info.time_til_regen = 0 then
      { point_info with
        points := point_info.points + 1
        time_til_regen := point_info.regen_rate }
    else point_info
  else point_info

/-- `update_cooldowns(players)`: per-player counter stepping and regen,
skipping players at 0 HP. -/
def update_cooldowns (players : List Player) : List Player :=
  players.map fun player =>
    if player.hp.points ≠ 0 then
      let player :=
        { player with
          primary_cooldown := player.primary_cooldown - 1
          secondary_cooldown := player.secondary_cooldown - 1
          invincibility_frames := player.invincibility_frames - 1
          time_til_change_spell := player.time_til_change_spell - 1 }
      let player :=
        if player.changing_spell && player.time_til_change_spell = 0 &&
            !player.spells.isEmpty then
          { player with
            spells := cycle_spells player.spells
            changing_spell := false }
        else player
      { player with hp := regenStep player.hp, mp := regenStep player.mp }
    else player

/-- `Player`'s `apply_enchantment`: insert only when the kind is absent,
with the per-kind duration (60, 60, 480 frames). -/
def Player.apply_enchantment (p : Player) (enchantment : Enchantment) : Player :=
  match p.enchantments.get enchantment.kind with
  | some _ => p
  | none =>
    let enchantment_time : Nat :=
      match enchantment.kind with
      | .Blinded => 60
      | .Sticky => 60
      | .Regenerating => 60 * 8
    { p with
      enchantments :=
        p.enchantments.insert enchantment.kind
          (enchantment.strength, enchantment_time) }

/-- Tick one non-healing enchantment entry of the retain loop. -/
def tickEntry : Option (Nat × Nat) → Option (Nat × Nat)
  | none => none
  | some (s, t) => if t - 1 = 0 then none else some (s, t - 1)

/-- `Player`'s `update_enchantments`: every entry's counter is decremented
and the entry removed at zero; a `Regenerating` entry additionally heals
1 HP (below the maximum) whenever its counter is divisible by
`60 / strength`. -/
def Player.update_enchantments (p : Player) : Player :=
  let (hp, regenerating) :=
    match p.enchantments.regenerating with
    | none => (p.hp, none)
    | some (s, t) =>
      let hp :=
        if t % (60 / s) = 0 then
          if p.hp.points < p.hp.max_points then
            { p.hp with points := p.hp.points + 1 }
          else p.hp
        else p.hp
      (hp, if t - 1 = 0 then none else some (s, t - 1))
  { p with
    hp := hp
    enchantments :=
      ⟨tickEntry p.enchantments.blinded, tickEntry p.enchantments.sticky,
        regenerating⟩ }

/-! ## Monster state (`src/monsters/`) -/

/-- `DamageInfo` from `src/player.rs`. -/
structure DamageInfo where
  damage : Nat
  direction : ℚ
  player : Nat
deriving DecidableEq, Repr

/-- The monster AI mode. -/
inductive AttackMode where
  | Passive
  | Attacking
deriving DecidableEq, Repr

/-- The small rat's wander/chase target. -/
inductive RatTarget where
  | Pos (v : Vec2)
  | PlayerIndex (i : Nat)
deriving DecidableEq, Repr

/-- Insert into a `HashSet<usize>` modelled as a duplicate-free list. -/
def insertIdx (l : List Nat) (i : Nat) : List Nat :=
  if l.contains i then l else i :: l

/-- `GreenSlime` (`src/monsters/slime.rs`): `u16` health, position, AI mode,
current path with cursor, enchantments, XP attribution set, ranged-attack
countdown. -/
structure GreenSlime where
  health : Nat
  pos : Vec2
  attack_mode : AttackMode
  current_path : Option (List Vec2 × Nat)
  enchantments : EnchantMap
  damaged_by : List Nat
  current_target : Option Vec2
  time_til_attack : Nat
deriving DecidableEq, Repr

/-- `GreenSlime::new(pos)` per the canonical `Monster` trait. -/
def GreenSlime.new (pos : Vec2) : GreenSlime :=
  { health := 15
    pos := pos
    attack_mode := .Passive
    current_path := none
    enchantments := EnchantMap.empty
    damaged_by := []
    current_target := none
    time_til_attack := 30 }

/-- The slime's shape (14×14 square at `pos`). -/
def GreenSlime.as_polygon (T : Trig) (s : GreenSlime) : Polygon :=
  easy_polygon T (s.pos + Vec2.splat 7) (Vec2.splat 7) 0

/-- The slime's shape center. -/
def GreenSlime.centerVec (s : GreenSlime) : Vec2 := s.pos + Vec2.splat 7

/-- `GreenSlime::take_damage`: saturating health loss plus XP attribution. -/
def GreenSlime.take_damage (s : GreenSlime) (damage_info : DamageInfo) :
    GreenSlime :=
  { s with
    health := s.health - damage_info.damage
    damaged_by := insertIdx s.damaged_by damage_info.player }

/-- `GreenSlime::living`. -/
def GreenSlime.living (s : GreenSlime) : Bool := s.health > 0

/-- `GreenSlime::xp`: the attribution set and the fixed 2 XP. -/
def GreenSlime.xp (s : GreenSlime) : List Nat × Nat := (s.damaged_by, 2)

/-- The slime's `apply_enchantment`: blinding hurts it for 1 health
instead (a `u16` decrement, wrapping in a release build); slime residue
does nothing; no entry is stored. -/
def GreenSlime.apply_enchantment (s : GreenSlime) (enchantment : Enchantment) :
    GreenSlime :=
  match enchantment.kind with
  | .Blinded => { s with health := (s.health + 65535) % 65536 }
  | _ => s

/-- The slime's `update_enchantments`: decrement every entry (saturating),
removing it at zero; removing `Blinded` resets the AI state. -/
def GreenSlime.update_enchantments (s : GreenSlime) : GreenSlime :=
  let s :=
    match s.enchantments.blinded with
    | none => s
    | some (st, t) =>
      if t - 1 = 0 then
        { s with
          attack_mode := .Passive
          current_target := none
          current_path := none
          enchantments := { s.enchantments with blinded := none } }
      else { s with enchantments := { s.enchantments with blinded := some (st, t - 1) } }
  { s with
    enchantments :=
      { s.enchantments with
        sticky := tickEntry s.enchantments.sticky
        regenerating := tickEntry s.enchantments.regenerating } }

/-- `SmallRat` (`src/monsters/small_rat.rs`): `f32` health, position, AI
mode, movement timers, current path with cursor, enchantments, target.
The `damaged_by` set is *modelled from the spec*: the canonical `Monster`
trait requires `take_damage(DamageInfo)`/`xp()` XP attribution, whose
`SmallRat` implementation is missing from the source snapshot; the spec's
data model gives every monster a damaged-by set of player indices. -/
structure SmallRat where
  health : ℚ
  pos : Vec2
  attack_mode : AttackMode
  time_spent_moving : Nat
  time_til_move : Nat
  current_path : Option (List Vec2 × Nat)
  enchantments : EnchantMap
  current_target : Option RatTarget
  damaged_by : List Nat
deriving DecidableEq, Repr

/-- `SmallRat::new(pos)` per the canonical trait (the snapshot's
constructor picked a random spawn; the canonical callers pass the
position). -/
def SmallRat.new (pos : Vec2) : SmallRat :=
  { health := 35
    pos := pos
    attack_mode := .Passive
    time_spent_moving := 0
    time_til_move := 0
    current_path := none
    enchantments := EnchantMap.empty
    current_target := none
    damaged_by := [] }

/-- The rat's drawable size: 10% larger while attacking. -/
def SmallRat.sizeQ (r : SmallRat) : ℚ :=
  match r.attack_mode with
  | .Attacking => 45 / 2 * (11 / 10)
  | _ => 45 / 2

/-- The rat's shape. -/
def SmallRat.as_polygon (T : Trig) (r : SmallRat) : Polygon :=
  easy_polygon T (r.pos + Vec2.splat (r.sizeQ / 2)) (Vec2.splat (r.sizeQ / 2)) 0

/-- The rat's shape center. -/
def SmallRat.centerVec (r : SmallRat) : Vec2 := r.pos + Vec2.splat (r.sizeQ / 2)

/-- `SmallRat`'s `take_damage`: health clamped at zero, blindness timer
halved, flinch away from the damage unless that collides; XP attribution
added per the canonical trait (*modelled from the spec*). -/
def SmallRat.take_damage (T : Trig) (r : SmallRat) (damage_info : DamageInfo)
    (floor : Floor) : SmallRat :=
  let health := r.health - (damage_info.damage : ℚ)
  let health := if health < 0 then 0 else health
  let r := { r with health := health }
  let r :=
    match r.enchantments.blinded with
    | some (st, t) =>
      { r with enchantments := { r.enchantments with blinded := some (st, t / 2) } }
    | none => r
  let change :=
    (Vec2.mul ⟨T.cos damage_info.direction, T.sin damage_info.direction⟩
        (Vec2.splat r.sizeQ)).scale
      ((damage_info.damage : ℚ) / (35 / 2))
  let r :=
    if !floor.collision T (r.as_polygon T) change then
      { r with pos := r.pos + change }
    else r
  { r with damaged_by := insertIdx r.damaged_by damage_info.player }

/-- `SmallRat::living`. -/
def SmallRat.living (r : SmallRat) : Bool := r.health > 0

/-- The rat's XP result per the canonical trait (*modelled from the spec*:
the attribution set and a fixed per-monster amount). -/
def SmallRat.xp (r : SmallRat) : List Nat × Nat := (r.damaged_by, 2)

/-- The rat's `apply_enchantment`: blinding clears the AI state and delays
movement; every kind stores a 240-frame entry. -/
def SmallRat.apply_enchantment (r : SmallRat) (enchantment : Enchantment) :
    SmallRat :=
  let r :=
    match enchantment.kind with
    | .Blinded =>
      { r with current_target := none, current_path := none, time_til_move := 50 }
    | _ => r
  { r with
    enchantments := r.enchantments.insert enchantment.kind (enchantment.strength, 240) }

/-- The rat's `update_enchantments`: decrement every entry (saturating),
removing it at zero; removing `Blinded` resets the AI state. -/
def SmallRat.update_enchantments (r : SmallRat) : SmallRat :=
  let r :=
    match r.enchantments.blinded with
    | none => r
    | some (st, t) =>
      if t - 1 = 0 then
        { r with
          attack_mode := .Passive
          time_til_move := 10
          time_spent_moving := 0
          current_target := none
          current_path := none
          enchantments := { r.enchantments with blinded := none } }
      else { r with enchantments := { r.enchantments with blinded := some (st, t - 1) } }
  { r with
    enchantments :=
      { r.enchantments with
        sticky := tickEntry r.enchantments.sticky
        regenerating := tickEntry r.enchantments.regenerating } }

/-- The closed monster family (`MonsterObj`). -/
inductive MonsterObj where
  | SmallRat (r : SmallRat)
  | GreenSlime (s : GreenSlime)
deriving DecidableEq, Repr

/-- Dispatched `living`. -/
def MonsterObj.living : MonsterObj → Bool
  | .SmallRat r => r.living
  | .GreenSlime s => s.living

/-- Dispatched `xp`. -/
def MonsterObj.xp : MonsterObj → List Nat × Nat
  | .SmallRat r => r.xp
  | .GreenSlime s => s.xp

/-- Dispatched `take_damage`. -/
def MonsterObj.take_damage (T : Trig) (m : MonsterObj)
    (damage_info : DamageInfo) (floor : Floor) : MonsterObj :=
  match m with
  | .SmallRat r => .SmallRat (r.take_damage T damage_info floor)
  | .GreenSlime s => .GreenSlime (s.take_damage damage_info)

/-- Dispatched `apply_enchantment`. -/
def MonsterObj.apply_enchantment (m : MonsterObj) (e : Enchantment) :
    MonsterObj :=
  match m with
  | .SmallRat r => .SmallRat (r.apply_enchantment e)
  | .GreenSlime s => .GreenSlime (s.apply_enchantment e)

/-- Dispatched `update_enchantments`. -/
def MonsterObj.update_enchantments : MonsterObj → MonsterObj
  | .SmallRat r => .SmallRat r.update_enchantments
  | .GreenSlime s => .GreenSlime s.update_enchantments

/-- Dispatched `as_polygon`. -/
def MonsterObj.as_polygon (T : Trig) : MonsterObj → Polygon
  | .SmallRat r => r.as_polygon T
  | .GreenSlime s => s.as_polygon T

/-- Dispatched shape center. -/
def MonsterObj.centerVec : MonsterObj → Vec2
  | .SmallRat r => r.centerVec
  | .GreenSlime s => s.centerVec

/-- Dispatched drawable position. -/
def MonsterObj.posVec : MonsterObj → Vec2
  | .SmallRat r => r.pos
  | .GreenSlime s => s.pos

/-- Projection used to state retention/XP facts: liveness, the XP data,
and nothing a monster's own attack step can change. -/
def MonsterObj.xpProj (m : MonsterObj) : Bool × List Nat × Nat :=
  (m.living, m.xp)

/-! ## Floors and the map (`FloorInfo`, `Map`) -/

/-- `FloorInfo`: one dungeon level. -/
structure FloorInfo where
  spawn : Vec2
  monster_types : List MonsterObj
  item_types : List ItemType
  monsters : List MonsterObj
  floor : Floor
  rooms : List Room
  exit : Object
deriving DecidableEq, Repr

/-- An empty `FloorInfo`, standing in for the out-of-bounds panic of
`Map::current_floor` (never reached in this development's theorems). -/
def FloorInfo.default : FloorInfo :=
  ⟨⟨0, 0⟩, [], [], [], ⟨[]⟩, [], Object.default⟩

/-- `FloorInfo::should_descend`: some player touches the exit. -/
def FloorInfo.should_descend (T : Trig) (fi : FloorInfo)
    (players : List Player) : Bool :=
  players.any fun p =>
    aabb_collision (p.as_polygon T) (fi.exit.as_polygon T) ⟨0, 0⟩

/-- `Map`: the floor sequence and the cursor. -/
structure Map where
  current_floor_index : Nat
  rooms : List FloorInfo
deriving DecidableEq, Repr

/-- `Map::current_floor`. -/
def Map.current_floor (m : Map) : FloorInfo :=
  m.rooms.getD m.current_floor_index FloorInfo.default

/-- Replace the current floor (the effect of writes through
`Map::current_floor_mut`, which can only reach the cursor's floor). -/
def Map.setCurrentFloor (m : Map) (fi : FloorInfo) : Map :=
  { m with rooms := m.rooms.set m.current_floor_index fi }

/-- `Map::descend`: advance the cursor and respawn every player at the new
floor's spawn point. -/
def Map.descend (m : Map) (players : List Player) : Map × List Player :=
  let m := { m with current_floor_index := m.current_floor_index + 1 }
  (m, players.map fun p => { p with pos := m.current_floor.spawn })

/-! ## Attacks (`src/attacks/`) -/

/-- `Slash`. -/
structure Slash where
  pos : Vec2
  angle : ℚ
  time : Nat
  player_index : Nat
  num_piercings : Nat
deriving DecidableEq, Repr

/-- `Stab`. -/
structure Stab where
  pos : Vec2
  angle : ℚ
  time : Nat
  player_index : Nat
  num_piercings : Nat
deriving DecidableEq, Repr

/-- `MagicMissile`. -/
structure MagicMissile where
  pos : Vec2
  angle : ℚ
  time : Nat
  bounces : Nat
  player_index : Nat
deriving DecidableEq, Repr

/-- `BlindingLight`. -/
structure BlindingLight where
  pos : Vec2
  angle : ℚ
  time : Nat
deriving DecidableEq, Repr

/-- `Slimeball`. -/
structure Slimeball where
  pos : Vec2
  angle : ℚ
  time : Nat
deriving DecidableEq, Repr

/-- `ThrownKnife`. -/
structure ThrownKnife where
  pos : Vec2
  movement_angle : ℚ
  rotation_angle : ℚ
  time : Nat
  player_index : Nat
deriving DecidableEq, Repr

/-- `AttackObj`, the closed attack family. -/
inductive AttackObj where
  | BlindingLight (a : BlindingLight)
  | MagicMissile (a : MagicMissile)
  | Slash (a : Slash)
  | Slimeball (a : Slimeball)
  | Stab (a : Stab)
  | ThrowingKnife (a : ThrownKnife)
deriving DecidableEq, Repr

/-- `AttackObj::mana_cost`.  Every written variant costs 0 except
`MagicMissile` (1); the canonical `BlindingLight` cost is missing from the
source snapshot and *modelled from the spec* (a spell consuming mana) as 1. -/
def AttackObj.mana_cost : AttackObj → Nat
  | .BlindingLight _ => 1
  | .MagicMissile _ => 1
  | .Slash _ => 0
  | .Slimeball _ => 0
  | .Stab _ => 0
  | .ThrowingKnife _ => 0

/-- `AttackObj::cooldown`. -/
def AttackObj.cooldown : AttackObj → Nat
  | .BlindingLight _ => 60 * 8
  | .MagicMissile _ => 45
  | .Slash _ => 30
  | .Slimeball _ => 80
  | .Stab _ => 50
  | .ThrowingKnife _ => 10

/-- `Slash::new`. -/
def Slash.new (center : Vec2) (index : Option Nat) (angle : ℚ) : Slash :=
  ⟨center, angle, 0, index.getD 0, 0⟩

/-- `Stab::new`. -/
def Stab.new (center : Vec2) (index : Option Nat) (angle : ℚ) : Stab :=
  ⟨center, angle, 0, index.getD 0, 0⟩

/-- `MagicMissile::new`. -/
def MagicMissile.new (center : Vec2) (index : Option Nat) (angle : ℚ) :
    MagicMissile :=
  ⟨center, angle, 0, 0, index.getD 0⟩

/-- `BlindingLight::new`: a stationary shape at a fixed offset from the
caster (`pos + direction * SIZE`, componentwise). -/
def BlindingLight.new (T : Trig) (player_pos : Vec2) (angle : ℚ) :
    BlindingLight :=
  ⟨player_pos + Vec2.mul ⟨T.cos angle, T.sin angle⟩ ⟨75, 25⟩, angle, 0⟩

/-- `Slimeball::new`. -/
def Slimeball.new (center : Vec2) (angle : ℚ) : Slimeball := ⟨center, angle, 0⟩

/-- `ThrownKnife::new`: spawned half its size above-left of the center. -/
def ThrownKnife.new (center : Vec2) (index : Option Nat) (angle : ℚ) :
    ThrownKnife :=
  ⟨center - ⟨5, 10⟩, angle, angle, 0, index.getD 0⟩

/-- The slash's 10×15 unrotated shape. -/
def Slash.as_polygon (T : Trig) (a : Slash) : Polygon :=
  easy_polygon T (a.pos + ⟨5, 15 / 2⟩) ⟨5, 15 / 2⟩ 0

/-- The stab's 15×5 unrotated shape. -/
def Stab.as_polygon (T : Trig) (a : Stab) : Polygon :=
  easy_polygon T (a.pos + ⟨15 / 2, 5 / 2⟩) ⟨15 / 2, 5 / 2⟩ 0

/-- The missile's 15×15 shape rotated by its angle. -/
def MagicMissile.as_polygon (T : Trig) (a : MagicMissile) : Polygon :=
  easy_polygon T (a.pos + ⟨15 / 2, 15 / 2⟩) ⟨15 / 2, 15 / 2⟩ a.angle

/-- The light's 75×25 unrotated shape. -/
def BlindingLight.as_polygon (T : Trig) (a : BlindingLight) : Polygon :=
  easy_polygon T (a.pos + ⟨75 / 2, 25 / 2⟩) ⟨75 / 2, 25 / 2⟩ 0

/-- The slimeball's 15×5 unrotated shape. -/
def Slimeball.as_polygon (T : Trig) (a : Slimeball) : Polygon :=
  easy_polygon T (a.pos + ⟨15 / 2, 5 / 2⟩) ⟨15 / 2, 5 / 2⟩ 0

/-- The knife's 10×20 shape rotated by its spin angle. -/
def ThrownKnife.as_polygon (T : Trig) (a : ThrownKnife) : Polygon :=
  easy_polygon T (a.pos + ⟨5, 10⟩) ⟨5, 10⟩ a.rotation_angle

/-- `Slash::update`: advance, die on wall hit or after 10 frames or past 6
piercings, damaging every overlapping monster by 5 each frame. -/
def Slash.update (T : Trig) (a : Slash) (floor_info : FloorInfo) :
    Slash × FloorInfo × Bool :=
  let movement : Vec2 := (⟨T.cos a.angle, T.sin a.angle⟩ : Vec2).scale 6
  if floor_info.floor.collision T (a.as_polygon T) movement then
    (a, floor_info, true)
  else
    let a := { a with pos := a.pos + movement, time := a.time + 1 }
    if a.time ≥ 10 then (a, floor_info, true)
    else if a.num_piercings ≥ 6 then (a, floor_info, true)
    else
      let aabb := a.as_polygon T
      let step :=
        floor_info.monsters.foldl
          (fun (acc : List MonsterObj × Nat) m =>
            if aabb_collision aabb (m.as_polygon T) ⟨0, 0⟩ then
              let direction := get_angle T m.posVec a.pos
              (acc.1 ++ [m.take_damage T ⟨5, direction, a.player_index⟩ floor_info.floor],
                acc.2 + 1)
            else (acc.1 ++ [m], acc.2))
          ([], a.num_piercings)
      ({ a with num_piercings := step.2 },
        { floor_info with monsters := step.1 }, false)

/-- Damage the first monster of the list satisfying the collision test,
returning whether one was found. -/
def damageFirstMonster (T : Trig) (hit : MonsterObj → Bool) (damage : Nat)
    (selfPos : Vec2) (player_index : Nat) (floor : Floor) :
    List MonsterObj → List MonsterObj × Bool
  | [] => ([], false)
  | m :: rest =>
    if hit m then
      (m.take_damage T ⟨damage, get_angle T m.posVec selfPos, player_index⟩ floor
          :: rest,
        true)
    else
      let step := damageFirstMonster T hit damage selfPos player_index floor rest
      (m :: step.1, step.2)

/-- `Stab::update`: advance, die on wall hit or after 6 frames, and on the
first overlapping monster deal 25 damage and terminate. -/
def Stab.update (T : Trig) (a : Stab) (floor_info : FloorInfo) :
    Stab × FloorInfo × Bool :=
  let movement : Vec2 := (⟨T.cos a.angle, T.sin a.angle⟩ : Vec2).scale 6
  if floor_info.floor.collision T (a.as_polygon T) movement then
    (a, floor_info, true)
  else
    let a := { a with pos := a.pos + movement, time := a.time + 1 }
    if a.time ≥ 6 then (a, floor_info, true)
    else
      let aabb := a.as_polygon T
      let step :=
        damageFirstMonster T
          (fun m => aabb_collision aabb (m.as_polygon T) ⟨0, 0⟩) 25 a.pos
          a.player_index floor_info.floor floor_info.monsters
      (a, { floor_info with monsters := step.1 }, step.2)

/-- `BlindingLight::update`: tick, die after 60 frames, apply a
strength-0 `Blinded` enchantment to every overlapping monster. -/
def BlindingLight.update (T : Trig) (a : BlindingLight)
    (floor_info : FloorInfo) : BlindingLight × FloorInfo × Bool :=
  let a := { a with time := a.time + 1 }
  if a.time ≥ 60 then (a, floor_info, true)
  else
    let monsters :=
      floor_info.monsters.map fun m =>
        if aabb_collision (a.as_polygon T) (m.as_polygon T) ⟨0, 0⟩ then
          m.apply_enchantment ⟨.Blinded, 0⟩
        else m
    (a, { floor_info with monsters := monsters }, false)

/-- Damage and slime the first player of the list satisfying the collision
test. -/
def slimeFirstPlayer (T : Trig) (hit : Player → Bool) (selfPos : Vec2)
    (floor : Floor) : List Player → List Player × Bool
  | [] => ([], false)
  | p :: rest =>
    if hit p then
      let p := damage_player T p 6 (get_angle T p.pos selfPos) floor
      (p.apply_enchantment ⟨.Sticky, 2⟩ :: rest, true)
    else
      let step := slimeFirstPlayer T hit selfPos floor rest
      (p :: step.1, step.2)

/-- `Slimeball::update`: advance, die on wall hit or after 30 frames, and
on the first overlapping player deal 6 damage, apply `Sticky` strength 2,
and terminate. -/
def Slimeball.update (T : Trig) (a : Slimeball) (floor_info : FloorInfo)
    (players : List Player) : Slimeball × List Player × Bool :=
  let movement : Vec2 := (⟨T.cos a.angle, T.sin a.angle⟩ : Vec2).scale (11 / 5)
  if floor_info.floor.collision T (a.as_polygon T) movement then
    (a, players, true)
  else
    let a := { a with pos := a.pos + movement, time := a.time + 1 }
    if a.time ≥ 30 then (a, players, true)
    else
      let aabb := a.as_polygon T
      let step :=
        slimeFirstPlayer T
          (fun p => aabb_collision aabb (p.as_polygon T) ⟨0, 0⟩) a.pos
          floor_info.floor players
      (a, step.1, step.2)

/-- `BASE_DAMAGE` of `MagicMissile::update` (the latest snapshot's
constant). -/
def MM_BASE_DAMAGE : Nat := 1

/-- Find the first monster whose collision with the missile is nonzero,
with its per-axis collision info. -/
def findHitMonster (T : Trig) (poly : Polygon) :
    List MonsterObj → Option (Nat × BVec2)
  | [] => none
  | m :: rest =>
    let ci := aabb_collision_dir poly (m.as_polygon T) ⟨0, 0⟩
    if ci.x || ci.y then some (0, ci)
    else (findHitMonster T poly rest).map fun r => (r.1 + 1, r.2)

/-- The wall-contact prefix of `MagicMissile::update`: the frame's movement
vector, its per-axis reflection off walls, the guarded bounce increment,
and the angle update — returning the missile as it stands at the monster
contact check, along with the movement vector. -/
def mm_after_wall (T : Trig) (a : MagicMissile) (floor_info : FloorInfo) :
    MagicMissile × Vec2 :=
  let movement : Vec2 := (⟨T.cos a.angle, T.sin a.angle⟩ : Vec2).scale 5
  let collision_info := floor_info.floor.collision_dir T (a.as_polygon T) movement
  let movement : Vec2 :=
    ⟨if collision_info.x then -movement.x else movement.x,
      if collision_info.y then -movement.y else movement.y⟩
  let a :=
    if collision_info.x || collision_info.y then
      if a.bounces < 3 then { a with bounces := a.bounces + 1 } else a
    else a
  let a := { a with angle := get_angle T movement ⟨0, 0⟩ }
  (a, movement)

/-- `MagicMissile::update`: billiard-style wall bounces capped at 3,
exponential bounce damage `BASE_DAMAGE^(1+bounces)` on monster contact
(reflecting when it has bounced before, else a grace frame), removal at
the fixed 60-frame lifetime. -/
def MagicMissile.update (T : Trig) (a : MagicMissile) (floor_info : FloorInfo) :
    MagicMissile × FloorInfo × Bool :=
  let (a, movement) := mm_after_wall T a floor_info
  let hit := findHitMonster T (a.as_polygon T) floor_info.monsters
  let (a, floor_info, movement) :=
    match hit with
    | none => (a, floor_info, movement)
    | some (i, ci) =>
      let damage := MM_BASE_DAMAGE ^ (1 + a.bounces)
      let floor_info :=
        { floor_info with
          monsters :=
            match floor_info.monsters.get? i with
            | some m =>
              floor_info.monsters.set i
                (m.take_damage T
                  ⟨damage, get_angle T m.posVec a.pos, a.player_index⟩
                  floor_info.floor)
            | none => floor_info.monsters }
      if a.bounces > 0 then
        let movement : Vec2 :=
          ⟨if ci.x then -movement.x else movement.x,
            if ci.y then -movement.y else movement.y⟩
        let a := { a with angle := get_angle T movement ⟨0, 0⟩ }
        let a :=
          if a.bounces < 3 then { a with bounces := a.bounces + 1 } else a
        (a, floor_info, movement)
      else
        ({ a with pos := a.pos - movement, time := a.time + 1 }, floor_info,
          movement)
  let a := { a with pos := a.pos + movement, time := a.time + 1 }
  (a, floor_info, a.time ≥ 60)

/-- `Floor::add_item_to_object`: push the item onto the object at the
item's tile position. -/
def Floor.add_item_to_object (f : Floor) (item : ItemInfo) : Floor :=
  match item.tile_pos with
  | none => f
  | some pos =>
    if tileIndex pos < 0 then f
    else
      ⟨f.objects.modify
        (fun o => { o with items := o.items ++ [item] })
        (tileIndex pos).toNat⟩

/-- The knife-drop step of `ThrownKnife::update`: the `1 in 9` break roll
(`gen_range(0, 9) == 9`, which never hits), then a physical knife dropped
on the nearest non-collidable tile among the 3×3 neighborhood. -/
def knifeDrop (tk : ThrownKnife) (floor : Floor) (r : Rng) : Floor × Rng :=
  let (roll, r) := gen_range 0 9 r
  let should_break := roll = 9
  if should_break then (floor, r)
  else
    let tile_pos := pos_to_tile (tk.pos + ⟨5, 10⟩)
    let tile_pos_vec2 := tile_pos.as_vec2
    let candidates :=
      ([⟨0, 0⟩, ⟨-1, 0⟩, ⟨0, -1⟩, ⟨-1, -1⟩, ⟨1, 0⟩, ⟨0, 1⟩, ⟨1, 1⟩, ⟨-1, 1⟩,
          ⟨1, -1⟩] : List IVec2)
    let viable :=
      (candidates.map fun change => tile_pos + change).filter fun tp =>
        match floor.get_object_from_pos tp with
        | some object => !object.is_collidable
        | none => false
    let best :=
      match viable with
      | [] => none
      | tp :: rest =>
        some (rest.foldl
          (fun tp1 tp2 =>
            let d1 := Vec2.distSq tp1.as_vec2 tile_pos_vec2
            let d2 := Vec2.distSq tp2.as_vec2 tile_pos_vec2
            if d1 < d2 then tp1 else tp2)
          tp)
    match best with
    | some item_pos =>
      (floor.add_item_to_object (ItemInfo.new .ThrowingKnife (some item_pos)), r)
    | none => (floor, r)

/-- `ThrownKnife::update`: advance while spinning, terminate on wall or
monster hit (18 damage), dropping a knife item on termination. -/
def ThrownKnife.update (T : Trig) (a : ThrownKnife) (floor_info : FloorInfo)
    (r : Rng) : ThrownKnife × FloorInfo × Rng × Bool :=
  let movement : Vec2 :=
    (⟨T.cos a.movement_angle, T.sin a.movement_angle⟩ : Vec2).scale 8
  let (a, should_drop) :=
    if floor_info.floor.collision T (a.as_polygon T) movement then (a, true)
    else ({ a with pos := a.pos + movement, time := a.time + 1 }, false)
  let a := { a with rotation_angle := a.rotation_angle + 1 / 2 }
  let poly := a.as_polygon T
  let step :=
    damageFirstMonster T
      (fun m => aabb_collision poly (m.as_polygon T) ⟨0, 0⟩) 18 a.pos
      a.player_index floor_info.floor floor_info.monsters
  let floor_info := { floor_info with monsters := step.1 }
  let should_drop := should_drop || step.2
  if should_drop then
    let (floor, r) := knifeDrop a floor_info.floor r
    (a, { floor_info with floor := floor }, r, true)
  else (a, floor_info, r, false)

/-- Dispatched `AttackObj::update(floor, players)`. -/
def AttackObj.update (T : Trig) (a : AttackObj) (floor_info : FloorInfo)
    (players : List Player) (r : Rng) :
    AttackObj × FloorInfo × List Player × Rng × Bool :=
  match a with
  | .BlindingLight x =>
    let (x, fi, d) := x.update T floor_info
    (.BlindingLight x, fi, players, r, d)
  | .MagicMissile x =>
    let (x, fi, d) := x.update T floor_info
    (.MagicMissile x, fi, players, r, d)
  | .Slash x =>
    let (x, fi, d) := x.update T floor_info
    (.Slash x, fi, players, r, d)
  | .Slimeball x =>
    let (x, ps, d) := x.update T floor_info players
    (.Slimeball x, floor_info, ps, r, d)
  | .Stab x =>
    let (x, fi, d) := x.update T floor_info
    (.Stab x, fi, players, r, d)
  | .ThrowingKnife x =>
    let (x, fi, r, d) := x.update T floor_info r
    (.ThrowingKnife x, fi, players, r, d)

/-- `update_attacks`: step every attack in order, keeping those whose
update returns `false` (in their updated state). -/
def update_attacks (T : Trig) (players : List Player) (floor_info : FloorInfo)
    (attacks : List AttackObj) (r : Rng) :
    List Player × FloorInfo × List AttackObj × Rng :=
  let step :=
    attacks.foldl
      (fun (acc : List Player × FloorInfo × List AttackObj × Rng) a =>
        let (ps, fi, kept, r) := acc
        let (a, fi, ps, r, destroy) := a.update T fi ps r
        (ps, fi, if destroy then kept else kept ++ [a], r))
      (players, floor_info, [], r)
  step

/-- `attack_with_item`: which equipped item produces which attack. -/
def attack_with_item (T : Trig) (item : ItemInfo) (p : Player)
    (index : Option Nat) (_floor : FloorInfo) (_primary_attack : Bool) :
    Option AttackObj :=
  match item.item_type with
  | .ShortSword => some (.Slash (Slash.new (p.centerVec) index p.angle))
  | .WizardsDagger => some (.Stab (Stab.new (p.centerVec) index p.angle))
  | .WizardGlove =>
    (p.spells.get? 0).map fun spell =>
      match spell with
      | .BlindingLight => .BlindingLight (BlindingLight.new T p.pos p.angle)
      | .MagicMissile => .MagicMissile (MagicMissile.new (p.centerVec) index p.angle)
  | .ThrowingKnife => some (.ThrowingKnife (ThrownKnife.new (p.centerVec) index p.angle))
  | .Potion _ => none
  | .Gold _ => none

/-- The selected cooldown slot of a player. -/
def selCooldown (p : Player) (is_primary : Bool) : Nat :=
  if is_primary then p.primary_cooldown else p.secondary_cooldown

/-- The selected equipped item of a player. -/
def selItem (p : Player) (is_primary : Bool) : Option ItemInfo :=
  if is_primary then p.inventory.primary_item else p.inventory.secondary_item

/-- Write the selected equipped item slot. -/
def setSelItem (p : Player) (is_primary : Bool) (item : Option ItemInfo) :
    Player :=
  if is_primary then
    { p with inventory := { p.inventory with primary_item := item } }
  else
    { p with inventory := { p.inventory with secondary_item := item } }

/-- Write the selected cooldown slot. -/
def setSelCooldown (p : Player) (is_primary : Bool) (v : Nat) : Player :=
  if is_primary then { p with primary_cooldown := v }
  else { p with secondary_cooldown := v }

/-- `player_attack(player, index, attacks, floor, is_primary)`: gated on the
selected cooldown slot being zero; a `ThrowingKnife` item is consumed from
its stack first (bailing out when empty); the produced attack is created
only when the mana check passes, deducting the cost and arming the
cooldown. -/
def player_attack (T : Trig) (p : Player) (index : Option Nat)
    (attacks : List AttackObj) (floor : FloorInfo) (is_primary : Bool) :
    Player × List AttackObj :=
  if selCooldown p is_primary ≠ 0 then (p, attacks)
  else
    match selItem p is_primary with
    | none => (p, attacks)
    | some item =>
      let consumed :=
        if item.item_type = .ThrowingKnife then
          if item.stack_count.getD 0 > 0 then
            some { item with stack_count := some (item.stack_count.getD 0 - 1) }
          else none
        else some item
      match consumed with
      | none => (p, attacks)
      | some item =>
        let p := setSelItem p is_primary (some item)
        match attack_with_item T item p index floor is_primary with
        | none => (p, attacks)
        | some attack =>
          if p.mp.points ≥ attack.mana_cost then
            let p := { p with mp := { p.mp with points := p.mp.points - attack.mana_cost } }
            let p := setSelCooldown p is_primary attack.cooldown
            (p, attacks ++ [attack])
          else (p, attacks)

/-- `DoorInteraction`. -/
inductive DoorInteraction where
  | Opening
  | Closing
  | Toggle
deriving DecidableEq, Repr

/-- `interact_with_door(entity, interaction, floor_info)`: among the doors
within one tile of the entity (not under it, not containing a monster),
pick by the source's reduce and open/close it. -/
def interact_with_door (T : Trig) (entityPoly : Polygon) (entityCenter : Vec2)
    (door_interaction : DoorInteraction) (floor_info : FloorInfo) : FloorInfo :=
  let entity_tile_pos := pos_to_tile entityCenter
  let doorIdx :=
    (List.range floor_info.floor.objects.length).filter fun i =>
      match floor_info.floor.objects.get? i with
      | some o => o.door.isSome
      | none => false
  let eligible :=
    doorIdx.filter fun i =>
      let o := floor_info.floor.objects.getD i Object.default
      let tile_distance := (o.pos - entity_tile_pos).abs
      let entity_in_door :=
        floor_info.monsters.any fun m =>
          pos_to_tile m.centerVec = o.pos
      tile_distance.x ≤ 1 && tile_distance.y ≤ 1 &&
        !(o.pos = entity_tile_pos) && !entity_in_door
  let will_be_affected := fun (i : Nat) =>
    let d := (floor_info.floor.objects.getD i Object.default).door.getD ⟨⟨0, 0⟩, false⟩
    match door_interaction with
    | .Opening => !d.is_open
    | .Closing => d.is_open
    | .Toggle => true
  let chosen :=
    match eligible with
    | [] => none
    | i :: rest =>
      some (rest.foldl
        (fun i1 i2 =>
          if will_be_affected i1 && will_be_affected i2 then
            if aabb_collision
                ((floor_info.floor.objects.getD i1 Object.default).as_polygon T)
                entityPoly ⟨0, 0⟩ then
              i1
            else i2
          else if will_be_affected i1 then i1
          else i2)
        i)
  match chosen with
  | none => floor_info
  | some i =>
    let objects :=
      floor_info.floor.objects.modify
        (fun o =>
          match door_interaction with
          | .Opening => { o with door := o.door.map fun d => { d with is_open := true } }
          | .Closing => { o with door := o.door.map fun d => { d with is_open := false } }
          | .Toggle =>
            { o with door := o.door.map fun d => { d with is_open := !d.is_open } })
        i
    { floor_info with floor := ⟨objects⟩ }

/-! ## Monster AI (`src/monsters/slime.rs`, `src/monsters/small_rat.rs`)

The two AI snapshots in the source predate the canonical `Monster` trait of
`src/monsters/mod.rs` (`new(pos)`, `movement(players, floor)`,
`attack(players, floor, attacks)`, `take_damage(DamageInfo, floor)`); they
are embedded with the canonical signatures, and the rat's pathfinding calls
— whose snapshot used an older two-argument `find_path` — pass the flags
the spec prescribes for monster movement (vision-constrained wandering,
door-permissive routes). -/

/-- `step_pathfinding` for the slime: follow the current path waypoint by
waypoint, or plan a door-permissive path to the current target. -/
def slimeStepPathfinding (T : Trig) (s : GreenSlime) (floor : Floor)
    (speed : ℚ) : GreenSlime :=
  match s.current_path with
  | some (path, i) =>
    match path.get? i with
    | some pos =>
      if Vec2.distLe s.pos pos speed then
        { s with pos := pos, current_path := some (path, i + 1) }
      else
        let angle := get_angle T pos s.pos
        let change : Vec2 := (⟨T.cos angle, T.sin angle⟩ : Vec2).scale speed
        { s with pos := s.pos + change }
    | none => { s with current_path := none, current_target := none }
  | none =>
    match s.current_target with
    | some pos =>
      let goalCenter : Vec2 := pos + Vec2.splat 15
      match floor.find_path s.centerVec goalCenter false true none with
      | some path => { s with current_path := some (path, 1) }
      | none => { s with current_path := none, current_target := none }
    | none => s

/-- The slime's `attack_mode` movement: flee to a random far-enough tile
when the nearest player is within 4 tiles, then follow the path. -/
def slimeAttackMode (T : Trig) (s : GreenSlime) (players : List Player)
    (floor : Floor) (r : Rng) : GreenSlime × Rng :=
  let nearest :=
    match players with
    | [] => none
    | p :: rest =>
      some (rest.foldl
        (fun (acc : Player × ℚ) (p2 : Player) =>
          let d2 := Vec2.distSq p2.centerVec s.centerVec
          if acc.2 < d2 then acc else (p2, d2))
        (p, Vec2.distSq p.centerVec s.centerVec))
  let (s, r) :=
    match nearest with
    | none => (s, r)
    | some (player, pDistSq) =>
      if pDistSq ≤ 120 * 120 then
        let valid_objs :=
          (floor.objects.filter fun (o : Object) =>
            if o.is_collidable then o.door.isSome else true).filter
            fun (o : Object) => !Vec2.distLt o.centerVec player.centerVec 120
        let (obj, r) := Rng.choose valid_objs r
        match obj with
        | some o =>
          ({ s with current_target := some (o.pos.as_vec2.scale 30) }, r)
        | none => (s, r)
      else (s, r)
  (slimeStepPathfinding T s floor (13 / 10), r)

/-- The slime's `passive_mode` movement: aggro on any player inside its
visible tile set, else wander to a random non-collidable tile's center. -/
def slimePassiveMode (T : Trig) (s : GreenSlime) (players : List Player)
    (floor : Floor) (r : Rng) : GreenSlime × Rng :=
  let visible := floor.visible_objects s.centerVec (some 10)
  let should_aggro :=
    players.any fun p =>
      visible.any fun o => o.pos = pos_to_tile p.centerVec
  if should_aggro then ({ s with attack_mode := .Attacking }, r)
  else
    let (s, r) :=
      if s.current_target.isNone then
        let valid_rooms := floor.objects.filter fun o => !o.is_collidable
        let (room, r) := Rng.choose valid_rooms r
        match room with
        | some o => ({ s with current_target := some o.centerVec }, r)
        | none => (s, r)
      else (s, r)
    (slimeStepPathfinding T s floor 1, r)

/-- The slime's `movement`. -/
def GreenSlime.movement (T : Trig) (s : GreenSlime) (players : List Player)
    (floor : Floor) (r : Rng) : GreenSlime × Rng :=
  match s.attack_mode with
  | .Passive => slimePassiveMode T s players floor r
  | .Attacking => slimeAttackMode T s players floor r

/-- The slime's ranged `attack`: once its countdown hits zero, throw a
slimeball at every player standing on a visible tile. -/
def GreenSlime.attack (T : Trig) (s : GreenSlime) (players : List Player)
    (floor : Floor) (attacks : List AttackObj) :
    GreenSlime × List AttackObj :=
  let s := { s with time_til_attack := s.time_til_attack - 1 }
  if s.time_til_attack > 0 then (s, attacks)
  else
    let visible := floor.visible_objects s.centerVec (some 10)
    let players_to_attack :=
      players.filter fun p =>
        visible.any fun o => o.pos = pos_to_tile p.centerVec
    players_to_attack.foldl
      (fun (acc : GreenSlime × List AttackObj) p =>
        let angle := get_angle T p.centerVec s.centerVec
        let slimeball := Slimeball.new s.centerVec angle
        ({ acc.1 with time_til_attack := 80 },
          acc.2 ++ [.Slimeball slimeball]))
      (s, attacks)

/-- The slime's `damage_players`: 10 contact damage to every overlapping
player. -/
def GreenSlime.damage_players (T : Trig) (s : GreenSlime)
    (players : List Player) (floor : Floor) : List Player :=
  players.map fun p =>
    if aabb_collision (p.as_polygon T) (s.as_polygon T) ⟨0, 0⟩ then
      damage_player T p 10 (get_angle T p.pos s.pos) floor
    else p

/-- The rat's wander-target pick: a random background tile between 5 and 8
tiles away. -/
def ratFindTarget (rat : SmallRat) (floor : Floor) (r : Rng) :
    Option Vec2 × Rng :=
  let candidates :=
    (floor.objects.filter fun o => !o.is_collidable).filterMap fun o =>
      let world := o.pos.as_vec2.scale 30
      if !Vec2.distLe world rat.pos 150 && Vec2.distLt world rat.pos 240 then
        some world
      else none
  Rng.choose candidates r

/-- `AGGRO_DISTANCE` (6 tiles). -/
def AGGRO_DISTANCE : ℚ := 180

/-- The rat's `passive_mode`: countdown-gated wandering along
vision-constrained, door-permissive paths, with an aggro check at the end. -/
def ratPassiveMode (T : Trig) (rat : SmallRat) (players : List Player)
    (floor : Floor) (r : Rng) : SmallRat × Rng :=
  let rat := { rat with time_til_move := rat.time_til_move - 1 }
  let (rat, r) :=
    if rat.current_target.isNone then
      let (tgt, r) := ratFindTarget rat floor r
      (match tgt with
        | some v => { rat with current_target := some (.Pos v) }
        | none => rat,
        r)
    else (rat, r)
  let (rat, r) :=
    if rat.time_til_move = 0 then
      let (rat, r) :=
        if rat.current_path.isNone then
          let goal :=
            match rat.current_target with
            | some (.Pos v) => v
            | _ => rat.pos
          match floor.find_path rat.centerVec goal true true none with
          | some path => ({ rat with current_path := some (path, 1) }, r)
          | none =>
            let (tgt, r) := ratFindTarget rat floor r
            (match tgt with
              | some v => { rat with current_target := some (.Pos v) }
              | none => rat,
              r)
        else (rat, r)
      match rat.current_path with
      | some (path, i) =>
        match path.get? i with
        | some pos =>
          if Vec2.distLt rat.pos pos 2 then
            ({ rat with current_path := some (path, i + 1) }, r)
          else
            let angle := get_angle T pos rat.pos
            ({ rat with
              pos := rat.pos + (⟨T.cos angle, T.sin angle⟩ : Vec2).scale (7 / 10) },
              r)
        | none =>
          let (roll, r) := gen_range 120 240 r
          ({ rat with
            current_path := none
            current_target := none
            time_til_move := roll.toNat },
            r)
      | none => (rat, r)
    else (rat, r)
  match
    (players.enum.find? fun pi =>
      Vec2.distLe pi.2.pos rat.pos AGGRO_DISTANCE && pi.2.hp.points ≠ 0)
  with
  | some (i, _) =>
    ({ rat with
      time_til_move := 30
      time_spent_moving := 0
      attack_mode := .Attacking
      current_target := some (.PlayerIndex i)
      current_path := none },
      r)
  | none => (rat, r)

/-- The rat's `attack_mode`: chase the targeted player (re-scanning keeps
the *original* index, as the snapshot's shadowed binding does), follow or
re-plan the path, drop aggro on a dead target, and lunge within one tile. -/
def ratAttackMode (T : Trig) (rat : SmallRat) (players : List Player)
    (floor : Floor) : SmallRat :=
  match rat.current_target with
  | some (.PlayerIndex i) =>
    let rat := { rat with time_til_move := rat.time_til_move - 1 }
    if rat.time_til_move > 0 then rat
    else
      match players.get? i with
      | none => rat
      | some tp =>
        let dist0 := Vec2.distSq tp.pos rat.pos
        let in_range := dist0 ≤ AGGRO_DISTANCE * AGGRO_DISTANCE && tp.hp.points ≠ 0
        let retarget :=
          if in_range then some (rat, tp, dist0)
          else
            match
              players.find? fun p =>
                Vec2.distLe p.pos rat.pos AGGRO_DISTANCE
            with
            | some p =>
              some ({ rat with current_target := some (.PlayerIndex i) }, p,
                Vec2.distSq p.pos rat.pos)
            | none => none
        match retarget with
        | none =>
          { rat with current_target := none, attack_mode := .Passive }
        | some (rat, target_player, distSq0) =>
          let rat :=
            if rat.current_path.isNone then
              match floor.find_path rat.centerVec target_player.pos false true none with
              | some path => { rat with current_path := some (path, 1) }
              | none => rat
            else rat
          let rat :=
            match rat.current_path with
            | some (path, j) =>
              match path.get? j with
              | some pos =>
                if Vec2.distLt rat.pos pos 2 then
                  { rat with current_path := some (path, j + 1) }
                else
                  let angle := get_angle T pos rat.pos
                  { rat with pos := rat.pos + ⟨T.cos angle, T.sin angle⟩ }
              | none =>
                match floor.find_path rat.centerVec target_player.pos false true none with
                | some path => { rat with current_path := some (path, 1) }
                | none => rat
            | none => rat
          let rat :=
            if target_player.hp.points = 0 then
              { rat with attack_mode := .Passive, current_target := none }
            else rat
          if distSq0 ≤ 30 * 30 then
            let angle := get_angle T target_player.pos rat.pos
            { rat with
              pos := rat.pos + (⟨T.cos angle, T.sin angle⟩ : Vec2).scale (45 / 2)
              time_til_move := 45 }
          else rat
  | _ => rat

/-- The rat's `move_blindly`: drift toward a randomly chosen nearby point,
backing off half again as far on a collision. -/
def ratMoveBlindly (T : Trig) (rat : SmallRat) (floor : Floor) (r : Rng) :
    SmallRat × Rng :=
  if rat.time_til_move > 0 then
    ({ rat with time_til_move := rat.time_til_move - 1 }, r)
  else
    match rat.current_target with
    | some (.Pos pos) =>
      let clearedByDist := Vec2.distLt pos rat.pos (45 / 2)
      let rat :=
        if clearedByDist then { rat with current_target := none } else rat
      let angle := get_angle T pos rat.pos
      let change : Vec2 := Vec2.mul ⟨T.cos angle, T.sin angle⟩ (Vec2.splat (6 / 5))
      if !floor.collision T (rat.as_polygon T) change then
        ({ rat with pos := rat.pos + change }, r)
      else
        let change := change.scale (3 / 2)
        let rat :=
          if !floor.collision T (rat.as_polygon T) (-change) then
            { rat with pos := rat.pos - change }
          else rat
        ({ rat with current_target := none }, r)
    | _ =>
      let (dx, r) := gen_rangeQ (-1) 1 r
      let (dy, r) := gen_rangeQ (-1) 1 r
      let direction : Vec2 := ⟨dx, dy⟩
      ({ rat with
        current_target :=
          some (.Pos (Vec2.mul direction (Vec2.splat 60) + rat.pos +
            Vec2.splat (45 / 4))) },
        r)

/-- The rat's `movement`: blind wandering overrides both AI modes. -/
def SmallRat.movement (T : Trig) (rat : SmallRat) (players : List Player)
    (floor : Floor) (r : Rng) : SmallRat × Rng :=
  if (rat.enchantments.get .Blinded).isSome then ratMoveBlindly T rat floor r
  else
    match rat.attack_mode with
    | .Passive => ratPassiveMode T rat players floor r
    | .Attacking => (ratAttackMode T rat players floor, r)

/-- The rat's `damage_players`: 20 contact damage to every overlapping
player. -/
def SmallRat.damage_players (T : Trig) (rat : SmallRat)
    (players : List Player) (floor : Floor) : List Player :=
  players.map fun p =>
    if aabb_collision (p.as_polygon T) (rat.as_polygon T) ⟨0, 0⟩ then
      damage_player T p 20 (get_angle T p.pos rat.pos) floor
    else p

/-- Dispatched `movement`. -/
def MonsterObj.movement (T : Trig) (m : MonsterObj) (players : List Player)
    (floor : Floor) (r : Rng) : MonsterObj × Rng :=
  match m with
  | .SmallRat rat =>
    let (rat, r) := rat.movement T players floor r
    (.SmallRat rat, r)
  | .GreenSlime s =>
    let (s, r) := s.movement T players floor r
    (.GreenSlime s, r)

/-- Dispatched `attack` (the rat inherits the trait's no-op default). -/
def MonsterObj.attack (T : Trig) (m : MonsterObj) (players : List Player)
    (floor : Floor) (attacks : List AttackObj) : MonsterObj × List AttackObj :=
  match m with
  | .SmallRat rat => (.SmallRat rat, attacks)
  | .GreenSlime s =>
    let (s, attacks) := s.attack T players floor attacks
    (.GreenSlime s, attacks)

/-- Dispatched `damage_players`. -/
def MonsterObj.damage_players (T : Trig) (m : MonsterObj)
    (players : List Player) (floor : Floor) : List Player :=
  match m with
  | .SmallRat rat => rat.damage_players T players floor
  | .GreenSlime s => s.damage_players T players floor

/-- The movement phase of `update_monsters`: every monster ticks its
enchantments and moves. -/
def monsterMovementPhase (T : Trig) (players : List Player)
    (monsters : List MonsterObj) (floor : Floor) (r : Rng) :
    List MonsterObj × Rng :=
  mapRng
    (fun m r => (m.update_enchantments).movement T players floor r)
    monsters r

/-- The retain phase of `update_monsters`: each monster in order attacks,
damages overlapping players, and is removed when dead, granting its XP to
every player in its damaged-by set.  `add_xp`'s `todo!()` abort (level ≥ 2)
is collapsed here to an unchanged player so that the frame step stays a
total function; every theorem about the XP pass is guarded by the success
of the abort-tracking bookkeeping `xpDistribute`. -/
def monsterRetainPhase (T : Trig) (floor : Floor) :
    List MonsterObj → List Player → List AttackObj →
    List MonsterObj × List Player × List AttackObj
  | [], players, attacks => ([], players, attacks)
  | m :: rest, players, attacks =>
    let (m, attacks) := m.attack T players floor attacks
    let players := m.damage_players T players floor
    let living := m.living
    let players :=
      if !living then
        let (indices, xp) := m.xp
        players.enum.map fun pi =>
          if indices.contains pi.1 then (pi.2.add_xp xp).getD pi.2 else pi.2
      else players
    let (ms, players, attacks) := monsterRetainPhase T floor rest players attacks
    (if living then m :: ms else ms, players, attacks)

/-- `update_monsters(players, floor_info, attacks)`. -/
def update_monsters (T : Trig) (players : List Player)
    (floor_info : FloorInfo) (attacks : List AttackObj) (r : Rng) :
    List Player × FloorInfo × List AttackObj × Rng :=
  let (moved, r) :=
    monsterMovementPhase T players floor_info.monsters floor_info.floor r
  let (ms, players, attacks) :=
    monsterRetainPhase T floor_info.floor moved players attacks
  (players, { floor_info with monsters := ms }, attacks, r)

/-! ## Traps, tile effects, and the frame step
(`trigger_traps`, `set_effects`, `update_effects` from `src/map.rs`;
the `AdvanceFrame` arm of `handle_requests` from `src/net/mod.rs`) -/

/-- Mark the trap of the object at one index triggered. -/
def markTriggered (objects : List Object) (i : Nat) : List Object :=
  objects.modify
    (fun o => { o with trap := o.trap.map fun t => { t with triggered := true } }) i

/-- The teleport-trap effect on one player: a uniformly random interior
tile of a randomly chosen room, drawn from the ambient PRNG. -/
def teleportPlayer (p : Player) (rooms : List Room) (r : Rng) : Player × Rng :=
  let (room, r) := Rng.choose rooms r
  match room with
  | none => (p, r)
  | some room =>
    let (rx, r) := gen_range (room.top_left.x + 1) (room.bottom_right.x - 1) r
    let (ry, r) := gen_range (room.top_left.y + 1) (room.bottom_right.y - 1) r
    ({ p with pos := (IVec2.as_vec2 ⟨rx, ry⟩).scale 30 }, r)

/-- The spawn-monster-trap effect: six monsters of randomly chosen types at
random interior tiles of the room containing the player. -/
def spawnTrapMonsters (player_tile_pos : IVec2) (fi : FloorInfo) (r : Rng) :
    FloorInfo × Rng :=
  match fi.rooms.find? fun room => room.inside_room player_tile_pos with
  | none => (fi, r)
  | some player_room =>
    let (newMonsters, r) :=
      mapRng
        (fun (_ : Nat) r =>
          let (tx, r) := gen_range (player_room.top_left.x + 1)
            (player_room.bottom_right.x - 1) r
          let (ty, r) := gen_range (player_room.top_left.y + 1)
            (player_room.bottom_right.y - 1) r
          let pos := (IVec2.as_vec2 ⟨tx, ty⟩).scale 30
          let (mt, r) := Rng.choose fi.monster_types r
          (match mt with
            | some (.SmallRat _) => some (MonsterObj.SmallRat (SmallRat.new pos))
            | some (.GreenSlime _) => some (MonsterObj.GreenSlime (GreenSlime.new pos))
            | none => none,
            r))
        (List.range 6) r
    ({ fi with monsters := fi.monsters ++ newMonsters.filterMap id }, r)

/-- `trigger_traps(players, floor_info)`: every object holding a trap still
untriggered when visited fires on every player standing on its tile,
marking itself triggered and applying the teleport or monster-spawn effect
with draws from the ambient PRNG. -/
def trigger_traps (players : List Player) (floor_info : FloorInfo) (r : Rng) :
    List Player × FloorInfo × Rng :=
  (List.range floor_info.floor.objects.length).foldl
    (fun (acc : List Player × FloorInfo × Rng) oi =>
      let (players, fi, r) := acc
      let o := fi.floor.objects.getD oi Object.default
      match o.trap with
      | none => acc
      | some trap =>
        if trap.triggered then acc
        else
          (List.range players.length).foldl
            (fun (acc : List Player × FloorInfo × Rng) pi =>
              let (players, fi, r) := acc
              let player := players.getD pi (Player.new .Warrior ⟨0, 0⟩)
              let player_tile_pos := pos_to_tile player.centerVec
              if player_tile_pos = o.pos then
                let fi := { fi with floor := ⟨markTriggered fi.floor.objects oi⟩ }
                match trap.trap_type with
                | .Teleport =>
                  let (player, r) := teleportPlayer player fi.rooms r
                  (players.set pi player, fi, r)
                | .SpawnMonster =>
                  let (fi, r) := spawnTrapMonsters player_tile_pos fi r
                  (players, fi, r)
              else acc)
            (players, fi, r))
    (players, floor_info, r)

/-- `set_effects(players, floor_info)`: for every tile effect present
anywhere on the floor, apply its enchantment to every player and every
monster. -/
def set_effects (players : List Player) (floor_info : FloorInfo) :
    List Player × FloorInfo :=
  floor_info.floor.objects.foldl
    (fun (acc : List Player × FloorInfo) o =>
      match o.effects with
      | none => acc
      | some eff =>
        let e := eff.effect_type.toEnchantment
        ((acc.1.map fun p => p.apply_enchantment e),
          { acc.2 with monsters := acc.2.monsters.map fun m => m.apply_enchantment e }))
    (players, floor_info)

/-- `update_effects(floor)`: decrement every timed tile effect, removing it
at zero; untimed effects persist. -/
def update_effects (floor : Floor) : Floor :=
  ⟨floor.objects.map fun o =>
    { o with
      effects :=
        match o.effects with
        | none => none
        | some eff =>
          match eff.time_til_dissipate with
          | none => some eff
          | some t =>
            if t - 1 = 0 then none
            else some { eff with time_til_dissipate := some (t - 1) } }⟩

/-- `PlayerInput` (`src/input.rs`): two angles and a bitflag set. -/
structure PlayerInput where
  movement_angle : ℚ
  rotation : ℚ
  flags : Nat
deriving DecidableEq, Repr

/-- `PRIMARY_ATTACK` flag test. -/
def PlayerInput.using_primary (i : PlayerInput) : Bool := i.flags &&& 1 = 1

/-- `SECONDARY_ATTACK` flag test. -/
def PlayerInput.using_secondary (i : PlayerInput) : Bool := i.flags &&& 2 = 2

/-- `MOVING` flag test. -/
def PlayerInput.is_moving (i : PlayerInput) : Bool := i.flags &&& 4 = 4

/-- `OPENING_DOOR` flag test. -/
def PlayerInput.opening_door (i : PlayerInput) : Bool := i.flags &&& 8 = 8

/-- `CLOSING_DOOR` flag test. -/
def PlayerInput.closing_door (i : PlayerInput) : Bool := i.flags &&& 16 = 16

/-- `GameState` (`src/init_game.rs`): the rollback snapshot unit. -/
structure GameState where
  frame : Nat
  players : List Player
  attacks : List AttackObj
  map : Map
deriving DecidableEq, Repr

/-- Step 1 of the frame: apply one player's input (rotation; movement;
primary and secondary attack; door opening and closing), exactly in the
source's order. -/
def applyOneInput (T : Trig) (gs : GameState) (i : Nat) (input : PlayerInput) :
    GameState :=
  let p := gs.players.getD i (Player.new .Warrior ⟨0, 0⟩)
  let p := { p with angle := input.rotation }
  let p :=
    if input.is_moving then
      move_player T p input.movement_angle none (gs.map.current_floor).floor
    else p
  let (p, attacks) :=
    if input.using_primary then
      player_attack T p (some i) gs.attacks gs.map.current_floor true
    else (p, gs.attacks)
  let (p, attacks) :=
    if input.using_secondary then
      player_attack T p (some i) attacks gs.map.current_floor false
    else (p, attacks)
  let map :=
    if input.opening_door then
      gs.map.setCurrentFloor
        (interact_with_door T (p.as_polygon T) p.centerVec .Opening
          gs.map.current_floor)
    else gs.map
  let map :=
    if input.closing_door then
      map.setCurrentFloor
        (interact_with_door T (p.as_polygon T) p.centerVec .Closing
          map.current_floor)
    else map
  { gs with players := gs.players.set i p, attacks := attacks, map := map }

/-- The input-application phase over every (input, player) pair. -/
def applyInputsPhase (T : Trig) (gs : GameState) (inputs : List PlayerInput) :
    GameState :=
  (List.range (min inputs.length gs.players.length)).foldl
    (fun gs i => applyOneInput T gs i (inputs.getD i ⟨0, 0, 0⟩)) gs

/-- The `AdvanceFrame` arm of `handle_requests` (`src/net/mod.rs`): the
whole per-frame simulation step.  In order: the frame counter, per-player
input application, attack updates, player cooldowns and regen, traps, tile
effects applied then ticked, and the monster update.  No floor-exit check
occurs in this step (the `should_descend`/`descend` call sites exist only
inside a commented-out block of `update_game` in `src/main.rs`). -/
def advance_frame (T : Trig) (gs : GameState) (inputs : List PlayerInput)
    (r : Rng) : GameState × Rng :=
  let gs := { gs with frame := gs.frame + 1 }
  let gs := applyInputsPhase T gs inputs
  let (ps, fi, atks, r) :=
    update_attacks T gs.players gs.map.current_floor gs.attacks r
  let gs :=
    { gs with players := ps, attacks := atks, map := gs.map.setCurrentFloor fi }
  let gs := { gs with players := update_cooldowns gs.players }
  let (ps, fi, r) := trigger_traps gs.players gs.map.current_floor r
  let gs := { gs with players := ps, map := gs.map.setCurrentFloor fi }
  let (ps, fi) := set_effects gs.players gs.map.current_floor
  let gs := { gs with players := ps, map := gs.map.setCurrentFloor fi }
  let gs :=
    { gs with
      map := gs.map.setCurrentFloor
        { gs.map.current_floor with
          floor := update_effects gs.map.current_floor.floor } }
  let (ps, fi, atks, r) :=
    update_monsters T gs.players gs.map.current_floor gs.attacks r
  ({ gs with players := ps, attacks := atks, map := gs.map.setCurrentFloor fi },
    r)

/-! ## Floor generation (`FloorInfo::new`, `src/map.rs` lines 497–639)

The random phases that precede tile assembly (room placement, shuffling,
corridor carving, door derivation, pruning) yield a list of retained rooms
and a list of hallway tiles; the assembly below is the source's exact
construction of the dense object array from them, with the ambient PRNG
threaded through the per-tile trap and item rolls. -/

/-- A bare wall object at a position. -/
def wall_object (pos : IVec2) : Object := { Object.default with pos := pos }

/-- A bare hallway floor object at a position. -/
def hallway_floor_object (pos : IVec2) : Object :=
  { Object.default with pos := pos, is_floor := true }

/-- The outer border walls: for every column both horizontal border tiles,
plus (re-emitted per column, as the source's chained iterator does) the two
vertical border columns `x = 0` and `x = 50`. -/
def border_walls : List Object :=
  (intRange 0 50).flatMap fun x =>
    [wall_object ⟨x, 0⟩, wall_object ⟨x, 50⟩] ++
      (intRangeIncl 0 50).flatMap fun y =>
        [wall_object ⟨0, y⟩, wall_object ⟨50, y⟩]

/-- The unreachable dungeon-wall tiles: every grid tile inside no room and
on no hallway. -/
def dungeon_walls (rooms : List Room) (hallways : List IVec2) : List Object :=
  (intRange 0 50).flatMap fun x =>
    (intRange 0 50).filterMap fun y =>
      let pos : IVec2 := ⟨x, y⟩
      if rooms.any (fun ro => ro.inside_room pos) || hallways.contains pos then
        none
      else some (wall_object pos)

/-- All collidable objects generated for a floor: border walls, room walls
(with doors), dungeon walls — in the source's write order. -/
def collidable_objects (rooms : List Room) (hallways : List IVec2) :
    List Object :=
  border_walls ++ rooms.flatMap Room.generate_wall_objects ++
    dungeon_walls rooms hallways

/-- All background objects: hallway floors then room floors (the latter
drawing trap/item rolls from the PRNG). -/
def background_objects (rooms : List Room) (hallways : List IVec2) (r : Rng) :
    List Object × Rng :=
  let hall := hallways.map hallway_floor_object
  let (roomFloors, r) := mapRng (fun room r => room.generate_floor r) rooms r
  (hall ++ roomFloors.flatten, r)

/-- Place every generated object at its flat index `x + y*50` in the slot
array, later writes overwriting earlier ones. -/
def writeObjects (writes : List Object) (init : List (Option Object)) :
    List (Option Object) :=
  writes.foldl
    (fun acc obj =>
      let idx := tileIndex obj.pos
      if idx < 0 then acc else acc.set idx.toNat (some obj))
    init

/-- The fallback object for a slot no generated object landed on. -/
def fallbackObject (i : Nat) : Object :=
  { Object.default with pos := ⟨(i % 50 : Nat), (i / 50 : Nat)⟩ }

/-- The source's array assembly: a `None` slot per generated object, all
writes applied, fallbacks filled in. -/
def assembleObjects (background collidable : List Object) : List Object :=
  let init : List (Option Object) :=
    List.replicate (collidable.length + background.length) none
  let written := writeObjects (background ++ collidable) init
  written.enum.map fun p => p.2.getD (fallbackObject p.1)

/-- The dense object array `FloorInfo::new` builds from its retained rooms
and hallway tiles. -/
def generated_floor_objects (rooms : List Room) (hallways : List IVec2)
    (r : Rng) : List Object × Rng :=
  let collidable := collidable_objects rooms hallways
  let (background, r) := background_objects rooms hallways r
  (assembleObjects background collidable, r)

/-! # Theorems -/

/-! ## C4 — attack creation gating (`player_attack`) -/

theorem attack_with_item_eq_of (T : Trig) (it1 it2 : ItemInfo) (p1 p2 : Player)
    (i : Option Nat) (fl : FloorInfo) (pr : Bool)
    (ht : it1.item_type = it2.item_type) (ha : p1.angle = p2.angle)
    (hp : p1.pos = p2.pos) (hs : p1.spells = p2.spells) :
    attack_with_item T it1 p1 i fl pr = attack_with_item T it2 p2 i fl pr := by
  unfold attack_with_item Player.centerVec
  rw [ht, ha, hp, hs]

theorem selCooldown_setSelCooldown (p : Player) (b : Bool) (v : Nat) :
    selCooldown (setSelCooldown p b v) b = v := by
  cases b <;> simp [selCooldown, setSelCooldown]

theorem mp_setSelCooldown (p : Player) (b : Bool) (v : Nat) :
    (setSelCooldown p b v).mp = p.mp := by
  cases b <;> simp [setSelCooldown]

theorem mp_setSelItem (p : Player) (b : Bool) (it : Option ItemInfo) :
    (setSelItem p b it).mp = p.mp := by
  cases b <;> simp [setSelItem]

theorem angle_setSelItem (p : Player) (b : Bool) (it : Option ItemInfo) :
    (setSelItem p b it).angle = p.angle := by
  cases b <;> simp [setSelItem]

theorem pos_setSelItem (p : Player) (b : Bool) (it : Option ItemInfo) :
    (setSelItem p b it).pos = p.pos := by
  cases b <;> simp [setSelItem]

theorem spells_setSelItem (p : Player) (b : Bool) (it : Option ItemInfo) :
    (setSelItem p b it).spells = p.spells := by
  cases b <;> simp [setSelItem]

theorem append_singleton_ne_self (atks : List AttackObj) :
    ¬∃ a, atks = atks ++ [a] := by
  rintro ⟨a, ha⟩
  have := congrArg List.length ha
  simp at this

/-- C4 (amended): `player_attack` appends a new attack if and only if the
selected cooldown slot is zero, the selected equipped item produces an
attack, the player's MP covers its mana cost, and — the correction — a
`ThrowingKnife` item still has a nonempty stack; when the attack is created
the mana cost is deducted immediately and the selected cooldown slot is set
to the attack's cooldown, and a nonzero cooldown leaves the player and the
attack list unchanged. -/
theorem C4_player_attack_gating (T : Trig) (p : Player) (i : Option Nat)
    (atks : List AttackObj) (floor : FloorInfo) (is_primary : Bool) :
    (selCooldown p is_primary ≠ 0 →
      player_attack T p i atks floor is_primary = (p, atks)) ∧
    ((∃ a, (player_attack T p i atks floor is_primary).2 = atks ++ [a]) ↔
      (selCooldown p is_primary = 0 ∧
        ∃ it a, selItem p is_primary = some it ∧
          (it.item_type = .ThrowingKnife → 0 < it.stack_count.getD 0) ∧
          attack_with_item T it p i floor is_primary = some a ∧
          a.mana_cost ≤ p.mp.points)) ∧
    (∀ it a, selCooldown p is_primary = 0 →
      selItem p is_primary = some it →
      (it.item_type = .ThrowingKnife → 0 < it.stack_count.getD 0) →
      attack_with_item T it p i floor is_primary = some a →
      a.mana_cost ≤ p.mp.points →
      (player_attack T p i atks floor is_primary).2 = atks ++ [a] ∧
        (player_attack T p i atks floor is_primary).1.mp.points =
          p.mp.points - a.mana_cost ∧
        selCooldown (player_attack T p i atks floor is_primary).1 is_primary =
          a.cooldown) := by
  by_cases hcd : selCooldown p is_primary = 0
  case neg =>
    have hres : player_attack T p i atks floor is_primary = (p, atks) := by
      simp [player_attack, hcd]
    refine ⟨fun _ => hres, ?_, ?_⟩
    · rw [hres]
      constructor
      · intro h; exact absurd h (append_singleton_ne_self atks)
      · rintro ⟨h, -⟩; exact absurd h hcd
    · intro it a h; exact absurd h hcd
  case pos =>
    cases hit : selItem p is_primary with
    | none =>
      have hres : player_attack T p i atks floor is_primary = (p, atks) := by
        simp [player_attack, hcd, hit]
      refine ⟨fun h => absurd hcd h, ?_, ?_⟩
      · rw [hres]
        constructor
        · intro h; exact absurd h (append_singleton_ne_self atks)
        · rintro ⟨-, it, a, hsel, -⟩; cases hsel
      · intro it a _ hsel; cases hsel
    | some item =>
      by_cases hkn : item.item_type = ItemType.ThrowingKnife
      case pos =>
        by_cases hst : 0 < item.stack_count.getD 0
        case pos =>
          -- a knife with ammo: an attack is always produced at zero cost
          have hA :
              (player_attack T p i atks floor is_primary).2 =
                atks ++
                  [AttackObj.ThrowingKnife
                    (ThrownKnife.new p.centerVec i p.angle)] := by
            simp [player_attack, hcd, hit, hkn, hst, attack_with_item,
              AttackObj.mana_cost, Player.centerVec, pos_setSelItem,
              angle_setSelItem]
          have hMP :
              (player_attack T p i atks floor is_primary).1.mp.points =
                p.mp.points := by
            simp [player_attack, hcd, hit, hkn, hst, attack_with_item,
              AttackObj.mana_cost, mp_setSelCooldown, mp_setSelItem]
          have hCD :
              selCooldown (player_attack T p i atks floor is_primary).1
                is_primary = 10 := by
            simp [player_attack, hcd, hit, hkn, hst, attack_with_item,
              AttackObj.mana_cost, AttackObj.cooldown,
              selCooldown_setSelCooldown]
          have hawi :
              attack_with_item T item p i floor is_primary =
                some (.ThrowingKnife (ThrownKnife.new p.centerVec i p.angle)) := by
            simp [attack_with_item, hkn]
          refine ⟨fun h => absurd hcd h, ?_, ?_⟩
          · constructor
            · intro _
              exact ⟨hcd, item,
                .ThrowingKnife (ThrownKnife.new p.centerVec i p.angle), rfl,
                fun _ => hst, hawi, Nat.zero_le _⟩
            · intro _
              exact ⟨_, hA⟩
          · intro it a _ hsel _ hat _
            cases hsel
            rw [hawi] at hat
            cases hat
            exact ⟨hA, by rw [hMP]; rfl, by rw [hCD]; rfl⟩
        case neg =>
          -- an empty knife stack bails out before creating anything
          have hres : player_attack T p i atks floor is_primary = (p, atks) := by
            simp [player_attack, hcd, hit, hkn, hst]
          refine ⟨fun h => absurd hcd h, ?_, ?_⟩
          · rw [hres]
            constructor
            · intro h; exact absurd h (append_singleton_ne_self atks)
            · rintro ⟨-, it, a, hsel, hstk, -⟩
              cases hsel
              exact absurd (hstk hkn) hst
          · intro it a _ hsel hstk
            cases hsel
            exact absurd (hstk hkn) hst
      case neg =>
        -- a non-knife item: no stack consumption
        have hitem : setSelItem p is_primary (some item) = p := by
          cases hb : is_primary <;>
            · simp [selItem, hb] at hit
              simp [setSelItem, hb, ← hit]
        cases hat : attack_with_item T item p i floor is_primary with
        | none =>
          have hres : player_attack T p i atks floor is_primary = (p, atks) := by
            simp [player_attack, hcd, hit, hkn, hitem, hat]
          refine ⟨fun h => absurd hcd h, ?_, ?_⟩
          · rw [hres]
            constructor
            · intro h; exact absurd h (append_singleton_ne_self atks)
            · rintro ⟨-, it, a, hsel, -, hat2, -⟩
              cases hsel
              rw [hat] at hat2
              cases hat2
          · intro it a _ hsel _ hat2
            cases hsel
            rw [hat] at hat2
            cases hat2
        | some a =>
          by_cases hm : a.mana_cost ≤ p.mp.points
          case pos =>
            have hres :
                player_attack T p i atks floor is_primary =
                  (setSelCooldown
                    { p with mp := { p.mp with points := p.mp.points - a.mana_cost } }
                    is_primary a.cooldown,
                    atks ++ [a]) := by
              simp [player_attack, hcd, hit, hkn, hitem, hat, hm]
            refine ⟨fun h => absurd hcd h, ?_, ?_⟩
            · rw [hres]
              constructor
              · intro _
                exact ⟨hcd, item, a, rfl, fun h => absurd h hkn, hat, hm⟩
              · intro _
                exact ⟨a, rfl⟩
            · intro it a2 _ hsel _ hat2 _
              cases hsel
              rw [hat] at hat2
              cases hat2
              rw [hres]
              refine ⟨rfl, ?_, ?_⟩
              · simp [mp_setSelCooldown]
              · simp [selCooldown_setSelCooldown]
          case neg =>
            have hres : player_attack T p i atks floor is_primary = (p, atks) := by
              simp [player_attack, hcd, hit, hkn, hitem, hat, hm]
            refine ⟨fun h => absurd hcd h, ?_, ?_⟩
            · rw [hres]
              constructor
              · intro h; exact absurd h (append_singleton_ne_self atks)
              · rintro ⟨-, it, a2, hsel, -, hat2, hm2⟩
                cases hsel
                rw [hat] at hat2
                cases hat2
                exact absurd hm2 hm
            · intro it a2 _ hsel _ hat2 hm2
              cases hsel
              rw [hat] at hat2
              cases hat2
              exact absurd hm2 hm

/-- The C4 counterexample player: a rogue whose throwing-knife stack has
been used up. -/
def c4CexPlayer : Player :=
  let p := Player.new .Rogue ⟨0, 0⟩
  { p with
    inventory :=
      { p.inventory with
        primary_item :=
          some { ItemInfo.new .ThrowingKnife none with stack_count := some 0 } } }

/-- C4 counterexample: the selected cooldown slot is zero, the selected
equipped item produces an attack, and MP covers its (zero) mana cost, yet
`player_attack` appends nothing — the empty knife stack blocks it, a
condition absent from the claim's if-and-only-if. -/
theorem C4_counterexample :
    selCooldown c4CexPlayer true = 0 ∧
    (∃ it a, selItem c4CexPlayer true = some it ∧
      attack_with_item trigZero it c4CexPlayer (some 0) FloorInfo.default true =
        some a ∧
      a.mana_cost ≤ c4CexPlayer.mp.points) ∧
    (player_attack trigZero c4CexPlayer (some 0) [] FloorInfo.default true).2 =
      [] := by
  refine ⟨by decide, ⟨_, _, rfl, rfl, by decide⟩, by decide⟩

/-- Witness for `C4_player_attack_gating`: a wizard with its primary
cooldown still running is left unchanged by `player_attack`. -/
theorem C4_player_attack_gating_witness :
    selCooldown { Player.new .Wizard ⟨0, 0⟩ with primary_cooldown := 5 } true ≠ 0 ∧
    player_attack trigZero
        { Player.new .Wizard ⟨0, 0⟩ with primary_cooldown := 5 } (some 0) []
        FloorInfo.default true =
      ({ Player.new .Wizard ⟨0, 0⟩ with primary_cooldown := 5 }, []) :=
  ⟨by decide,
    (C4_player_attack_gating trigZero
      { Player.new .Wizard ⟨0, 0⟩ with primary_cooldown := 5 } (some 0) []
      FloorInfo.default true).1 (by decide)⟩

/-! ## C10 — invincibility atomicity (`damage_player`) -/

/-- C10: with `invincibility_frames > 0`, `damage_player` returns the
player entirely unchanged; with `invincibility_frames = 0`, it subtracts
the damage from HP saturating at zero, applies each axis of the flinch
displacement exactly when that axis is collision-free, and arms
`2 × damage` invincibility frames (exact below the `u16` wrap). -/
theorem C10_damage_player_atomicity (T : Trig) (p : Player) (damage : Nat)
    (dir : ℚ) (floor : Floor) :
    (p.invincibility_frames > 0 → damage_player T p damage dir floor = p) ∧
    (p.invincibility_frames = 0 →
      (damage_player T p damage dir floor).hp.points = p.hp.points - damage ∧
      (p.hp.points ≤ damage → (damage_player T p damage dir floor).hp.points = 0) ∧
      (damage_player T p damage dir floor).pos =
        (let dist : Vec2 :=
          Vec2.mul ⟨T.cos dir, T.sin dir⟩ (Vec2.splat PLAYER_SIZE)
        let ci := floor.collision_dir T (p.as_polygon T) dist
        ⟨if ci.x then p.pos.x else p.pos.x + dist.x,
          if ci.y then p.pos.y else p.pos.y + dist.y⟩) ∧
      (damage < 32768 →
        (damage_player T p damage dir floor).invincibility_frames =
          2 * damage)) := by
  constructor
  · intro h
    simp [damage_player, h]
  · intro h0
    have hngt : ¬p.invincibility_frames > 0 := by omega
    refine ⟨?_, ?_, ?_, ?_⟩
    · simp [damage_player, hngt, move_player]
    · intro hle
      simp [damage_player, hngt, move_player, Nat.sub_eq_zero_of_le hle]
    · simp [damage_player, hngt, move_player, Player.as_polygon]
    · intro hlt
      have : 2 * damage < 65536 := by omega
      simp [damage_player, hngt, move_player, Nat.mod_eq_of_lt this]

/-- Witness for `C10_damage_player_atomicity`: a fresh warrior hit for 7 on
an empty floor loses 7 HP and gains 14 invincibility frames. -/
theorem C10_damage_player_atomicity_witness :
    (Player.new .Warrior ⟨0, 0⟩).invincibility_frames = 0 ∧
    (damage_player trigZero (Player.new .Warrior ⟨0, 0⟩) 7 0 ⟨[]⟩).hp.points =
      (Player.new .Warrior ⟨0, 0⟩).hp.points - 7 ∧
    (damage_player trigZero (Player.new .Warrior ⟨0, 0⟩) 7 0 ⟨[]⟩).invincibility_frames =
      2 * 7 :=
  ⟨by decide,
    ((C10_damage_player_atomicity trigZero (Player.new .Warrior ⟨0, 0⟩) 7 0
      ⟨[]⟩).2 (by decide)).1,
    ((C10_damage_player_atomicity trigZero (Player.new .Warrior ⟨0, 0⟩) 7 0
      ⟨[]⟩).2 (by decide)).2.2.2 (by decide)⟩

/-! ## C6 — regeneration (`Player::update_enchantments`) -/

theorem regen_step_facts (S n : Nat) (p : Player)
    (hE : p.enchantments = ⟨none, none, some (S, n + 1)⟩) :
    (Player.update_enchantments p).hp.points =
      (if (n + 1) % (60 / S) = 0 then
        if p.hp.points < p.hp.max_points then p.hp.points + 1
        else p.hp.points
      else p.hp.points) ∧
    (Player.update_enchantments p).hp.max_points = p.hp.max_points ∧
    (Player.update_enchantments p).enchantments =
      ⟨none, none, if n = 0 then none else some (S, n)⟩ := by
  refine ⟨?_, ?_, ?_⟩
  · simp only [Player.update_enchantments, hE, tickEntry, Nat.add_sub_cancel]
    split
    · split <;> rfl
    · rfl
  · simp only [Player.update_enchantments, hE, tickEntry, Nat.add_sub_cancel]
    split
    · split <;> rfl
    · rfl
  · simp only [Player.update_enchantments, hE, tickEntry, Nat.add_sub_cancel]

theorem update_enchantments_fixed (p : Player)
    (hE : p.enchantments = ⟨none, none, none⟩) :
    Player.update_enchantments p = p := by
  simp only [Player.update_enchantments, hE, tickEntry]
  rw [← hE]

theorem regen_run (S : Nat) (hS1 : 1 ≤ S) (hS60 : S ≤ 60) :
    ∀ (t : Nat) (p : Player),
      p.enchantments = ⟨none, none, some (S, t)⟩ →
      p.hp.points ≤ p.hp.max_points →
      (Player.update_enchantments^[t] p).hp.points =
        min (p.hp.points + t / (60 / S)) p.hp.max_points ∧
      (Player.update_enchantments^[t] p).hp.max_points = p.hp.max_points ∧
      (Player.update_enchantments^[t] p).enchantments =
        (if t = 0 then (⟨none, none, some (S, 0)⟩ : EnchantMap)
        else ⟨none, none, none⟩) := by
  have hd : 1 ≤ 60 / S := (Nat.one_le_div_iff (by omega)).mpr hS60
  intro t
  induction t with
  | zero =>
    intro p hE hle
    exact ⟨by simpa using (Nat.min_eq_left hle).symm, rfl, by simpa using hE⟩
  | succ n ih =>
    intro p hE hle
    obtain ⟨hp1, hmax1, hE1⟩ := regen_step_facts S n p hE
    rw [Function.iterate_succ_apply]
    rcases Nat.eq_zero_or_pos n with hn | hn
    · -- the final tick: the entry is removed after this step
      subst hn
      simp only [Nat.zero_add] at hp1 ⊢
      simp only [Function.iterate_zero_apply]
      refine ⟨?_, hmax1, by simpa using hE1⟩
      rw [hp1]
      rcases Nat.decEq (1 % (60 / S)) 0 with h1 | h1
      · -- 60/S ≥ 2: the single tick heals nothing
        have hd2 : 2 ≤ 60 / S := by
          rcases Nat.lt_or_ge (60 / S) 2 with h | h
          · exfalso
            have he : 60 / S = 1 := by omega
            rw [he] at h1
            exact h1 rfl
          · exact h
        rw [if_neg h1, Nat.div_eq_of_lt (by omega), Nat.add_zero,
          Nat.min_eq_left hle]
      · -- 60/S = 1: the single tick heals once (below the maximum)
        have hdeq : 60 / S = 1 := by
          rcases Nat.lt_or_ge (60 / S) 2 with h | h
          · omega
          · exfalso
            rw [Nat.mod_eq_of_lt (by omega)] at h1
            exact absurd h1 (by omega)
        rw [if_pos h1, hdeq]
        simp only [Nat.div_one]
        rcases Nat.lt_or_ge p.hp.points p.hp.max_points with hlt | hge
        · rw [if_pos hlt, Nat.min_eq_left (by omega)]
        · rw [if_neg (by omega), Nat.min_eq_right (by omega)]
          omega
    · -- counter n ≥ 1 survives; induction on the stepped player
      have hE1n : (Player.update_enchantments p).enchantments =
          ⟨none, none, some (S, n)⟩ := by
        rw [hE1, if_neg (by omega)]
      have hle1 : (Player.update_enchantments p).hp.points ≤
          (Player.update_enchantments p).hp.max_points := by
        rw [hp1, hmax1]
        split
        · split <;> omega
        · omega
      obtain ⟨ihp, ihmax, ihE⟩ := ih (Player.update_enchantments p) hE1n hle1
      have hsucc := Nat.succ_div n (60 / S)
      refine ⟨?_, by rw [ihmax, hmax1], by rw [ihE, if_neg (by omega), if_neg (by omega)]⟩
      rw [ihp, hp1, hmax1]
      rcases Nat.decEq ((n + 1) % (60 / S)) 0 with h1 | h1
      · -- no heal on this frame
        have hnd : ¬(60 / S) ∣ (n + 1) := by
          rw [Nat.dvd_iff_mod_eq_zero]; exact h1
        rw [if_neg h1, hsucc, if_neg hnd, Nat.add_zero]
      · -- a heal frame (effective below the maximum)
        have hndd : (60 / S) ∣ (n + 1) := by
          rw [Nat.dvd_iff_mod_eq_zero]; exact h1
        rw [if_pos h1, hsucc, if_pos hndd]
        rcases Nat.lt_or_ge p.hp.points p.hp.max_points with hlt | hge
        · rw [if_pos hlt]
          congr 1
          omega
        · rw [if_neg (by omega)]
          have ha : p.hp.points = p.hp.max_points := by omega
          rw [ha, Nat.min_eq_right (Nat.le_add_right _ _),
            Nat.min_eq_right (Nat.le_add_right _ _)]

theorem update_enchantments_hp_bound (p : Player)
    (hle : p.hp.points ≤ p.hp.max_points) :
    (Player.update_enchantments p).hp.points ≤
      (Player.update_enchantments p).hp.max_points ∧
    (Player.update_enchantments p).hp.max_points = p.hp.max_points := by
  cases hE : p.enchantments.regenerating with
  | none =>
    have h1 : (Player.update_enchantments p).hp = p.hp := by
      simp [Player.update_enchantments, hE]
    rw [h1]
    exact ⟨hle, rfl⟩
  | some v =>
    obtain ⟨s, τ⟩ := v
    have h2 : (Player.update_enchantments p).hp.max_points = p.hp.max_points := by
      simp only [Player.update_enchantments, hE]
      split
      · split <;> rfl
      · rfl
    have h1 : (Player.update_enchantments p).hp.points ≤ p.hp.max_points := by
      simp only [Player.update_enchantments, hE]
      split
      · split
        · simp only []
          omega
        · exact hle
      · exact hle
    exact ⟨h2 ▸ h1, h2⟩

/-- C6 (amended): with a `Regenerating` enchantment of strength `S`
(`1 ≤ S ≤ 60`) and `t ≥ 1` frames remaining, a player below or at maximum
HP gains 1 HP every `60 / S` frames — not `30 / S` — saturating at
`max_points` (never exceeded at any step); the enchantment is removed when
its counter reaches zero, after which further calls change nothing. -/
theorem C6_regeneration_rate (S t : Nat) (p : Player) (hS1 : 1 ≤ S)
    (hS60 : S ≤ 60) (ht : 1 ≤ t)
    (hE : p.enchantments = ⟨none, none, some (S, t)⟩)
    (hle : p.hp.points ≤ p.hp.max_points) :
    (Player.update_enchantments^[t] p).hp.points =
      min (p.hp.points + t / (60 / S)) p.hp.max_points ∧
    (∀ k, (Player.update_enchantments^[k] p).hp.points ≤ p.hp.max_points) ∧
    (Player.update_enchantments^[t] p).enchantments.regenerating = none ∧
    (∀ k, Player.update_enchantments^[t + k] p =
      Player.update_enchantments^[t] p) := by
  obtain ⟨hpts, hmax, hench⟩ := regen_run S hS1 hS60 t p hE hle
  have hbound : ∀ k, (Player.update_enchantments^[k] p).hp.points ≤
      (Player.update_enchantments^[k] p).hp.max_points ∧
      (Player.update_enchantments^[k] p).hp.max_points = p.hp.max_points := by
    intro k
    induction k with
    | zero => exact ⟨hle, rfl⟩
    | succ m ihm =>
      rw [Function.iterate_succ_apply']
      obtain ⟨b1, b2⟩ :=
        update_enchantments_hp_bound (Player.update_enchantments^[m] p) ihm.1
      exact ⟨b1, b2.trans ihm.2⟩
  have henchNone : (Player.update_enchantments^[t] p).enchantments =
      ⟨none, none, none⟩ := by
    rw [hench, if_neg (by omega)]
  refine ⟨hpts, fun k => (hbound k).2 ▸ (hbound k).1, by rw [henchNone], ?_⟩
  intro k
  induction k with
  | zero => rfl
  | succ m ihm =>
    have h2 : t + (m + 1) = (t + m) + 1 := by omega
    rw [h2, Function.iterate_succ_apply', ihm]
    exact update_enchantments_fixed _ henchNone

/-- The C6 counterexample player: a wizard at 0 of 20 HP holding a fresh
strength-2 `Regenerating` enchantment (480 frames). -/
def c6CexPlayer : Player :=
  { Player.new .Wizard ⟨0, 0⟩ with
    hp := ⟨0, 900, 20, 900⟩
    enchantments := ⟨none, none, some (2, 480)⟩ }

/-- C6 counterexample: over the first 30 frames the strength-2 enchantment
heals exactly 1 HP (one heal per `60/S = 30` frames), while the claim's
`30/S = 15`-frame period would require `30 / 15 = 2` HP. -/
theorem C6_counterexample :
    (Player.update_enchantments^[30] c6CexPlayer).hp.points =
      c6CexPlayer.hp.points + 1 ∧
    c6CexPlayer.hp.points + 1 ≠ c6CexPlayer.hp.points + 30 / (30 / 2) := by
  constructor
  · decide
  · decide

/-- The C6 witness player: a wizard holding a strength-1 `Regenerating`
enchantment with 60 frames remaining. -/
def c6WitnessPlayer : Player :=
  { Player.new .Wizard ⟨0, 0⟩ with
    enchantments := ⟨none, none, some (1, 60)⟩ }

/-- Witness for `C6_regeneration_rate` at strength 1 and 60 frames. -/
theorem C6_regeneration_rate_witness :
    c6WitnessPlayer.enchantments = ⟨none, none, some (1, 60)⟩ ∧
    (Player.update_enchantments^[60] c6WitnessPlayer).hp.points =
      min (c6WitnessPlayer.hp.points + 60 / (60 / 1))
        c6WitnessPlayer.hp.max_points :=
  ⟨by decide,
    (C6_regeneration_rate 1 60 c6WitnessPlayer (by decide) (by decide)
      (by decide) (by decide) (by decide)).1⟩

/-! ## C7 — MagicMissile bounce contract -/

theorem mm_after_wall_bounces (T : Trig) (a : MagicMissile) (fi : FloorInfo)
    (hb : a.bounces ≤ 3) : ((mm_after_wall T a fi).1).bounces ≤ 3 := by
  simp only [mm_after_wall]
  split_ifs <;> (try simp) <;> omega

set_option linter.unnecessarySeqFocus false

theorem mm_bounce_cap (T : Trig) (a : MagicMissile) (fi : FloorInfo)
    (hb : a.bounces ≤ 3) : ((MagicMissile.update T a fi).1).bounces ≤ 3 := by
  have h1 := mm_after_wall_bounces T a fi hb
  simp only [MagicMissile.update]
  cases haw : mm_after_wall T a fi with
  | mk a1 mv =>
    rw [haw] at h1
    split <;> simp_all <;> split_ifs <;> simp_all <;> omega

theorem mm_removal_iff (T : Trig) (a : MagicMissile) (fi : FloorInfo) :
    (MagicMissile.update T a fi).2.2 = true ↔
      60 ≤ ((MagicMissile.update T a fi).1).time := by
  simp only [MagicMissile.update]
  cases haw : mm_after_wall T a fi with
  | mk a1 mv =>
    split <;>
      exact ⟨of_decide_eq_true, fun h => decide_eq_true h⟩

theorem mm_hit_damage (T : Trig) (a : MagicMissile) (fi : FloorInfo)
    (i : Nat) (ci : BVec2) (m : MonsterObj)
    (hhit : findHitMonster T (((mm_after_wall T a fi).1).as_polygon T)
      fi.monsters = some (i, ci))
    (hm : fi.monsters.get? i = some m) :
    (MagicMissile.update T a fi).2.1.monsters =
      fi.monsters.set i
        (m.take_damage T
          ⟨MM_BASE_DAMAGE ^ (1 + ((mm_after_wall T a fi).1).bounces),
            get_angle T m.posVec ((mm_after_wall T a fi).1).pos,
            ((mm_after_wall T a fi).1).player_index⟩
          fi.floor) := by
  simp only [MagicMissile.update]
  cases haw : mm_after_wall T a fi with
  | mk a1 mv =>
    rw [haw] at hhit
    simp only [hhit, hm]
    split <;> simp

/-- C7: in `MagicMissile::update` the bounce counter never exceeds 3 (it is
incremented on wall or reflecting hits only while below 3); the damage
dealt on monster contact is exactly `BASE_DAMAGE ^ (1 + bounces)` with the
counter as it stands at contact — which is 1, the canonical `BASE_DAMAGE`
being 1; and the update reports removal exactly when the elapsed-time
counter has reached the fixed 60-frame lifetime. -/
theorem C7_magic_missile_contract (T : Trig) (a : MagicMissile)
    (fi : FloorInfo) (hb : a.bounces ≤ 3) :
    ((MagicMissile.update T a fi).1).bounces ≤ 3 ∧
    ((MagicMissile.update T a fi).2.2 = true ↔
      60 ≤ ((MagicMissile.update T a fi).1).time) ∧
    (∀ i ci m,
      findHitMonster T (((mm_after_wall T a fi).1).as_polygon T) fi.monsters =
        some (i, ci) →
      fi.monsters.get? i = some m →
      (MagicMissile.update T a fi).2.1.monsters =
        fi.monsters.set i
          (m.take_damage T
            ⟨MM_BASE_DAMAGE ^ (1 + ((mm_after_wall T a fi).1).bounces),
              get_angle T m.posVec ((mm_after_wall T a fi).1).pos,
              ((mm_after_wall T a fi).1).player_index⟩
            fi.floor) ∧
        MM_BASE_DAMAGE ^ (1 + ((mm_after_wall T a fi).1).bounces) = 1) :=
  ⟨mm_bounce_cap T a fi hb, mm_removal_iff T a fi,
    fun i ci m hhit hm =>
      ⟨mm_hit_damage T a fi i ci m hhit hm, one_pow _⟩⟩

/-- The C7 witness missile, fresh at the origin. -/
def c7Missile : MagicMissile := ⟨⟨0, 0⟩, 0, 0, 0, 0⟩

/-- The C7 witness floor: a single slime overlapping the missile. -/
def c7Fi : FloorInfo :=
  { FloorInfo.default with monsters := [.GreenSlime (GreenSlime.new ⟨5, -5⟩)] }

/-- Witness for `C7_magic_missile_contract`: the fresh missile overlapping
a slime keeps its bounce counter at most 3 and deals the slime exactly
`BASE_DAMAGE ^ (1 + 0) = 1` damage. -/
theorem C7_magic_missile_contract_witness :
    c7Missile.bounces ≤ 3 ∧
    ((MagicMissile.update trigZero c7Missile c7Fi).1).bounces ≤ 3 ∧
    (MagicMissile.update trigZero c7Missile c7Fi).2.1.monsters =
      c7Fi.monsters.set 0
        ((MonsterObj.GreenSlime (GreenSlime.new ⟨5, -5⟩)).take_damage trigZero
          ⟨MM_BASE_DAMAGE ^ (1 + ((mm_after_wall trigZero c7Missile c7Fi).1).bounces),
            get_angle trigZero
              (MonsterObj.GreenSlime (GreenSlime.new ⟨5, -5⟩)).posVec
              ((mm_after_wall trigZero c7Missile c7Fi).1).pos,
            ((mm_after_wall trigZero c7Missile c7Fi).1).player_index⟩
          c7Fi.floor) :=
  ⟨by decide,
    (C7_magic_missile_contract trigZero c7Missile c7Fi (by decide)).1,
    ((C7_magic_missile_contract trigZero c7Missile c7Fi (by decide)).2.2 0
      ⟨true, true⟩ (.GreenSlime (GreenSlime.new ⟨5, -5⟩))
      (of_decide_eq_true (by with_unfolding_all rfl))
      (by with_unfolding_all rfl)).1⟩

/-! ## C9 — monster death XP distribution (`update_monsters`) -/

/-- The XP-relevant projection of a player. -/
def xpLevel (p : Player) : Nat × Nat := (p.xp, p.level)

/-- The action of `Player::add_xp` on the (xp, level) pair; `none` mirrors
the `todo!()` abort at level ≥ 2. -/
def addXpPair (xp : Nat) (v : Nat × Nat) : Option (Nat × Nat) :=
  let x := v.1 + xp
  match v.2 with
  | 0 => some (if x ≥ 14 then (0, 1) else (x, 0))
  | 1 => some (if x ≥ 16 then (0, 2) else (x, 1))
  | _ => none

/-- One dead monster's award pass over the players' (xp, level) pairs,
walking them by index; `none` when some award hits the abort. -/
def awardList (indices : List Nat) (amt : Nat) :
    Nat → List (Nat × Nat) → Option (List (Nat × Nat))
  | _, [] => some []
  | i, v :: rest =>
    match (if indices.contains i then addXpPair amt v else some v) with
    | none => none
    | some v2 =>
      match awardList indices amt (i + 1) rest with
      | none => none
      | some rest2 => some (v2 :: rest2)

/-- The XP bookkeeping of one retain pass: each dead monster grants its XP
amount to exactly the players indexed by its damaged-by set; `none` when
the program would abort in `add_xp`. -/
def xpDistribute :
    List MonsterObj → List (Nat × Nat) → Option (List (Nat × Nat))
  | [], vs => some vs
  | m :: rest, vs =>
    if m.living then xpDistribute rest vs
    else
      match awardList m.xp.1 m.xp.2 0 vs with
      | none => none
      | some vs2 => xpDistribute rest vs2

theorem xpLevel_add_xp (p : Player) (n : Nat) :
    (p.add_xp n).map xpLevel = addXpPair n (xpLevel p) := by
  simp only [Player.add_xp, addXpPair, xpLevel]
  cases hl : p.level with
  | zero =>
    simp only [Option.map_some]
    split <;> rfl
  | succ l =>
    cases l with
    | zero =>
      simp only [Option.map_some]
      split <;> rfl
    | succ l2 => rfl

theorem xpLevel_award (p : Player) (amt : Nat) (v2 : Nat × Nat)
    (h : addXpPair amt (xpLevel p) = some v2) :
    xpLevel ((p.add_xp amt).getD p) = v2 := by
  have hc := xpLevel_add_xp p amt
  rw [h] at hc
  cases hadd : p.add_xp amt with
  | none => rw [hadd] at hc; cases hc
  | some q =>
    rw [hadd] at hc
    exact Option.some.inj hc

theorem xpLevel_damage_player (T : Trig) (p : Player) (d : Nat) (dir : ℚ)
    (f : Floor) : xpLevel (damage_player T p d dir f) = xpLevel p := by
  simp only [damage_player, move_player, xpLevel]
  split <;> rfl

theorem map_xpLevel_damage_players (T : Trig) (m : MonsterObj)
    (players : List Player) (f : Floor) :
    (m.damage_players T players f).map xpLevel = players.map xpLevel := by
  cases m <;>
    · simp only [MonsterObj.damage_players, SmallRat.damage_players,
        GreenSlime.damage_players, List.map_map]
      apply List.map_congr_left
      intro p _
      simp only [Function.comp_apply]
      split <;> simp [xpLevel_damage_player]

theorem slime_fold_pres
    (f : GreenSlime × List AttackObj → Player → GreenSlime × List AttackObj)
    (hf : ∀ acc p, (f acc p).1.health = acc.1.health ∧
      (f acc p).1.damaged_by = acc.1.damaged_by) :
    ∀ (l : List Player) (s : GreenSlime) (atks : List AttackObj),
      (l.foldl f (s, atks)).1.health = s.health ∧
      (l.foldl f (s, atks)).1.damaged_by = s.damaged_by := by
  intro l
  induction l with
  | nil => intro s atks; exact ⟨rfl, rfl⟩
  | cons p rest ih =>
    intro s atks
    simp only [List.foldl_cons]
    have h := hf (s, atks) p
    have h2 := ih (f (s, atks) p).1 (f (s, atks) p).2
    rw [Prod.mk.eta] at h2
    exact ⟨h2.1.trans h.1, h2.2.trans h.2⟩

theorem slime_attack_health (T : Trig) (s : GreenSlime) (players : List Player)
    (f : Floor) (atks : List AttackObj) :
    (GreenSlime.attack T s players f atks).1.health = s.health ∧
    (GreenSlime.attack T s players f atks).1.damaged_by = s.damaged_by := by
  simp only [GreenSlime.attack]
  split
  · exact ⟨rfl, rfl⟩
  · refine slime_fold_pres _ ?_ _ _ _
    intro acc p
    exact ⟨rfl, rfl⟩

theorem xpProj_attack (T : Trig) (m : MonsterObj) (players : List Player)
    (f : Floor) (atks : List AttackObj) :
    (MonsterObj.attack T m players f atks).1.xpProj = m.xpProj := by
  cases m with
  | SmallRat r => rfl
  | GreenSlime s =>
    obtain ⟨h1, h2⟩ := slime_attack_health T s players f atks
    cases hsa : GreenSlime.attack T s players f atks with
    | mk s1 a1 =>
      rw [hsa] at h1 h2
      simp only [MonsterObj.attack, hsa, MonsterObj.xpProj, MonsterObj.living,
        MonsterObj.xp, GreenSlime.living, GreenSlime.xp]
      rw [h1, h2]

theorem monsterRetainPhase_cons (T : Trig) (floor : Floor) (m : MonsterObj)
    (rest : List MonsterObj) (players : List Player)
    (attacks : List AttackObj) :
    monsterRetainPhase T floor (m :: rest) players attacks =
      (if (m.attack T players floor attacks).1.living then
        (m.attack T players floor attacks).1 ::
          (monsterRetainPhase T floor rest
            (if !(m.attack T players floor attacks).1.living then
              ((m.attack T players floor attacks).1.damage_players T players
                floor).enum.map fun pi =>
                if (m.attack T players floor attacks).1.xp.1.contains pi.1 then
                  (pi.2.add_xp (m.attack T players floor attacks).1.xp.2).getD
                    pi.2
                else pi.2
            else
              (m.attack T players floor attacks).1.damage_players T players
                floor)
            (m.attack T players floor attacks).2).1
      else
        (monsterRetainPhase T floor rest
          (if !(m.attack T players floor attacks).1.living then
            ((m.attack T players floor attacks).1.damage_players T players
              floor).enum.map fun pi =>
              if (m.attack T players floor attacks).1.xp.1.contains pi.1 then
                (pi.2.add_xp (m.attack T players floor attacks).1.xp.2).getD
                  pi.2
              else pi.2
          else
            (m.attack T players floor attacks).1.damage_players T players
              floor)
          (m.attack T players floor attacks).2).1,
      (monsterRetainPhase T floor rest
        (if !(m.attack T players floor attacks).1.living then
          ((m.attack T players floor attacks).1.damage_players T players
            floor).enum.map fun pi =>
            if (m.attack T players floor attacks).1.xp.1.contains pi.1 then
              (pi.2.add_xp (m.attack T players floor attacks).1.xp.2).getD pi.2
            else pi.2
        else
          (m.attack T players floor attacks).1.damage_players T players floor)
        (m.attack T players floor attacks).2).2.1,
      (monsterRetainPhase T floor rest
        (if !(m.attack T players floor attacks).1.living then
          ((m.attack T players floor attacks).1.damage_players T players
            floor).enum.map fun pi =>
            if (m.attack T players floor attacks).1.xp.1.contains pi.1 then
              (pi.2.add_xp (m.attack T players floor attacks).1.xp.2).getD pi.2
            else pi.2
        else
          (m.attack T players floor attacks).1.damage_players T players floor)
        (m.attack T players floor attacks).2).2.2) := by
  rfl

theorem awardList_spec (indices : List Nat) (amt : Nat) :
    ∀ (ps : List Player) (i : Nat) (vs2 : List (Nat × Nat)),
      awardList indices amt i (ps.map xpLevel) = some vs2 →
      ((ps.enumFrom i).map fun pi =>
        if indices.contains pi.1 then (pi.2.add_xp amt).getD pi.2
        else pi.2).map xpLevel = vs2 := by
  intro ps
  induction ps with
  | nil =>
    intro i vs2 h
    cases h
    rfl
  | cons p rest ih =>
    intro i vs2 h
    simp only [List.map_cons, awardList] at h
    by_cases hidx : indices.contains i = true
    · rw [if_pos hidx] at h
      cases haxp : addXpPair amt (xpLevel p) with
      | none => rw [haxp] at h; cases h
      | some v2h =>
        rw [haxp] at h
        cases har : awardList indices amt (i + 1) (rest.map xpLevel) with
        | none => rw [har] at h; cases h
        | some rest2 =>
          rw [har] at h
          cases h
          have hh := xpLevel_award p amt v2h haxp
          have ht := ih (i + 1) rest2 har
          simp only [List.enumFrom, List.map_cons]
          rw [if_pos hidx, hh, ht]
    · rw [if_neg hidx] at h
      cases har : awardList indices amt (i + 1) (rest.map xpLevel) with
      | none => rw [har] at h; cases h
      | some rest2 =>
        rw [har] at h
        cases h
        have ht := ih (i + 1) rest2 har
        simp only [List.enumFrom, List.map_cons]
        rw [if_neg hidx, ht]

theorem retain_phase_spec (T : Trig) (floor : Floor) :
    ∀ (ms : List MonsterObj) (players : List Player) (atks : List AttackObj)
      (vs : List (Nat × Nat)),
      xpDistribute ms (players.map xpLevel) = some vs →
      (monsterRetainPhase T floor ms players atks).1.map MonsterObj.xpProj =
        (ms.filter MonsterObj.living).map MonsterObj.xpProj ∧
      (monsterRetainPhase T floor ms players atks).2.1.map xpLevel = vs := by
  intro ms
  induction ms with
  | nil =>
    intro players atks vs H
    cases H
    exact ⟨rfl, rfl⟩
  | cons m rest ih =>
    intro players atks vs H
    rw [monsterRetainPhase_cons]
    have hprojFull := xpProj_attack T m players floor atks
    have hproj := hprojFull
    simp only [MonsterObj.xpProj, Prod.mk.injEq] at hproj
    obtain ⟨hL, hX⟩ := hproj
    rw [hL, hX]
    simp only [xpDistribute] at H
    by_cases hliv : m.living = true
    · rw [if_pos hliv] at H
      simp only [hliv, Bool.not_true, Bool.false_eq_true, if_false, if_true]
      have H2 : xpDistribute rest
          (((MonsterObj.attack T m players floor atks).1.damage_players T
            players floor).map xpLevel) = some vs := by
        rw [map_xpLevel_damage_players]
        exact H
      obtain ⟨r1, r2⟩ :=
        ih _ (MonsterObj.attack T m players floor atks).2 vs H2
      refine ⟨?_, r2⟩
      simp only [List.map_cons, List.filter_cons, hliv, if_pos trivial]
      rw [r1, hprojFull]
    · have hlivF : m.living = false := by simpa using hliv
      rw [if_neg hliv] at H
      cases haw : awardList m.xp.1 m.xp.2 0 (players.map xpLevel) with
      | none => rw [haw] at H; cases H
      | some vs1 =>
        rw [haw] at H
        simp only [hlivF, Bool.not_false, Bool.false_eq_true, if_false,
          if_true]
        have haw2 : awardList m.xp.1 m.xp.2 0
            (((MonsterObj.attack T m players floor atks).1.damage_players T
              players floor).map xpLevel) = some vs1 := by
          rw [map_xpLevel_damage_players]
          exact haw
        have hmap2 :
            ((((MonsterObj.attack T m players floor atks).1.damage_players T
              players floor).enum.map fun pi =>
              if m.xp.1.contains pi.1 then (pi.2.add_xp m.xp.2).getD pi.2
              else pi.2).map xpLevel) = vs1 := by
          simpa [List.enum] using
            awardList_spec m.xp.1 m.xp.2
              ((MonsterObj.attack T m players floor atks).1.damage_players T
                players floor) 0 vs1 haw2
        obtain ⟨r1, r2⟩ := ih
          ((((MonsterObj.attack T m players floor atks).1.damage_players T
            players floor)).enum.map fun pi =>
            if m.xp.1.contains pi.1 then (pi.2.add_xp m.xp.2).getD pi.2
            else pi.2)
          (MonsterObj.attack T m players floor atks).2 vs
          (by rw [hmap2]; exact H)
        refine ⟨?_, r2⟩
        rw [r1]
        simp [List.filter_cons, hlivF]

/-- C9 (amended): monster death XP distribution, for every pass whose XP
bookkeeping succeeds.  After the movement phase produces the moved monster
list, the retained monster list consists (in order, with unchanged
living/XP data) of exactly the moved monsters whose health is positive —
monsters whose health has reached 0 are removed — and, provided no award
hits `add_xp`'s `todo!()` abort (which any XP gain at level ≥ 2 does), the
players' (xp, level) pairs evolve exactly by the fold `xpDistribute`: each
dead monster applies `add_xp` of its fixed XP amount (2 for a slime) to
exactly the players whose indices are in its `damaged_by` set, leaving
every other player's XP and level unchanged, while living monsters award
no XP. -/
theorem C9_monster_death_xp (T : Trig) (players : List Player)
    (fi : FloorInfo) (attacks : List AttackObj) (r : Rng)
    (vs : List (Nat × Nat))
    (H : xpDistribute
      (monsterMovementPhase T players fi.monsters fi.floor r).1
      (players.map xpLevel) = some vs) :
    (update_monsters T players fi attacks r).2.1.monsters.map
        MonsterObj.xpProj =
      ((monsterMovementPhase T players fi.monsters fi.floor r).1.filter
        MonsterObj.living).map MonsterObj.xpProj ∧
    (update_monsters T players fi attacks r).1.map xpLevel = vs :=
  retain_phase_spec T fi.floor
    (monsterMovementPhase T players fi.monsters fi.floor r).1 players attacks
    vs H

/-- A player who has already levelled up twice: any further XP hits the
source's `todo!()`. -/
def c9PanicPlayer : Player := { Player.new .Warrior ⟨0, 0⟩ with level := 2 }

def c9DeadSlime : MonsterObj :=
  .GreenSlime { GreenSlime.new ⟨0, 0⟩ with health := 0, damaged_by := [0] }

/-- C9, counterexample to the original claim: a dead slime owing its 2 XP
to player 0 does not award it when that player is at level 2 — `add_xp`
hits the unimplemented `todo!()` arm and the process aborts (`none`), so
the XP bookkeeping of the pass fails rather than distributing. -/
theorem C9_counterexample :
    c9PanicPlayer.add_xp 2 = none ∧
    xpDistribute [c9DeadSlime] [xpLevel c9PanicPlayer] = none ∧
    c9DeadSlime.living = false ∧
    c9DeadSlime.xp.1 = [0] := by
  refine ⟨?_, ?_, ?_, ?_⟩ <;> with_unfolding_all rfl

def c9Players : List Player :=
  [Player.new .Wizard ⟨1000, 1000⟩, Player.new .Wizard ⟨1000, 1000⟩,
    Player.new .Wizard ⟨1000, 1000⟩]

def c9Slime02 : MonsterObj :=
  .GreenSlime { GreenSlime.new ⟨0, 0⟩ with health := 0, damaged_by := [0, 2] }

def c9Fi : FloorInfo :=
  { spawn := ⟨0, 0⟩
    monster_types := []
    item_types := []
    monsters := [c9Slime02]
    floor := ⟨[]⟩
    rooms := []
    exit := Object.default }

theorem C9_monster_death_xp_witness :
    xpDistribute (monsterMovementPhase trigZero c9Players c9Fi.monsters
        c9Fi.floor ⟨[]⟩).1 (c9Players.map xpLevel) =
      some [(2, 0), (0, 0), (2, 0)] ∧
    (update_monsters trigZero c9Players c9Fi [] ⟨[]⟩).1.map xpLevel =
      [(2, 0), (0, 0), (2, 0)] :=
  ⟨by with_unfolding_all rfl,
    (C9_monster_death_xp trigZero c9Players c9Fi [] ⟨[]⟩
      [(2, 0), (0, 0), (2, 0)] (by with_unfolding_all rfl)).2⟩

/-! ## C2 — per-frame phase ordering (`handle_requests`, AdvanceFrame) -/

theorem setCurrentFloor_cfi (m : Map) (fi : FloorInfo) :
    (m.setCurrentFloor fi).current_floor_index = m.current_floor_index := rfl

theorem applyOneInput_cfi (T : Trig) (gs : GameState) (i : Nat)
    (input : PlayerInput) :
    (applyOneInput T gs i input).map.current_floor_index =
      gs.map.current_floor_index := by
  simp only [applyOneInput]
  split <;> split <;> rfl

theorem inputFold_cfi (T : Trig) (inputs : List PlayerInput) :
    ∀ (l : List Nat) (gs : GameState),
      ((l.foldl (fun gs i => applyOneInput T gs i (inputs.getD i ⟨0, 0, 0⟩))
        gs)).map.current_floor_index = gs.map.current_floor_index := by
  intro l
  induction l with
  | nil => intro gs; rfl
  | cons a l ih =>
    intro gs
    rw [List.foldl_cons, ih, applyOneInput_cfi]

theorem advance_frame_cfi (T : Trig) (gs : GameState)
    (inputs : List PlayerInput) (r : Rng) :
    (advance_frame T gs inputs r).1.map.current_floor_index =
      gs.map.current_floor_index :=
  inputFold_cfi T inputs
    (List.range (min inputs.length gs.players.length))
    { gs with frame := gs.frame + 1 }

theorem inputFold_frame (T : Trig) (inputs : List PlayerInput) :
    ∀ (l : List Nat) (gs : GameState),
      ((l.foldl (fun gs i => applyOneInput T gs i (inputs.getD i ⟨0, 0, 0⟩))
        gs)).frame = gs.frame := by
  intro l
  induction l with
  | nil => intro gs; rfl
  | cons a l ih =>
    intro gs
    rw [List.foldl_cons, ih]
    simp only [applyOneInput]

theorem advance_frame_frame (T : Trig) (gs : GameState)
    (inputs : List PlayerInput) (r : Rng) :
    (advance_frame T gs inputs r).1.frame = gs.frame + 1 :=
  inputFold_frame T inputs
    (List.range (min inputs.length gs.players.length))
    { gs with frame := gs.frame + 1 }

/-- C2: per-frame phase ordering, amended.  The `AdvanceFrame` arm performs
exactly, and in this order: the frame increment, per-player input
application (rotation, movement, primary then secondary attack, door
opening then closing), attack updates with removal, player cooldown/regen
stepping, trap triggering, tile-effect application, tile-effect timer
ticking, and the monster update — and then stops: there is no step (8);
the floor-exit overlap check and `Map::descend` are never invoked, so the
current-floor cursor is unchanged by every frame, even when a player
overlaps the exit. -/
theorem C2_phase_order (T : Trig) (gs : GameState) (inputs : List PlayerInput)
    (r : Rng) :
    advance_frame T gs inputs r =
      (let gs1 := applyInputsPhase T { gs with frame := gs.frame + 1 } inputs
       let ua := update_attacks T gs1.players gs1.map.current_floor gs1.attacks r
       let gs2 :=
         { gs1 with
           players := ua.1
           attacks := ua.2.2.1
           map := gs1.map.setCurrentFloor ua.2.1 }
       let gs3 := { gs2 with players := update_cooldowns gs2.players }
       let tt := trigger_traps gs3.players gs3.map.current_floor ua.2.2.2
       let gs4 :=
         { gs3 with players := tt.1, map := gs3.map.setCurrentFloor tt.2.1 }
       let se := set_effects gs4.players gs4.map.current_floor
       let gs5 :=
         { gs4 with players := se.1, map := gs4.map.setCurrentFloor se.2 }
       let gs6 :=
         { gs5 with
           map := gs5.map.setCurrentFloor
             { gs5.map.current_floor with
               floor := update_effects gs5.map.current_floor.floor } }
       let um := update_monsters T gs6.players gs6.map.current_floor gs6.attacks
         tt.2.2
       ({ gs6 with
           players := um.1
           attacks := um.2.2.1
           map := gs6.map.setCurrentFloor um.2.1 },
         um.2.2.2)) ∧
    (advance_frame T gs inputs r).1.frame = gs.frame + 1 ∧
    (advance_frame T gs inputs r).1.map.current_floor_index =
      gs.map.current_floor_index :=
  ⟨rfl, advance_frame_frame T gs inputs r, advance_frame_cfi T gs inputs r⟩

/-- A two-floor map whose first floor is empty except for its exit tile at
tile (0, 0); the lone player stands at (20, 20), straddling the exit
tile's boundary. -/
def c2Fi0 : FloorInfo :=
  { spawn := ⟨75, 75⟩
    monster_types := []
    item_types := []
    monsters := []
    floor := ⟨[]⟩
    rooms := []
    exit := Object.default }

def c2Gs : GameState :=
  { frame := 0
    players := [Player.new .Warrior ⟨20, 20⟩]
    attacks := []
    map := { current_floor_index := 0, rooms := [c2Fi0, FloorInfo.default] } }

/-- C2, counterexample to step (8): after one `advance_frame` from `c2Gs`
(no inputs, empty RNG stream) a player overlaps the current floor's exit —
`should_descend` holds of the resulting state — yet the map's
current-floor cursor still reads 0 and the player was not moved to the
next floor's spawn: the frame step never checks the exit or descends. -/
theorem C2_counterexample :
    FloorInfo.should_descend trigZero
      ((advance_frame trigZero c2Gs [] ⟨[]⟩).1.map.current_floor)
      ((advance_frame trigZero c2Gs [] ⟨[]⟩).1.players) = true ∧
    (advance_frame trigZero c2Gs [] ⟨[]⟩).1.map.current_floor_index = 0 ∧
    ((advance_frame trigZero c2Gs [] ⟨[]⟩).1.players).map Player.pos =
      [⟨20, 20⟩] := by
  refine ⟨?_, ?_, ?_⟩
  · with_unfolding_all rfl
  · with_unfolding_all rfl
  · with_unfolding_all rfl

/-! ## C1 — frame-step determinism (`handle_requests` + `trigger_traps`) -/

/-- One floor whose single tile (0, 0) holds an untriggered teleport trap,
with one room for the teleport destination roll; the lone player stands on
that tile. -/
def c1Fi : FloorInfo :=
  { spawn := ⟨75, 75⟩
    monster_types := []
    item_types := []
    monsters := []
    floor := ⟨[{ Object.default with
      trap := some { triggered := false, trap_type := .Teleport } }]⟩
    rooms := [{ top_left := ⟨0, 0⟩, bottom_right := ⟨10, 10⟩, doors := [] }]
    exit := { Object.default with pos := ⟨40, 40⟩ } }

def c1Gs : GameState :=
  { frame := 0
    players := [Player.new .Warrior ⟨2, 2⟩]
    attacks := []
    map := { current_floor_index := 0, rooms := [c1Fi] } }

/-- C1: the frame step is not a function of the snapshot and the inputs —
it also reads the ambient PRNG, which the `GameState` does not carry.
From the same state `c1Gs` and the same (empty) input batch, two runs of
`advance_frame` whose ambient PRNG streams differ land the teleported
player on different tiles: the all-zero stream sends the player to
(30, 30), the stream 3, 3, 3 to (120, 120).  Since a save→load→advance
round trip restores only the `GameState` and not the global PRNG state,
the advance is not reproducible. -/
theorem C1_determinism_bug :
    ((advance_frame trigZero c1Gs [] ⟨[]⟩).1.players.map Player.pos =
        [⟨30, 30⟩] ∧
      (advance_frame trigZero c1Gs [] ⟨[3, 3, 3]⟩).1.players.map Player.pos =
        [⟨120, 120⟩]) ∧
    (advance_frame trigZero c1Gs [] ⟨[]⟩).1 ≠
      (advance_frame trigZero c1Gs [] ⟨[3, 3, 3]⟩).1 := by
  refine ⟨⟨?_, ?_⟩, ?_⟩
  · with_unfolding_all rfl
  · with_unfolding_all rfl
  · intro h
    have h30 : (advance_frame trigZero c1Gs [] ⟨[]⟩).1.players.map Player.pos =
        [(⟨30, 30⟩ : Vec2)] := by with_unfolding_all rfl
    have h120 : (advance_frame trigZero c1Gs [] ⟨[3, 3, 3]⟩).1.players.map
        Player.pos = [(⟨120, 120⟩ : Vec2)] := by with_unfolding_all rfl
    rw [h, h120] at h30
    norm_num [Vec2.mk.injEq] at h30

/-! ## C3 — the floor tile-array invariant (`FloorInfo::new`) -/

/-- The last generated object written into flat slot `i` (later writes win,
so the reversed list is searched front to back). -/
def lastWrite (writes : List Object) (i : Nat) : Option Object :=
  writes.reverse.find? fun o => decide (tileIndex o.pos = (i : Int))

theorem writeObjects_length (writes : List Object) :
    ∀ (init : List (Option Object)),
      (writeObjects writes init).length = init.length := by
  induction writes with
  | nil => intro init; rfl
  | cons w ws ih =>
    intro init
    simp only [writeObjects, List.foldl_cons] at ih ⊢
    rw [ih]
    split
    · rfl
    · exact List.length_set ..

theorem lastWrite_cons (w : Object) (ws : List Object) (i : Nat) :
    lastWrite (w :: ws) i =
      (lastWrite ws i).or
        (if tileIndex w.pos = (i : Int) then some w else none) := by
  simp only [lastWrite, List.reverse_cons, List.find?_append]
  congr 1
  simp only [List.find?]
  split
  · simp_all
  · simp_all

theorem writeObjects_getElem (i : Nat) :
    ∀ (writes : List Object) (init : List (Option Object)),
      i < init.length →
      (writeObjects writes init)[i]? =
        match lastWrite writes i with
        | some o => some (some o)
        | none => init[i]? := by
  intro writes
  induction writes with
  | nil => intro init h; rfl
  | cons w ws ih =>
    intro init h
    have hstep :
        writeObjects (w :: ws) init =
          writeObjects ws
            (if tileIndex w.pos < 0 then init
              else init.set (tileIndex w.pos).toNat (some w)) := rfl
    have hlen :
        (if tileIndex w.pos < 0 then init
          else init.set (tileIndex w.pos).toNat (some w)).length =
          init.length := by
      split
      · rfl
      · exact List.length_set ..
    rw [hstep, lastWrite_cons, ih _ (by rw [hlen]; exact h)]
    cases hws : lastWrite ws i with
    | some o => rfl
    | none =>
      simp only [Option.none_or]
      by_cases hw : tileIndex w.pos = (i : Int)
      · have hne : ¬tileIndex w.pos < 0 := by
          rw [hw]; exact not_lt.mpr (Int.natCast_nonneg i)
        have htn : (tileIndex w.pos).toNat = i := by omega
        rw [if_pos hw, if_neg hne, htn]
        simp [List.getElem?_set, h]
      · rw [if_neg hw]
        split
        · rfl
        · have hne2 : (tileIndex w.pos).toNat ≠ i := by omega
          exact List.getElem?_set_ne hne2

theorem assembleObjects_length (b c : List Object) :
    (assembleObjects b c).length = c.length + b.length := by
  simp only [assembleObjects, List.length_map, List.enum_length]
  rw [writeObjects_length, List.length_replicate]

theorem assembleObjects_getElem (b c : List Object) (i : Nat)
    (h : i < c.length + b.length) :
    (assembleObjects b c)[i]? =
      some (match lastWrite (b ++ c) i with
        | some o => o
        | none => fallbackObject i) := by
  simp only [assembleObjects]
  rw [List.getElem?_map, List.getElem?_enum,
    writeObjects_getElem i (b ++ c) _ (by simpa using h)]
  cases lastWrite (b ++ c) i with
  | some o => rfl
  | none =>
    rw [List.getElem?_replicate]
    simp [h]

theorem mem_intRange {a lo hi : Int} : a ∈ intRange lo hi ↔ lo ≤ a ∧ a < hi := by
  simp only [intRange, List.mem_map, List.mem_range]
  constructor
  · rintro ⟨j, hj, rfl⟩
    omega
  · intro ⟨h1, h2⟩
    exact ⟨(a - lo).toNat, by omega, by omega⟩

theorem mem_intRangeIncl {a lo hi : Int} :
    a ∈ intRangeIncl lo hi ↔ lo ≤ a ∧ a ≤ hi := by
  simp only [intRangeIncl, List.mem_map, List.mem_range]
  constructor
  · rintro ⟨j, hj, rfl⟩
    omega
  · intro ⟨h1, h2⟩
    exact ⟨(a - lo).toNat, by omega, by omega⟩

theorem pos_wall_object (p : IVec2) : (wall_object p).pos = p := rfl

theorem mem_border_walls {o : Object} (h : o ∈ border_walls) :
    ∃ p : IVec2, o = wall_object p ∧
      ((0 ≤ p.x ∧ p.x < 50 ∧ (p.y = 0 ∨ p.y = 50)) ∨
        ((p.x = 0 ∨ p.x = 50) ∧ 0 ≤ p.y ∧ p.y ≤ 50)) := by
  simp only [border_walls, List.mem_flatMap, List.mem_append, List.mem_cons,
    List.mem_singleton, List.not_mem_nil, or_false, mem_intRange] at h
  obtain ⟨x, hx, hcase⟩ := h
  rcases hcase with (rfl | rfl) | hy
  · exact ⟨⟨x, 0⟩, rfl, Or.inl ⟨hx.1, hx.2, Or.inl rfl⟩⟩
  · exact ⟨⟨x, 50⟩, rfl, Or.inl ⟨hx.1, hx.2, Or.inr rfl⟩⟩
  · simp only [List.mem_flatMap, List.mem_cons, List.mem_singleton,
      List.not_mem_nil, or_false, mem_intRangeIncl] at hy
    obtain ⟨y, hy2, hc⟩ := hy
    rcases hc with rfl | rfl
    · exact ⟨⟨0, y⟩, rfl, Or.inr ⟨Or.inl rfl, hy2.1, hy2.2⟩⟩
    · exact ⟨⟨50, y⟩, rfl, Or.inr ⟨Or.inr rfl, hy2.1, hy2.2⟩⟩

theorem mem_dungeon_walls {rooms : List Room} {hallways : List IVec2}
    {o : Object} :
    o ∈ dungeon_walls rooms hallways ↔
      ∃ x y : Int, 0 ≤ x ∧ x < 50 ∧ 0 ≤ y ∧ y < 50 ∧
        ¬(rooms.any (fun ro => ro.inside_room ⟨x, y⟩) ||
            hallways.contains ⟨x, y⟩) = true ∧
        o = wall_object ⟨x, y⟩ := by
  simp only [dungeon_walls, List.mem_flatMap, List.mem_filterMap, mem_intRange]
  constructor
  · rintro ⟨x, hx, y, hy, hfy⟩
    by_cases hc : (rooms.any (fun ro => ro.inside_room ⟨x, y⟩) ||
        hallways.contains ⟨x, y⟩) = true
    · rw [if_pos hc] at hfy
      exact absurd hfy (by simp)
    · rw [if_neg hc] at hfy
      exact ⟨x, y, hx.1, hx.2, hy.1, hy.2, hc, (Option.some.injEq ..).mp hfy
          |>.symm⟩
  · rintro ⟨x, y, h1, h2, h3, h4, h5, rfl⟩
    exact ⟨x, ⟨h1, h2⟩, y, ⟨h3, h4⟩, by rw [if_neg h5]⟩

theorem mem_generate_walls_box {r : Room} {p : IVec2}
    (hb : 0 ≤ r.top_left.x ∧ 0 ≤ r.top_left.y ∧
      r.top_left.x ≤ r.bottom_right.x ∧ r.top_left.y ≤ r.bottom_right.y ∧
      r.bottom_right.x ≤ 50 ∧ r.bottom_right.y ≤ 50)
    (h : p ∈ r.generate_walls) :
    0 ≤ p.x ∧ p.x ≤ 50 ∧ 0 ≤ p.y ∧ p.y ≤ 50 := by
  simp only [Room.generate_walls, List.mem_append, List.mem_flatMap,
    List.mem_cons, List.mem_singleton, List.not_mem_nil, or_false,
    mem_intRange, mem_intRangeIncl] at h
  obtain ⟨h1, h2, h3, h4, h5, h6⟩ := hb
  rcases h with ⟨x, hx, rfl | rfl⟩ | ⟨y, hy, rfl | rfl⟩ <;>
    simp only [] <;> omega

theorem mem_generate_wall_objects_box {r : Room} {o : Object}
    (hb : 0 ≤ r.top_left.x ∧ 0 ≤ r.top_left.y ∧
      r.top_left.x ≤ r.bottom_right.x ∧ r.top_left.y ≤ r.bottom_right.y ∧
      r.bottom_right.x ≤ 50 ∧ r.bottom_right.y ≤ 50)
    (h : o ∈ r.generate_wall_objects) :
    0 ≤ o.pos.x ∧ o.pos.x ≤ 50 ∧ 0 ≤ o.pos.y ∧ o.pos.y ≤ 50 := by
  simp only [Room.generate_wall_objects, List.mem_map] at h
  obtain ⟨w, hw, rfl⟩ := h
  exact mem_generate_walls_box hb hw

theorem mem_mapRng {α β : Type} (f : α → Rng → β × Rng) :
    ∀ (l : List α) (r : Rng) (b : β), b ∈ (mapRng f l r).1 →
      ∃ a ∈ l, ∃ r', b = (f a r').1 := by
  intro l
  induction l with
  | nil => intro r b h; exact absurd h (List.not_mem_nil b)
  | cons a rest ih =>
    intro r b h
    simp only [mapRng, List.mem_cons] at h
    rcases h with rfl | h
    · exact ⟨a, List.mem_cons_self a rest, r, rfl⟩
    · obtain ⟨a2, ha2, r', hb⟩ := ih _ b h
      exact ⟨a2, List.mem_cons_of_mem a ha2, r', hb⟩

theorem pos_floor_tile_object (x y : Int) (r : Rng) :
    ((floor_tile_object x y r).1).pos = ⟨x, y⟩ := rfl

theorem mem_generate_floor_grid {r : Room} {o : Object} {rng : Rng}
    (hb : 0 ≤ r.top_left.x ∧ 0 ≤ r.top_left.y ∧
      r.top_left.x ≤ r.bottom_right.x ∧ r.top_left.y ≤ r.bottom_right.y ∧
      r.bottom_right.x ≤ 50 ∧ r.bottom_right.y ≤ 50)
    (h : o ∈ (r.generate_floor rng).1) :
    0 ≤ o.pos.x ∧ o.pos.x < 50 ∧ 0 ≤ o.pos.y ∧ o.pos.y < 50 := by
  obtain ⟨xy, hxy, r', rfl⟩ := mem_mapRng _ _ _ _ h
  simp only [List.mem_flatMap, List.mem_map, mem_intRange] at hxy
  obtain ⟨x, hx, y, hy, rfl⟩ := hxy
  rw [pos_floor_tile_object]
  obtain ⟨h1, h2, h3, h4, h5, h6⟩ := hb
  dsimp only
  omega

/-- The room-bounds side condition for coherence: exactly the envelope
`FloorInfo::new` enforces when it places a room — the top-left corner is
drawn from `[0, 50)` and the candidate is discarded unless the bottom-right
corner stays within `(50, 50)` componentwise. -/
def roomsInBounds (rooms : List Room) : Prop :=
  ∀ room ∈ rooms,
    0 ≤ room.top_left.x ∧ 0 ≤ room.top_left.y ∧
      room.top_left.x ≤ room.bottom_right.x ∧
      room.top_left.y ≤ room.bottom_right.y ∧
      room.bottom_right.x ≤ 50 ∧ room.bottom_right.y ≤ 50

/-- The hallway side condition: hallway tiles avoid the border columns and
rows.  The generator satisfies it: hallway runs connect room centers, which
lie in `[4, 46]` componentwise (rooms are at least 8 tiles wide inside
`[0, 50]`), are nudged by at most ±2 off another room's wall, and the
vertical leg extends exactly one tile below the lower center. -/
def hallwaysInBounds (hallways : List IVec2) : Prop :=
  ∀ h ∈ hallways, 1 ≤ h.x ∧ h.x ≤ 49 ∧ 1 ≤ h.y ∧ h.y ≤ 49

theorem background_objects_eq (rooms : List Room) (hallways : List IVec2)
    (r : Rng) :
    (background_objects rooms hallways r).1 =
      hallways.map hallway_floor_object ++
        (mapRng (fun room r => room.generate_floor r) rooms r).1.flatten := rfl

theorem mem_background_grid {rooms : List Room} {hallways : List IVec2}
    {r : Rng} {o : Object} (HR : roomsInBounds rooms)
    (HH : hallwaysInBounds hallways)
    (h : o ∈ (background_objects rooms hallways r).1) :
    0 ≤ o.pos.x ∧ o.pos.x < 50 ∧ 0 ≤ o.pos.y ∧ o.pos.y < 50 := by
  rw [background_objects_eq] at h
  rcases List.mem_append.mp h with h | h
  · obtain ⟨hw, hhw, rfl⟩ := List.mem_map.mp h
    obtain ⟨h1, h2, h3, h4⟩ := HH hw hhw
    have hp : (hallway_floor_object hw).pos = hw := rfl
    rw [hp]
    exact ⟨by omega, by omega, by omega, by omega⟩
  · obtain ⟨lst, hlst, ho⟩ := List.mem_flatten.mp h
    obtain ⟨room, hroom, r', rfl⟩ := mem_mapRng _ _ _ _ hlst
    exact mem_generate_floor_grid (HR room hroom) ho

theorem ingrid_coherent {o : Object} {i : Nat} (hi : i < 2500)
    (hg : 0 ≤ o.pos.x ∧ o.pos.x < 50 ∧ 0 ≤ o.pos.y ∧ o.pos.y < 50)
    (ht : tileIndex o.pos = (i : Int)) :
    o.pos = ⟨((i % 50 : Nat) : Int), ((i / 50 : Nat) : Int)⟩ := by
  unfold tileIndex at ht
  cases hp : o.pos with
  | mk px py =>
    rw [hp] at ht hg
    simp only at ht hg
    simp only [IVec2.mk.injEq]
    constructor <;> omega

theorem lastWrite_quad (bg bd rw dg : List Object) (i : Nat) :
    lastWrite (bg ++ (bd ++ rw ++ dg)) i =
      ((lastWrite dg i).or ((lastWrite rw i).or ((lastWrite bd i).or
        (lastWrite bg i)))) := by
  simp [lastWrite, List.reverse_append, List.find?_append, Option.or_assoc]

theorem lastWrite_mem_prop {ws : List Object} {i : Nat} {o : Object}
    (h : lastWrite ws i = some o) :
    o ∈ ws ∧ tileIndex o.pos = (i : Int) := by
  unfold lastWrite at h
  have h2 := List.find?_some h
  simp only [decide_eq_true_eq] at h2
  exact ⟨List.mem_reverse.mp (List.mem_of_find?_eq_some h), h2⟩

theorem generated_coherent (rooms : List Room) (hallways : List IVec2)
    (r : Rng) (HR : roomsInBounds rooms) (HH : hallwaysInBounds hallways)
    (i : Nat) (hi : i < 2500) :
    (match lastWrite ((background_objects rooms hallways r).1 ++
        collidable_objects rooms hallways) i with
      | some o => o
      | none => fallbackObject i).pos =
      ⟨((i % 50 : Nat) : Int), ((i / 50 : Nat) : Int)⟩ := by
  have hW : collidable_objects rooms hallways =
      border_walls ++ rooms.flatMap Room.generate_wall_objects ++
        dungeon_walls rooms hallways := rfl
  rw [hW, lastWrite_quad]
  by_cases hcol : i % 50 = 0
  · -- column-0 slot: the dungeon-wall pass rewrites it last, coherently
    have hyb : (i / 50 : Nat) < 50 := by omega
    have hnoroom :
        rooms.any (fun ro => ro.inside_room ⟨0, ((i / 50 : Nat) : Int)⟩) =
          false := by
      rw [List.any_eq_false]
      intro room hroom
      obtain ⟨h1, h2, h3, h4, h5, h6⟩ := HR room hroom
      simp only [Room.inside_room]
      simp only [Bool.and_eq_true, decide_eq_true_eq, not_and]
      omega
    have hnohall :
        hallways.contains (⟨0, ((i / 50 : Nat) : Int)⟩ : IVec2) = false := by
      by_contra hc
      rw [Bool.not_eq_false] at hc
      have hmem : (⟨0, ((i / 50 : Nat) : Int)⟩ : IVec2) ∈ hallways := by
        simpa using hc
      obtain ⟨h1, h2, h3, h4⟩ := HH _ hmem
      simp only at h1
      omega
    have htile :
        tileIndex (⟨0, ((i / 50 : Nat) : Int)⟩ : IVec2) = (i : Int) := by
      unfold tileIndex
      dsimp only
      omega
    have hdmem : wall_object ⟨0, ((i / 50 : Nat) : Int)⟩ ∈
        dungeon_walls rooms hallways := by
      refine mem_dungeon_walls.mpr
        ⟨0, ((i / 50 : Nat) : Int), le_refl 0, by omega, by omega, by omega,
          ?_, rfl⟩
      rw [hnoroom, hnohall]
      simp
    have hsome : ((dungeon_walls rooms hallways).reverse.find? fun o =>
        decide (tileIndex o.pos = (i : Int))).isSome := by
      rw [List.find?_isSome]
      exact ⟨wall_object ⟨0, ((i / 50 : Nat) : Int)⟩,
        List.mem_reverse.mpr hdmem,
        decide_eq_true (by rw [pos_wall_object]; exact htile)⟩
    obtain ⟨o, ho⟩ := Option.isSome_iff_exists.mp hsome
    have hlw : lastWrite (dungeon_walls rooms hallways) i = some o := ho
    rw [hlw]
    obtain ⟨homem, hotile⟩ := lastWrite_mem_prop hlw
    obtain ⟨x, y, hx0, hx50, hy0, hy50, _, rfl⟩ := mem_dungeon_walls.mp homem
    exact ingrid_coherent hi ⟨hx0, hx50, hy0, hy50⟩ hotile
  · -- other slots: every possible last writer carries its own coordinates
    cases hdg : lastWrite (dungeon_walls rooms hallways) i with
    | some o =>
      obtain ⟨homem, hotile⟩ := lastWrite_mem_prop hdg
      obtain ⟨x, y, hx0, hx50, hy0, hy50, _, rfl⟩ := mem_dungeon_walls.mp homem
      exact ingrid_coherent hi ⟨hx0, hx50, hy0, hy50⟩ hotile
    | none =>
      cases hrw : lastWrite (rooms.flatMap Room.generate_wall_objects) i with
      | some o =>
        obtain ⟨homem, hotile⟩ := lastWrite_mem_prop hrw
        obtain ⟨room, hroom, ho⟩ := List.mem_flatMap.mp homem
        obtain ⟨hx0, hx50, hy0, hy50⟩ :=
          mem_generate_wall_objects_box (HR room hroom) ho
        have hotile2 : o.pos.x + o.pos.y * 50 = (i : Int) := hotile
        by_cases hxx : o.pos.x = 50
        · exact absurd hotile2 (by omega)
        · by_cases hyy : o.pos.y = 50
          · exact absurd hotile2 (by omega)
          · show o.pos = _
            exact ingrid_coherent hi
              ⟨hx0, by omega, hy0, by omega⟩ hotile
      | none =>
        cases hbd : lastWrite border_walls i with
        | some o =>
          obtain ⟨homem, hotile⟩ := lastWrite_mem_prop hbd
          obtain ⟨p, rfl, hshape⟩ := mem_border_walls homem
          have hotile2 : p.x + p.y * 50 = (i : Int) := hotile
          rcases hshape with ⟨hx0, hx50, hy | hy⟩ | ⟨hx, hy0, hy50⟩
          · exact ingrid_coherent hi
              ⟨hx0, hx50, (by omega : (0 : Int) ≤ p.y),
                (by omega : p.y < 50)⟩ hotile
          · exact absurd hotile2 (by omega)
          · exfalso
            rcases hx with hx | hx <;> omega
        | none =>
          cases hbg : lastWrite (background_objects rooms hallways r).1 i with
          | some o =>
            obtain ⟨homem, hotile⟩ := lastWrite_mem_prop hbg
            exact ingrid_coherent hi (mem_background_grid HR HH homem) hotile
          | none =>
            rfl

theorem length_flatMap_const {α β : Type} (f : α → List β) (c : Nat)
    (hf : ∀ a, (f a).length = c) :
    ∀ l : List α, (l.flatMap f).length = l.length * c := by
  intro l
  induction l with
  | nil => simp
  | cons a rest ih =>
    simp only [List.flatMap_cons, List.length_append, hf, ih, List.length_cons]
    ring

theorem intRange_length (lo hi : Int) :
    (intRange lo hi).length = (hi - lo).toNat := by
  simp [intRange]

theorem intRangeIncl_length (lo hi : Int) :
    (intRangeIncl lo hi).length = (hi + 1 - lo).toNat := by
  simp [intRangeIncl]

theorem length_filterMap_some {α β : Type} (g : α → β) (f : α → Option β)
    (hf : ∀ a, f a = some (g a)) :
    ∀ l : List α, (l.filterMap f).length = l.length := by
  intro l
  induction l with
  | nil => rfl
  | cons a rest ih =>
    rw [List.filterMap_cons, hf]
    simp [ih]

theorem border_walls_length : border_walls.length = 5200 := by
  rw [border_walls, length_flatMap_const _ 104]
  · rw [intRange_length]
    decide
  · intro x
    rw [List.length_append,
      length_flatMap_const
        (fun y => [wall_object ⟨0, y⟩, wall_object ⟨50, y⟩]) 2 (fun y => rfl),
      intRangeIncl_length]
    rfl

/-- C3 (amended): for every generated floor, the objects array has length
`collidable + background` — the source allocates one slot per generated
object, and with the border pass alone emitting 5200 objects the array is
strictly longer than the claimed 50 × 50 = 2500 — and, for every in-range
tile position (x, y), the object stored at flat index x + y·50 has
`tile_pos` (x, y), so `get_object_from_pos` returns the object whose tile
position is the queried one.  The side conditions are the generator's own
envelopes: rooms have `0 ≤ top_left ≤ bottom_right ≤ 50` componentwise
(`FloorInfo::new` draws the top-left corner from `[0, 50)` and discards any
candidate whose bottom-right corner exceeds `(50, 50)`), and hallway tiles
stay in `[1, 49]²` (hallway runs connect room centers, which lie in
`[4, 46]` and are nudged by at most ±2, the vertical leg reaching one tile
further up). -/
theorem C3_floor_array_invariant (rooms : List Room) (hallways : List IVec2)
    (r : Rng) (HR : roomsInBounds rooms) (HH : hallwaysInBounds hallways) :
    ((generated_floor_objects rooms hallways r).1.length =
        (collidable_objects rooms hallways).length +
          (background_objects rooms hallways r).1.length ∧
      2500 < (generated_floor_objects rooms hallways r).1.length) ∧
    ∀ x y : Int, 0 ≤ x → x < 50 → 0 ≤ y → y < 50 →
      ((⟨(generated_floor_objects rooms hallways r).1⟩ :
        Floor).get_object_from_pos ⟨x, y⟩).map Object.pos = some ⟨x, y⟩ := by
  have hgen : (generated_floor_objects rooms hallways r).1 =
      assembleObjects (background_objects rooms hallways r).1
        (collidable_objects rooms hallways) := rfl
  have hlen := assembleObjects_length (background_objects rooms hallways r).1
    (collidable_objects rooms hallways)
  have hcb : 5200 ≤ (collidable_objects rooms hallways).length := by
    have hc : collidable_objects rooms hallways =
        border_walls ++ rooms.flatMap Room.generate_wall_objects ++
          dungeon_walls rooms hallways := rfl
    rw [hc]
    simp only [List.length_append]
    have hb := border_walls_length
    omega
  refine ⟨⟨by rw [hgen]; exact hlen, by rw [hgen, hlen]; omega⟩, ?_⟩
  intro x y hx0 hx50 hy0 hy50
  have hti : tileIndex (⟨x, y⟩ : IVec2) = x + y * 50 := rfl
  have hnn : ¬tileIndex (⟨x, y⟩ : IVec2) < 0 := by rw [hti]; omega
  have hi2500 : (tileIndex (⟨x, y⟩ : IVec2)).toNat < 2500 := by
    rw [hti]; omega
  rw [Floor.get_object_from_pos, if_neg hnn]
  rw [List.get?_eq_getElem?]
  rw [hgen, assembleObjects_getElem _ _ _ (by omega)]
  rw [Option.map_some']
  rw [generated_coherent rooms hallways r HR HH _ hi2500]
  simp only [Option.some.injEq, IVec2.mk.injEq]
  rw [hti]
  constructor <;> omega

/-- C3, counterexample to "length exactly 2500": even the degenerate
generation run with no retained rooms and no hallway tiles emits
5200 border-wall objects and 2500 dungeon-wall objects, so the array it
allocates and fills has 7700 slots, not 2500. -/
theorem dungeon_walls_empty_length : (dungeon_walls [] []).length = 2500 := by
  rw [dungeon_walls, length_flatMap_const _ 50]
  · rw [intRange_length]
    decide
  · intro x
    have hlen := length_filterMap_some
      (fun (y : Int) => wall_object ⟨x, y⟩)
      (fun (y : Int) =>
        let pos : IVec2 := ⟨x, y⟩
        if ([] : List Room).any (fun ro => ro.inside_room pos) ||
            ([] : List IVec2).contains pos then none
        else some (wall_object pos))
      (fun y => rfl) (intRange 0 50)
    rw [hlen, intRange_length]
    decide

theorem generated_floor_objects_fst (rooms : List Room)
    (hallways : List IVec2) (r : Rng) :
    (generated_floor_objects rooms hallways r).1 =
      assembleObjects (background_objects rooms hallways r).1
        (collidable_objects rooms hallways) := rfl

/-- C3, counterexample to "length exactly 2500": even the degenerate
generation run with no retained rooms and no hallway tiles emits
5200 border-wall objects and 2500 dungeon-wall objects, so the array it
allocates and fills has 7700 slots, not 2500. -/
theorem C3_counterexample :
    (generated_floor_objects [] [] ⟨[]⟩).1.length = 7700 ∧
      (7700 : Nat) ≠ 2500 := by
  constructor
  · rw [generated_floor_objects_fst, assembleObjects_length]
    have hc : collidable_objects [] [] =
        border_walls ++ ([] : List Room).flatMap Room.generate_wall_objects ++
          dungeon_walls [] [] := rfl
    have hbg : (background_objects [] [] ⟨[]⟩).1 = [] := rfl
    rw [hc, hbg]
    simp only [List.length_append, List.flatMap_nil, List.length_nil,
      border_walls_length, dungeon_walls_empty_length]
  · decide

theorem C3_floor_array_invariant_witness :
    roomsInBounds [] ∧ hallwaysInBounds [] ∧
    (((generated_floor_objects [] [] ⟨[]⟩).1.length =
        (collidable_objects [] []).length +
          (background_objects [] [] ⟨[]⟩).1.length ∧
      2500 < (generated_floor_objects [] [] ⟨[]⟩).1.length) ∧
    ∀ x y : Int, 0 ≤ x → x < 50 → 0 ≤ y → y < 50 →
      ((⟨(generated_floor_objects [] [] ⟨[]⟩).1⟩ :
        Floor).get_object_from_pos ⟨x, y⟩).map Object.pos = some ⟨x, y⟩) :=
  ⟨fun room h => absurd h (List.not_mem_nil room),
    fun hw h => absurd h (List.not_mem_nil hw),
    C3_floor_array_invariant [] [] ⟨[]⟩
      (fun room h => absurd h (List.not_mem_nil room))
      (fun hw h => absurd h (List.not_mem_nil hw))⟩

/-! ## C8 — visibility ray marking (`Floor::set_visible_objects`) -/

/-- The flag write of the marking pass. -/
def markObj (o : Object) : Object :=
  { o with has_been_seen := true, is_currently_visible := true }

theorem markSeen_eq_modify :
    ∀ (l : List Object) (i : Nat), markSeen l i = List.modify markObj i l := by
  intro l
  induction l with
  | nil => intro i; cases i <;> rfl
  | cons o rest ih =>
    intro i
    cases i with
    | zero => rfl
    | succ n =>
      show o :: markSeen rest n = List.modify markObj (n + 1) (o :: rest)
      rw [ih n]
      rfl

theorem markSeen_getElem (l : List Object) (i j : Nat) :
    (markSeen l i)[j]? = if i = j then l[j]?.map markObj else l[j]? := by
  rw [markSeen_eq_modify, List.getElem?_modify]
  by_cases h : i = j <;> cases l[j]? <;> simp [h]

theorem markObj_idem (o : Object) : markObj (markObj o) = markObj o := rfl

theorem foldl_markSeen_getElem (S : List Nat) :
    ∀ (l : List Object) (j : Nat),
      (S.foldl markSeen l)[j]? =
        if S.contains j then l[j]?.map markObj else l[j]? := by
  induction S with
  | nil => intro l j; simp
  | cons s S' ih =>
    intro l j
    rw [List.foldl_cons, ih, markSeen_getElem]
    by_cases hs : s = j
    · subst hs
      have hc : (s :: S').contains s = true := by simp
      rw [hc, if_pos rfl]
      split
      · rw [Option.map_map]
        congr 1
      · rfl
    · have hc : (s :: S').contains j = S'.contains j := by
        simp [List.contains_cons, hs]
        intro h
        exact absurd h.symm hs
      rw [hc, if_neg hs]

theorem foldl_markSeen_length (S : List Nat) :
    ∀ l : List Object, (S.foldl markSeen l).length = l.length := by
  induction S with
  | nil => intro l; rfl
  | cons s S' ih =>
    intro l
    rw [List.foldl_cons, ih, markSeen_eq_modify, List.length_modify]

theorem set_visible_objects_eq (center : Vec2) (size : Option Int)
    (objects : List Object) :
    set_visible_objects center size objects =
      ((fov_rays (pos_to_tile center) (size.getD 12)).flatMap fun ray =>
        collect_ray objects ray).foldl markSeen objects := rfl

/-- C8 (amended): a field-of-view query leaves the array length unchanged
and writes exactly the flat indices its rays collect: each ray is walked
tile by tile and contributes the index of every visited position up to and
including the first collidable tile (positions whose flat index falls
outside the array are skipped), and the object at every collected index
gets `has_been_seen` and `is_currently_visible` set `true` with all other
fields kept; every other index is left entirely unchanged, and a flag that
is already `true` is never reset.  The correction: the collected index of a
visited position is `x + y·50` bounds-checked only against the array
length, so a ray position with x = 50 aliases to the column-0 tile of the
next row, and that tile — on no ray — is marked anyway. -/
theorem C8_visibility_marking (center : Vec2) (size : Option Int)
    (objects : List Object) :
    ((set_visible_objects center size objects).length = objects.length) ∧
    (∀ j, j < objects.length →
      (set_visible_objects center size objects)[j]? =
        (if ((fov_rays (pos_to_tile center) (size.getD 12)).flatMap fun ray =>
            collect_ray objects ray).contains j then
          some (markObj (objects.getD j Object.default))
        else some (objects.getD j Object.default))) ∧
    (∀ j, j < objects.length →
      (objects.getD j Object.default).has_been_seen = true →
      ((set_visible_objects center size objects).getD j
        Object.default).has_been_seen = true) := by
  have hget : ∀ j, j < objects.length →
      objects[j]? = some (objects.getD j Object.default) := by
    intro j hj
    rw [List.getD_eq_getElem?_getD, List.getElem?_eq_getElem hj]
    rfl
  have hmain : ∀ j, j < objects.length →
      (set_visible_objects center size objects)[j]? =
        (if ((fov_rays (pos_to_tile center) (size.getD 12)).flatMap fun ray =>
            collect_ray objects ray).contains j then
          some (markObj (objects.getD j Object.default))
        else some (objects.getD j Object.default)) := by
    intro j hj
    rw [set_visible_objects_eq, foldl_markSeen_getElem, hget j hj]
    split <;> rfl
  refine ⟨?_, hmain, ?_⟩
  · rw [set_visible_objects_eq]
    exact foldl_markSeen_length _ objects
  · intro j hj hseen
    have h := hmain j hj
    rw [List.getD_eq_getElem?_getD, h]
    split
    · rfl
    · exact hseen

/-- A 120-slot coherent all-floor array: slot i holds the floor tile at
(i mod 50, i div 50). -/
def c8Objs : List Object :=
  (List.range 120).map fun i => { fallbackObject i with is_floor := true }

set_option maxRecDepth 8000 in
/-- C8, counterexample to "tiles not on any ray are left unchanged": a
field-of-view query of radius 1 from tile (49, 1) walks a ray through the
off-grid position (50, 1), whose unchecked flat index 50 + 1·50 = 100
aliases the tile (0, 2); that tile lies on no ray of the query, yet its
`has_been_seen` flag is set. -/
theorem C8_counterexample :
    ((set_visible_objects ⟨1485, 45⟩ (some 1) c8Objs).getD 100
        Object.default).has_been_seen = true ∧
    (c8Objs.getD 100 Object.default).has_been_seen = false ∧
    (c8Objs.getD 100 Object.default).pos = ⟨0, 2⟩ ∧
    (∀ ray ∈ fov_rays (pos_to_tile ⟨1485, 45⟩) 1, ∀ p ∈ ray,
      ¬p = ⟨0, 2⟩) := by
  refine ⟨?_, ?_, ?_, ?_⟩
  · with_unfolding_all rfl
  · with_unfolding_all rfl
  · with_unfolding_all rfl
  · exact of_decide_eq_true (by with_unfolding_all rfl)

set_option maxRecDepth 8000 in
theorem C8_visibility_marking_witness :
    100 < c8Objs.length ∧
    (set_visible_objects ⟨1485, 45⟩ (some 1) c8Objs)[100]? =
      (if ((fov_rays (pos_to_tile ⟨1485, 45⟩) ((some 1).getD 12)).flatMap
          fun ray => collect_ray c8Objs ray).contains 100 then
        some (markObj (c8Objs.getD 100 Object.default))
      else some (c8Objs.getD 100 Object.default)) :=
  ⟨by decide,
    (C8_visibility_marking ⟨1485, 45⟩ (some 1) c8Objs).2.1 100 (by decide)⟩

/-! ## C5 — pathfinding result shape (`inner_find_path`) -/

theorem pickMin_mem (f : ANode → Int) :
    ∀ (l : List ANode) (b : ANode) (rem : List ANode),
      pickMin f l = some (b, rem) → b ∈ l ∧ ∀ a ∈ rem, a ∈ l := by
  intro l
  induction l with
  | nil => intro b rem h; cases h
  | cons a rest ih =>
    intro b rem h
    simp only [pickMin] at h
    cases hrest : pickMin f rest with
    | none =>
      rw [hrest] at h
      cases h
      exact ⟨List.mem_cons_self a rest, fun x hx => absurd hx (List.not_mem_nil x)⟩
    | some p =>
      cases p with
      | mk b' rem' =>
        rw [hrest] at h
        dsimp only at h
        obtain ⟨hb', hrem'⟩ := ih b' rem' hrest
        by_cases hle : f a ≤ f b'
        · rw [if_pos hle] at h
          cases h
          exact ⟨List.mem_cons_self a rest,
            fun x hx => List.mem_cons_of_mem a hx⟩
        · rw [if_neg hle] at h
          cases h
          refine ⟨List.mem_cons_of_mem a hb', fun x hx => ?_⟩
          rcases List.mem_cons.mp hx with rfl | hx
          · exact List.mem_cons_self x rest
          · exact List.mem_cons_of_mem a (hrem' x hx)

theorem astar_go_reaches (nbrs : IVec2 → List IVec2) (h : IVec2 → Int)
    (goal : IVec2) (Q : IVec2 → Prop) (hQ : ∀ p q, q ∈ nbrs p → Q q) :
    ∀ (fuel : Nat) (opn : List ANode) (closed : List IVec2),
      (∀ a ∈ opn, Q a.cur) →
      ∀ path, astar_go nbrs h goal fuel opn closed = some path → Q goal := by
  intro fuel
  induction fuel with
  | zero =>
    intro opn closed hop path hres
    cases hres
  | succ n ih =>
    intro opn closed hop path hres
    simp only [astar_go] at hres
    cases hpick : pickMin (fun n => n.g + h n.cur) opn with
    | none => rw [hpick] at hres; cases hres
    | some p =>
      cases p with
      | mk best rem =>
        rw [hpick] at hres
        dsimp only at hres
        obtain ⟨hbest, hrem⟩ := pickMin_mem _ _ _ _ hpick
        by_cases hgoal : best.cur = goal
        · rw [if_pos hgoal] at hres
          exact hgoal ▸ hop best hbest
        · rw [if_neg hgoal] at hres
          by_cases hcl : closed.contains best.cur = true
          · rw [if_pos hcl] at hres
            exact ih rem closed (fun a ha => hop a (hrem a ha)) path hres
          · rw [if_neg hcl] at hres
            refine ih _ _ ?_ path hres
            intro a ha
            rcases List.mem_append.mp ha with ha | ha
            · exact hop a (hrem a ha)
            · obtain ⟨q, hq, rfl⟩ := List.mem_map.mp ha
              exact hQ best.cur q (List.mem_filter.mp hq).1
        
theorem goal_not_viable_neighbor {objects : List Object} {goalTile : IVec2}
    {obj : Object} (hobj : get_object_from_pos_list goalTile objects = some obj)
    (hcol : obj.is_collidable = true) (hdoor : obj.door = none) (p : IVec2)
    (vis : Option (List Object)) (ign : Bool) :
    goalTile ∉ find_viable_neighbors objects p vis ign := by
  intro hmem
  have h2 := (List.mem_filter.mp hmem).2
  rw [hobj] at h2
  simp [hcol, hdoor] at h2

/-- A 150-slot three-row floor: wall rows at y = 0 and y = 2, an open
corridor along y = 1. -/
def corridorObjects : List Object :=
  (List.range 150).map fun i =>
    if i / 50 = 1 then { fallbackObject i with is_floor := true }
    else fallbackObject i

/-- The corridor floor's successor function, as `inner_find_path` passes it
to the search (no visibility restriction, door collision honoured). -/
def cNbrs : IVec2 → List IVec2 :=
  fun pos => find_viable_neighbors corridorObjects pos none false

/-- The corridor search's heuristic towards the goal tile (n, 1). -/
def cH (n : Nat) : IVec2 → Int :=
  fun pos => distance_squared pos ⟨(n : Int), 1⟩

/-- The reversed corridor prefix `(m, 1), …, (1, 1)` carried by the search
node that is about to leave tile m. -/
def revTiles : Nat → List IVec2
  | 0 => []
  | m + 1 => ⟨(m : Int) + 1, 1⟩ :: revTiles m

theorem contains_true_of_mem {α : Type} [DecidableEq α] {l : List α} {a : α}
    (h : a ∈ l) : l.contains a = true := by
  simpa using h

theorem contains_false_of_not_mem {α : Type} [DecidableEq α] {l : List α}
    {a : α} (h : a ∉ l) : l.contains a = false := by
  by_contra hc
  rw [Bool.not_eq_false] at hc
  exact h (by simpa using hc)

theorem mem_revTiles (p : IVec2) : ∀ (m : Nat),
    p ∈ revTiles m ↔ ∃ k : Nat, k < m ∧ p = ⟨(k : Int) + 1, 1⟩ := by
  intro m
  induction m with
  | zero => simp [revTiles]
  | succ m ih =>
    simp only [revTiles, List.mem_cons, ih]
    constructor
    · rintro (rfl | ⟨k, hk, rfl⟩)
      · exact ⟨m, by omega, rfl⟩
      · exact ⟨k, by omega, rfl⟩
    · rintro ⟨k, hk, rfl⟩
      by_cases hkm : k = m
      · subst hkm
        exact Or.inl rfl
      · exact Or.inr ⟨k, by omega, rfl⟩

theorem corridorObjects_get (k : Nat) (hk : k < 150) :
    corridorObjects[k]? =
      some (if k / 50 = 1 then { fallbackObject k with is_floor := true }
        else fallbackObject k) := by
  simp only [corridorObjects]
  rw [List.getElem?_map, List.getElem?_range hk]
  rfl

theorem corridor_obj (x y : Int) (hx : 0 ≤ x) (hx50 : x < 50) (hy : 0 ≤ y)
    (hy3 : y < 3) :
    get_object_from_pos_list ⟨x, y⟩ corridorObjects =
      some (if y = 1 then
        { fallbackObject (x + y * 50).toNat with is_floor := true }
      else fallbackObject (x + y * 50).toNat) := by
  unfold get_object_from_pos_list
  have hti : tileIndex (⟨x, y⟩ : IVec2) = x + y * 50 := rfl
  rw [hti, if_neg (by omega : ¬x + y * 50 < 0), List.get?_eq_getElem?,
    corridorObjects_get (x + y * 50).toNat (by omega)]
  by_cases hy1 : y = 1
  · rw [if_pos (by omega : (x + y * 50).toNat / 50 = 1), if_pos hy1]
  · rw [if_neg (by omega : ¬(x + y * 50).toNat / 50 = 1), if_neg hy1]

theorem floorObj_not_collidable (k : Nat) :
    ({ fallbackObject k with is_floor := true } : Object).is_collidable =
      false := rfl

theorem wallObj_collidable (k : Nat) :
    (fallbackObject k).is_collidable = true := rfl

theorem wallObj_door (k : Nat) : (fallbackObject k).door = none := rfl

theorem wallObj_is_floor (k : Nat) : (fallbackObject k).is_floor = false := rfl

theorem pickMin_single (f : ANode → Int) (A : ANode) :
    pickMin f [A] = some (A, []) := rfl

theorem pickMin_pair (f : ANode → Int) (A B : ANode) :
    pickMin f [A, B] =
      if f A ≤ f B then some (A, [B]) else some (B, [A]) := rfl

theorem corridor_cmp (n j : Nat) (h1 : 1 ≤ j) (hjn : j + 1 ≤ n) :
    ((j : Int) + cH n ⟨(j : Int) + 1, 1⟩) < 1 + cH n ⟨0, 1⟩ := by
  have e1 : cH n ⟨0, 1⟩ = (n : Int) * (n : Int) := by
    unfold cH distance_squared
    dsimp only
    ring
  have e2 : cH n ⟨(j : Int) + 1, 1⟩ =
      ((n : Int) - ((j : Int) + 1)) * ((n : Int) - ((j : Int) + 1)) := by
    unfold cH distance_squared
    dsimp only
    ring
  rw [e1, e2]
  have hj : (1 : Int) ≤ (j : Int) := by exact_mod_cast h1
  have hn : (j : Int) + 1 ≤ (n : Int) := by exact_mod_cast hjn
  have k1 : ((j : Int) + 1) * ((j : Int) + 1) ≤
      ((j : Int) + 1) * (2 * (n : Int) - (j : Int) - 1) :=
    mul_le_mul_of_nonneg_left (by omega) (by omega)
  nlinarith [k1]

theorem gridCheck_false (a b : Int) (h1 : 0 ≤ a) (h2 : a ≤ 50) (h3 : 0 ≤ b)
    (h4 : b ≤ 50) :
    (a < 0 || b < 0 || a > 50 || b > 50) = false := by
  simp only [Bool.or_eq_false_iff, decide_eq_false_iff_not]
  omega

theorem corridor_nbrs (j : Int) (h1 : 1 ≤ j) (h48 : j ≤ 48) :
    find_viable_neighbors corridorObjects ⟨j, 1⟩ none false =
      [⟨j - 1, 1⟩, ⟨j + 1, 1⟩] := by
  have e1 : find_viable_neighbors corridorObjects ⟨j, 1⟩ none false =
      (([⟨j - 1, 1⟩, ⟨j + 1, 1⟩, ⟨j, 0⟩, ⟨j, 2⟩] : List IVec2).filter fun p =>
        if p.x < 0 || p.y < 0 || p.x > 50 || p.y > 50 then false
        else true).filter fun p =>
        match get_object_from_pos_list p corridorObjects with
        | some obj =>
          if obj.is_collidable then false && obj.door.isSome else true
        | none => true := rfl
  rw [e1]
  have ho1 : get_object_from_pos_list ⟨j - 1, 1⟩ corridorObjects =
      some { fallbackObject (j - 1 + 1 * 50).toNat with is_floor := true } := by
    have h := corridor_obj (j - 1) 1 (by omega) (by omega) (by omega)
      (by omega)
    rw [if_pos rfl] at h
    exact h
  have ho2 : get_object_from_pos_list ⟨j + 1, 1⟩ corridorObjects =
      some { fallbackObject (j + 1 + 1 * 50).toNat with is_floor := true } := by
    have h := corridor_obj (j + 1) 1 (by omega) (by omega) (by omega)
      (by omega)
    rw [if_pos rfl] at h
    exact h
  have ho3 : get_object_from_pos_list ⟨j, 0⟩ corridorObjects =
      some (fallbackObject (j + 0 * 50).toNat) := by
    have h := corridor_obj j 0 (by omega) (by omega) (by omega) (by omega)
    rw [if_neg (by norm_num)] at h
    exact h
  have ho4 : get_object_from_pos_list ⟨j, 2⟩ corridorObjects =
      some (fallbackObject (j + 2 * 50).toNat) := by
    have h := corridor_obj j 2 (by omega) (by omega) (by omega) (by omega)
    rw [if_neg (by norm_num)] at h
    exact h
  simp only [List.filter_cons, List.filter_nil,
    gridCheck_false (j - 1) 1 (by omega) (by omega) (by omega) (by omega),
    gridCheck_false (j + 1) 1 (by omega) (by omega) (by omega) (by omega),
    gridCheck_false j 0 (by omega) (by omega) (by omega) (by omega),
    gridCheck_false j 2 (by omega) (by omega) (by omega) (by omega),
    Bool.false_eq_true, if_false, if_true, ho1, ho2, ho3, ho4,
    floorObj_not_collidable, wallObj_collidable, wallObj_door,
    Object.is_collidable, wallObj_is_floor, Option.isSome_none,
    Bool.false_and]

theorem corridor_loop (n : Nat) (h2 : 2 ≤ n) (h49 : n ≤ 49) :
    ∀ (d : Nat), ∀ (j fuel : Nat), 1 ≤ j → j + d + 1 = n → d + 1 ≤ fuel →
      astar_go cNbrs (cH n) ⟨(n : Int), 1⟩ fuel
        [⟨⟨0, 1⟩, [⟨1, 1⟩], 1⟩, ⟨⟨(j : Int) + 1, 1⟩, revTiles j, (j : Int)⟩]
        (revTiles j) =
      some ((⟨(n : Int), 1⟩ :: revTiles (n - 1)).reverse) := by
  intro d
  induction d with
  | zero =>
    intro j fuel hj1 hjn hfuel
    cases fuel with
    | zero => omega
    | succ m =>
      obtain rfl : j = n - 1 := by omega
      have hcast : ((n - 1 : Nat) : Int) + 1 = (n : Int) := by omega
      simp only [astar_go]
      rw [pickMin_pair,
        if_neg (not_le.mpr (corridor_cmp n (n - 1) (by omega) (by omega)))]
      dsimp only
      rw [if_pos (show (⟨((n - 1 : Nat) : Int) + 1, 1⟩ : IVec2) =
        ⟨(n : Int), 1⟩ by rw [hcast])]
      rw [hcast]
  | succ d ih =>
    intro j fuel hj1 hjn hfuel
    cases fuel with
    | zero => omega
    | succ m =>
      simp only [astar_go]
      rw [pickMin_pair,
        if_neg (not_le.mpr (corridor_cmp n j hj1 (by omega)))]
      dsimp only
      rw [if_neg (show ¬(⟨(j : Int) + 1, 1⟩ : IVec2) = ⟨(n : Int), 1⟩ by
        simp only [IVec2.mk.injEq]
        rintro ⟨hx, -⟩
        omega)]
      rw [show (revTiles j).contains (⟨(j : Int) + 1, 1⟩ : IVec2) = false from
        contains_false_of_not_mem (by
          rw [mem_revTiles]
          rintro ⟨k, hk, hke⟩
          simp only [IVec2.mk.injEq] at hke
          omega)]
      simp only [Bool.false_eq_true, if_false]
      rw [show cNbrs ⟨(j : Int) + 1, 1⟩ =
        [⟨(j : Int) + 1 - 1, 1⟩, ⟨(j : Int) + 1 + 1, 1⟩] from
        corridor_nbrs ((j : Int) + 1) (by omega) (by omega)]
      rw [show ((j : Int) + 1 - 1) = (j : Int) by ring]
      have hcont1 :
          ((⟨(j : Int) + 1, 1⟩ :: revTiles j : List IVec2)).contains
            ⟨(j : Int), 1⟩ = true := by
        refine contains_true_of_mem (List.mem_cons_of_mem _ ?_)
        rw [mem_revTiles]
        refine ⟨j - 1, by omega, ?_⟩
        have : ((j - 1 : Nat) : Int) + 1 = (j : Int) := by omega
        rw [this]
      have hcont2 :
          ((⟨(j : Int) + 1, 1⟩ :: revTiles j : List IVec2)).contains
            ⟨(j : Int) + 1 + 1, 1⟩ = false := by
        refine contains_false_of_not_mem ?_
        intro hmem
        rcases List.mem_cons.mp hmem with he | hm
        · simp only [IVec2.mk.injEq] at he
          omega
        · rw [mem_revTiles] at hm
          obtain ⟨k, hk, hke⟩ := hm
          simp only [IVec2.mk.injEq] at hke
          omega
      simp only [List.filter_cons, List.filter_nil, hcont1, hcont2,
        Bool.not_true, Bool.not_false, Bool.false_eq_true, if_false, if_true,
        List.map_cons, List.map_nil]
      have hres := ih (j + 1) m (by omega) (by omega) (by omega)
      have hcast : ((j + 1 : Nat) : Int) = (j : Int) + 1 := by push_cast; ring
      rw [hcast] at hres
      exact hres

theorem corridor_start (n : Nat) (h2 : 2 ≤ n) (h49 : n ≤ 49) :
    astar ⟨1, 1⟩ cNbrs (cH n) ⟨(n : Int), 1⟩ =
      some ((⟨(n : Int), 1⟩ :: revTiles (n - 1)).reverse) := by
  unfold astar
  obtain ⟨m, hm, hmge⟩ : ∃ m, ASTAR_FUEL = m + 1 ∧ 19998 ≤ m :=
    ⟨19999, rfl, by omega⟩
  rw [hm]
  simp only [astar_go]
  rw [pickMin_single]
  dsimp only
  rw [if_neg (show ¬(⟨1, 1⟩ : IVec2) = ⟨(n : Int), 1⟩ by
    simp only [IVec2.mk.injEq]
    rintro ⟨hx, -⟩
    omega)]
  rw [show (([] : List IVec2)).contains (⟨1, 1⟩ : IVec2) = false from rfl]
  simp only [Bool.false_eq_true, if_false]
  rw [show cNbrs ⟨1, 1⟩ = [⟨1 - 1, 1⟩, ⟨1 + 1, 1⟩] from
    corridor_nbrs 1 (by omega) (by omega)]
  rw [show ((1 : Int) - 1) = 0 by norm_num]
  have hcont1 : (([⟨1, 1⟩] : List IVec2)).contains (⟨0, 1⟩ : IVec2) = false :=
    by decide
  have hcont2 :
      (([⟨1, 1⟩] : List IVec2)).contains (⟨1 + 1, 1⟩ : IVec2) = false := by
    decide
  simp only [List.filter_cons, List.filter_nil, hcont1, hcont2,
    Bool.not_false, Bool.false_eq_true, if_true, List.map_cons, List.map_nil]
  have ha : 1 ≤ 1 := le_refl 1
  have hb : 1 + (n - 2) + 1 = n := by omega
  have hc : (n - 2) + 1 ≤ m := by omega
  have hres := corridor_loop n h2 h49 (n - 2) 1 m ha hb hc
  have hcast : ((1 : Nat) : Int) = (1 : Int) := Nat.cast_one
  rw [hcast] at hres
  exact hres

theorem corridor_start_tile : pos_to_tile ⟨45, 45⟩ = ⟨1, 1⟩ := by
  with_unfolding_all rfl

theorem corridor_goal_tile (n : Nat) :
    pos_to_tile ⟨(n : ℚ) * 30 + 15, 45⟩ = ⟨(n : Int), 1⟩ := by
  show (⟨⌊((n : ℚ) * 30 + 15) / 30⌋, ⌊(45 : ℚ) / 30⌋⟩ : IVec2) =
    ⟨(n : Int), 1⟩
  have hx : ((n : ℚ) * 30 + 15) / 30 = (n : ℚ) + 1 / 2 := by ring
  have hy : (45 : ℚ) / 30 = 1 + 1 / 2 := by norm_num
  rw [hx, hy]
  have h1 : ⌊(n : ℚ) + 1 / 2⌋ = (n : Int) := by
    rw [Int.floor_eq_iff]
    constructor
    · push_cast
      linarith
    · push_cast
      linarith
  have h2 : ⌊(1 : ℚ) + 1 / 2⌋ = (1 : Int) := by
    rw [Int.floor_eq_iff]
    constructor <;> norm_num
  rw [h1, h2]

theorem cons_revTiles (n : Nat) (h1 : 1 ≤ n) :
    (⟨(n : Int), 1⟩ : IVec2) :: revTiles (n - 1) = revTiles n := by
  obtain ⟨m, rfl⟩ : ∃ m, n = m + 1 := ⟨n - 1, by omega⟩
  have hc : ((m + 1 : Nat) : Int) = (m : Int) + 1 := by push_cast; ring
  rw [hc]
  rfl

theorem revTiles_reverse_map : ∀ (n : Nat),
    (revTiles n).reverse.map
        (fun pos => (⟨(pos.x : ℚ) * 30, (pos.y : ℚ) * 30⟩ : Vec2)) =
      (List.range n).map fun k => ⟨((k : ℚ) + 1) * 30, 30⟩ := by
  intro n
  induction n with
  | zero => rfl
  | succ m ih =>
    simp only [show revTiles (m + 1) = ⟨(m : Int) + 1, 1⟩ :: revTiles m
        from rfl,
      List.reverse_cons, List.map_append, List.range_succ, List.map_cons,
      List.map_nil, ih]
    have h1 : (((m : Int) + 1 : Int) : ℚ) * 30 = ((m : ℚ) + 1) * 30 := by
      norm_cast
    have h2 : ((1 : Int) : ℚ) * 30 = (30 : ℚ) := by norm_num
    rw [h1, h2]

theorem corridor_path (n : Nat) (h2 : 2 ≤ n) (h49 : n ≤ 49) :
    Floor.find_path ⟨corridorObjects⟩ ⟨45, 45⟩ ⟨(n : ℚ) * 30 + 15, 45⟩ false
        false none =
      some ((List.range n).map fun k => ⟨((k : ℚ) + 1) * 30, 30⟩) := by
  have heq : Floor.find_path ⟨corridorObjects⟩ ⟨45, 45⟩
        ⟨(n : ℚ) * 30 + 15, 45⟩ false false none =
      (astar (pos_to_tile ⟨45, 45⟩) cNbrs
          (fun pos => distance_squared pos
            (pos_to_tile ⟨(n : ℚ) * 30 + 15, 45⟩))
          (pos_to_tile ⟨(n : ℚ) * 30 + 15, 45⟩)).map
        (fun positions =>
          positions.map fun pos =>
            (⟨(pos.x : ℚ) * 30, (pos.y : ℚ) * 30⟩ : Vec2)) := rfl
  rw [heq, corridor_start_tile, corridor_goal_tile n]
  rw [show (fun pos => distance_squared pos (⟨(n : Int), 1⟩ : IVec2)) = cH n
    from rfl]
  rw [corridor_start n h2 h49]
  show some ((((⟨(n : Int), 1⟩ : IVec2) :: revTiles (n - 1)).reverse).map
      (fun pos => (⟨(pos.x : ℚ) * 30, (pos.y : ℚ) * 30⟩ : Vec2))) = _
  rw [cons_revTiles n (by omega), revTiles_reverse_map n]

theorem find_path_none_of_collidable_goal (f : Floor) (startC goalC : Vec2)
    (only_visible ignore_door_collision : Bool) (randomness : Option Int)
    (obj : Object)
    (hobj : get_object_from_pos_list (pos_to_tile goalC) f.objects = some obj)
    (hcol : obj.is_collidable = true) (hdoor : obj.door = none)
    (hne : ¬pos_to_tile startC = pos_to_tile goalC) :
    f.find_path startC goalC only_visible ignore_door_collision randomness =
      none := by
  have heq : f.find_path startC goalC only_visible ignore_door_collision
        randomness =
      (astar (pos_to_tile startC)
          (fun pos => find_viable_neighbors f.objects pos
            (if only_visible then some (f.visible_objects startC none)
            else none) ignore_door_collision)
          (fun pos => distance_squared pos (pos_to_tile goalC))
          (pos_to_tile goalC)).map
        (fun positions =>
          positions.map fun pos =>
            (⟨(pos.x : ℚ) * 30, (pos.y : ℚ) * 30⟩ : Vec2)) := rfl
  rw [heq]
  cases hres : astar (pos_to_tile startC)
      (fun pos => find_viable_neighbors f.objects pos
        (if only_visible then some (f.visible_objects startC none) else none)
        ignore_door_collision)
      (fun pos => distance_squared pos (pos_to_tile goalC))
      (pos_to_tile goalC) with
  | none => rfl
  | some path =>
    exfalso
    have hQ : ∀ p q, q ∈ (fun pos => find_viable_neighbors f.objects pos
          (if only_visible then some (f.visible_objects startC none)
          else none) ignore_door_collision) p →
        ¬q = pos_to_tile goalC := by
      intro p q hq hqe
      subst hqe
      exact goal_not_viable_neighbor hobj hcol hdoor p _ _ hq
    have hstart : ∀ a ∈ ([⟨pos_to_tile startC, [], 0⟩] : List ANode),
        ¬a.cur = pos_to_tile goalC := by
      intro a ha
      rcases List.mem_singleton.mp ha with rfl
      exact hne
    exact (astar_go_reaches _ _ _ (fun q => ¬q = pos_to_tile goalC) hQ
      ASTAR_FUEL _ [] hstart path hres) rfl

/-- C5: pathfinding result shape.  On the corridor floor, `find_path` from
the start tile's center to the center of the tile `n - 1` tiles further
down the corridor returns the full `n`-tile route — the start tile included
as the first waypoint — with every waypoint the tile position scaled by
`TILE_SIZE = 30` (the tile's top-left world corner, not its center),
monotonically approaching the goal; and on every floor whose goal tile
holds a collidable object that is not a door, with the goal tile distinct
from the start tile, `find_path` returns `None` whatever the visibility
restriction and door-collision flags. -/
theorem C5_pathfinding :
    (∀ n : Nat, 2 ≤ n → n ≤ 49 →
      Floor.find_path ⟨corridorObjects⟩ ⟨45, 45⟩ ⟨(n : ℚ) * 30 + 15, 45⟩
          false false none =
        some ((List.range n).map fun k => ⟨((k : ℚ) + 1) * 30, 30⟩)) ∧
    (∀ (f : Floor) (startC goalC : Vec2)
      (only_visible ignore_door_collision : Bool) (randomness : Option Int)
      (obj : Object),
      get_object_from_pos_list (pos_to_tile goalC) f.objects = some obj →
      obj.is_collidable = true → obj.door = none →
      ¬pos_to_tile startC = pos_to_tile goalC →
      f.find_path startC goalC only_visible ignore_door_collision randomness =
        none) :=
  ⟨fun n h2 h49 => corridor_path n h2 h49,
    fun f startC goalC ov idc rnd obj hobj hcol hdoor hne =>
      find_path_none_of_collidable_goal f startC goalC ov idc rnd obj hobj
        hcol hdoor hne⟩

theorem C5_counterexample :
    Floor.find_path ⟨corridorObjects⟩ ⟨45, 45⟩ ⟨135, 45⟩ false false none =
        some [⟨30, 30⟩, ⟨60, 30⟩, ⟨90, 30⟩, ⟨120, 30⟩] ∧
    (Floor.find_path ⟨corridorObjects⟩ ⟨45, 45⟩ ⟨135, 45⟩ false false
        none).map List.length = some 4 ∧
    ¬(4 : Nat) = 3 ∧
    ¬(⟨30, 30⟩ : Vec2) = ⟨75, 45⟩ ∧ ¬(⟨30, 30⟩ : Vec2) = ⟨45, 45⟩ ∧
    Floor.find_path ⟨corridorObjects⟩ ⟨15, 15⟩ ⟨15, 15⟩ false false none =
        some [⟨0, 0⟩] :=
  ⟨by with_unfolding_all rfl, by with_unfolding_all rfl,
    of_decide_eq_true (by with_unfolding_all rfl),
    of_decide_eq_true (by with_unfolding_all rfl),
    of_decide_eq_true (by with_unfolding_all rfl),
    by with_unfolding_all rfl⟩

theorem C5_pathfinding_witness :
    Floor.find_path ⟨corridorObjects⟩ ⟨45, 45⟩ ⟨((2 : Nat) : ℚ) * 30 + 15, 45⟩
        false false none =
      some ((List.range 2).map fun k => ⟨((k : ℚ) + 1) * 30, 30⟩) ∧
    Floor.find_path ⟨corridorObjects⟩ ⟨45, 45⟩ ⟨15, 15⟩ false false none =
      none :=
  ⟨C5_pathfinding.1 2 (by decide) (by decide),
    C5_pathfinding.2 ⟨corridorObjects⟩ ⟨45, 45⟩ ⟨15, 15⟩ false false none
      (fallbackObject 0) (by with_unfolding_all rfl) rfl rfl
      (of_decide_eq_true (by with_unfolding_all rfl))⟩
